import Mathlib

/-!
Bamboo asynctaskmanager: the task and worker model, the stores and the services.

A shallow embedding of the domain model of `asynctaskmanager`
(`domain/model/task.go`, `domain/model/worker.go`, `domain/model/task_config.go`,
`domain/model/task_log.go`), of the task repositories, the Redis queue manager and
worker registry, and of the three application services.

Conventions of the embedding.

* Go `string` is `String`; the string-typed enumerations (`TaskStatus`,
  `WorkerStatus`, `LogType`) stay strings, so a value outside the declared
  constants is a possible input, as it is in Go.
* Go `int` fields are `Int`, `int` being the 64-bit type; a Go value is one between
  `minInt` and `maxInt`.  The increment `x++` is `goIncr`, which wraps from the
  largest `int` to the smallest; the decrement of `CompleteTask` is guarded by
  `CurrentLoad > 0` and cannot wrap.  The `uint64` counter of the round-robin
  balancer is taken modulo `2^64`.
* `time.Time` is an `Int` count of nanoseconds, `time.Duration` an `Int` of
  nanoseconds, and every reading of the clock (`time.Now()`, `time.Since`) is an
  explicit argument named `now`.  The saturation of `time.Time.Sub` at about 292
  years is not modelled.
* A pointer that may be nil (`*time.Time`) is an `Option`.  A `*Task` or `*Worker`
  is the value it points to: a method with a pointer receiver returns the changed
  value.
* The free-form maps (`map[string]interface{}`) are opaque association lists.
* A Go `error` is an `Option String`; a function returning `(T, error)` returns a
  pair, and a method that changes a store returns the new store first.
-/

namespace Bamboo

/-! ## Basic types -/

/-- Instants, in nanoseconds. -/
abbrev Time := Int

/-- Durations, in nanoseconds (`time.Duration`). -/
abbrev Duration := Int

/-- The duration `time.Second`. -/
def Second : Duration := 1000000000

/-- The duration `time.Millisecond`. -/
def Millisecond : Duration := 1000000

/-- Free-form map `map[string]interface{}`, kept opaque. -/
abbrev Blob := List (String × String)

/-- The largest Go `int`, `int(^uint(0) >> 1)`. -/
def maxInt : Int := 9223372036854775807

/-- The smallest Go `int`. -/
def minInt : Int := -9223372036854775808

/-- The statement `x++` on an `int`: two's complement, so the largest `int` is
followed by the smallest. -/
def goIncr (x : Int) : Int := if x = maxInt then minInt else x + 1

/-! ## `domain/model/task.go` -/

/-- The Go type `TaskStatus` is a string. -/
abbrev TaskStatus := String

def StatusPending : TaskStatus := "PENDING"
def StatusProcessing : TaskStatus := "PROCESSING"
def StatusSuccess : TaskStatus := "SUCCESS"
def StatusFailed : TaskStatus := "FAILED"
def StatusCancelled : TaskStatus := "CANCELLED"
def StatusTimeout : TaskStatus := "TIMEOUT"

/-- The Go type `TaskPriority` is an int. -/
abbrev TaskPriority := Int

def PriorityNormal : TaskPriority := 0
def PriorityHigh : TaskPriority := 1

/-- Method `TaskPriority.IsHigh`. -/
def TaskPriority.IsHigh (p : TaskPriority) : Bool := p == PriorityHigh

/-- Method `TaskPriority.IsNormal`. -/
def TaskPriority.IsNormal (p : TaskPriority) : Bool := p == PriorityNormal

/-- The struct `Task`. -/
structure Task where
  ID : Int := 0
  TaskID : String := ""
  TaskType : String := ""
  Priority : TaskPriority := 0
  Status : TaskStatus := ""
  Payload : Blob := []
  Result : Blob := []
  ErrorMsg : String := ""
  RetryCount : Int := 0
  MaxRetry : Int := 0
  Timeout : Int := 0
  WorkerID : String := ""
  ScheduledAt : Time := 0
  StartedAt : Option Time := none
  CompletedAt : Option Time := none
  CreatedAt : Time := 0
  UpdatedAt : Time := 0
deriving DecidableEq, Repr

namespace Task

/-- Method `CanRetry`:
`(t.Status == StatusFailed || t.Status == StatusTimeout) && t.RetryCount < t.MaxRetry`. -/
def CanRetry (t : Task) : Bool :=
  (t.Status == StatusFailed || t.Status == StatusTimeout) && decide (t.RetryCount < t.MaxRetry)

/-- Method `MarkAsProcessing`; `now` is the value of `time.Now()`. -/
def MarkAsProcessing (t : Task) (workerID : String) (now : Time) : Task :=
  { t with Status := StatusProcessing, WorkerID := workerID, StartedAt := some now }

/-- Method `MarkAsSuccess`. -/
def MarkAsSuccess (t : Task) (result : Blob) (now : Time) : Task :=
  { t with Status := StatusSuccess, Result := result, CompletedAt := some now }

/-- Method `MarkAsFailed`. -/
def MarkAsFailed (t : Task) (errorMsg : String) (now : Time) : Task :=
  { t with Status := StatusFailed, ErrorMsg := errorMsg, CompletedAt := some now }

/-- Method `MarkAsTimeout`. -/
def MarkAsTimeout (t : Task) (now : Time) : Task :=
  { t with Status := StatusTimeout, ErrorMsg := "Task execution timeout", CompletedAt := some now }

/-- Method `MarkAsCancelled`. -/
def MarkAsCancelled (t : Task) (now : Time) : Task :=
  { t with Status := StatusCancelled, CompletedAt := some now }

/-- Method `MarkAsRetrying`: status back to PENDING, `RetryCount++`, worker and
both timestamps cleared. -/
def MarkAsRetrying (t : Task) : Task :=
  { t with
    Status := StatusPending
    RetryCount := goIncr t.RetryCount
    WorkerID := ""
    StartedAt := none
    CompletedAt := none }

/-- Method `IsTimeout`; `now - s` is `time.Since(*t.StartedAt)`. -/
def IsTimeout (t : Task) (now : Time) : Bool :=
  match t.StartedAt with
  | none => false
  | some s =>
    if t.Status != StatusProcessing then false
    else decide (now - s > t.Timeout * Second)

/-- Method `IsFinalState`. -/
def IsFinalState (t : Task) : Bool :=
  t.Status == StatusSuccess || t.Status == StatusCancelled ||
    (t.Status == StatusFailed && !t.CanRetry) ||
    (t.Status == StatusTimeout && !t.CanRetry)

end Task

/-! ## `domain/model/task_config.go` -/

/-- The struct `TaskConfig` (the free-form `ExecutorConfig` map and the
floating-point `BackoffRate` play no role in task creation and are left out). -/
structure TaskConfig where
  ID : Int := 0
  TaskType : String := ""
  TaskName : String := ""
  Description : String := ""
  ExecutorType : String := ""
  DefaultTimeout : Int := 0
  DefaultMaxRetry : Int := 0
  RetryStrategy : String := ""
  RetryDelay : Int := 0
  MaxConcurrent : Int := 0
  Enabled : Bool := false
  CreatedAt : Time := 0
  UpdatedAt : Time := 0
deriving DecidableEq, Repr

/-- Method `TaskConfig.IsEnabled`. -/
def TaskConfig.IsEnabled (tc : TaskConfig) : Bool := tc.Enabled

/-- Method `TaskConfig.CreateTask`.  The three arguments `nowS`, `nowC`, `nowU` are
the three successive readings of `time.Now()`; every field that the Go composite
literal does not mention has its zero value. -/
def TaskConfig.CreateTask (tc : TaskConfig) (taskID : String) (priority : TaskPriority)
    (payload : Blob) (nowS nowC nowU : Time) : Task :=
  { TaskID := taskID
    TaskType := tc.TaskType
    Priority := priority
    Status := StatusPending
    Payload := payload
    MaxRetry := tc.DefaultMaxRetry
    Timeout := tc.DefaultTimeout
    ScheduledAt := nowS
    CreatedAt := nowC
    UpdatedAt := nowU }

/-! ## Task operations as a transition system -/

/-- The six state-changing methods of `Task`, with their arguments. -/
inductive TaskOp where
  | markAsProcessing (workerID : String) (now : Time)
  | markAsSuccess (result : Blob) (now : Time)
  | markAsFailed (errorMsg : String) (now : Time)
  | markAsTimeout (now : Time)
  | markAsCancelled (now : Time)
  | markAsRetrying
deriving DecidableEq, Repr

/-- Run one method on a task. -/
def TaskOp.apply : TaskOp → Task → Task
  | .markAsProcessing w now, t => t.MarkAsProcessing w now
  | .markAsSuccess r now, t => t.MarkAsSuccess r now
  | .markAsFailed e now, t => t.MarkAsFailed e now
  | .markAsTimeout now, t => t.MarkAsTimeout now
  | .markAsCancelled now, t => t.MarkAsCancelled now
  | .markAsRetrying, t => t.MarkAsRetrying

/-- An operation is called with a worker id only if that id is non-empty. -/
def TaskOp.workerNonEmpty : TaskOp → Bool
  | .markAsProcessing w _ => w != ""
  | _ => true

/-- No restriction on the operations. -/
def TaskOp.anyCall : TaskOp → Bool := fun _ => true

/-- Tasks obtained from `TaskConfig.CreateTask` by any sequence of the six `Task`
methods, each call satisfying `guard`. -/
inductive TaskReachable (guard : TaskOp → Bool) : Task → Prop where
  | create (tc : TaskConfig) (taskID : String) (priority : TaskPriority) (payload : Blob)
      (nowS nowC nowU : Time) :
      TaskReachable guard (tc.CreateTask taskID priority payload nowS nowC nowU)
  | step (op : TaskOp) (t : Task) :
      TaskReachable guard t → guard op = true → TaskReachable guard (op.apply t)

/-! ## `domain/model/worker.go` -/

/-- The Go type `WorkerStatus` is a string. -/
abbrev WorkerStatus := String

def WorkerOnline : WorkerStatus := "ONLINE"
def WorkerOffline : WorkerStatus := "OFFLINE"

/-- The struct `Worker`. -/
structure Worker where
  ID : Int := 0
  WorkerID : String := ""
  WorkerName : String := ""
  Address : String := ""
  Status : WorkerStatus := ""
  Capacity : Int := 0
  CurrentLoad : Int := 0
  SupportedTypes : List String := []
  LastHeartbeat : Time := 0
  CreatedAt : Time := 0
  UpdatedAt : Time := 0
deriving DecidableEq, Repr

namespace Worker

/-- Method `IsHealthy`: `time.Since(w.LastHeartbeat) <= timeout`, the clock
reading being the argument `now`. -/
def IsHealthy (w : Worker) (timeout : Duration) (now : Time) : Bool :=
  decide (now - w.LastHeartbeat ≤ timeout)

/-- Method `CanAcceptTask`. -/
def CanAcceptTask (w : Worker) : Bool :=
  w.Status == WorkerOnline && decide (w.CurrentLoad < w.Capacity)

/-- Method `AcceptTask`. -/
def AcceptTask (w : Worker) : Worker :=
  { w with CurrentLoad := goIncr w.CurrentLoad }

/-- Method `CompleteTask`. -/
def CompleteTask (w : Worker) : Worker :=
  if w.CurrentLoad > 0 then { w with CurrentLoad := w.CurrentLoad - 1 } else w

/-- Method `UpdateHeartbeat`. -/
def UpdateHeartbeat (w : Worker) (now : Time) : Worker :=
  { w with LastHeartbeat := now }

/-- Method `SupportsTaskType`. -/
def SupportsTaskType (w : Worker) (taskType : String) : Bool :=
  w.SupportedTypes.any (fun t => t == taskType)

/-- Method `MarkOnline`. -/
def MarkOnline (w : Worker) : Worker := { w with Status := WorkerOnline }

/-- Method `MarkOffline`. -/
def MarkOffline (w : Worker) : Worker := { w with Status := WorkerOffline }

end Worker

/-! ## `domain/model/task_log.go` -/

/-- The Go type `LogType` is a string. -/
abbrev LogType := String

def LogTypeStateChange : LogType := "STATE_CHANGE"
def LogTypeRetry : LogType := "RETRY"
def LogTypeError : LogType := "ERROR"
def LogTypeInfo : LogType := "INFO"

/-- The struct `TaskLog`. -/
structure TaskLog where
  ID : Int := 0
  TaskID : String := ""
  LogType : LogType := ""
  FromStatus : TaskStatus := ""
  ToStatus : TaskStatus := ""
  Message : String := ""
  WorkerID : String := ""
  RetryCount : Int := 0
  ErrorDetail : String := ""
  CreatedAt : Time := 0
deriving DecidableEq, Repr

/-- Function `NewStateChangeLog`. -/
def NewStateChangeLog (taskID : String) (fromStatus toStatus : TaskStatus)
    (workerID message : String) (now : Time) : TaskLog :=
  { TaskID := taskID, LogType := LogTypeStateChange, FromStatus := fromStatus,
    ToStatus := toStatus, WorkerID := workerID, Message := message, CreatedAt := now }

/-- Function `NewRetryLog`. -/
def NewRetryLog (taskID : String) (retryCount : Int) (message : String) (now : Time) : TaskLog :=
  { TaskID := taskID, LogType := LogTypeRetry, RetryCount := retryCount, Message := message,
    CreatedAt := now }

/-- Function `NewErrorLog`. -/
def NewErrorLog (taskID workerID message errorDetail : String) (now : Time) : TaskLog :=
  { TaskID := taskID, LogType := LogTypeError, WorkerID := workerID, Message := message,
    ErrorDetail := errorDetail, CreatedAt := now }

/-! ## Go errors and maps -/

/-- A Go `error` value: `none` is `nil`, `some msg` an error with that message. -/
abbrev GoError := Option String

/-- A Go map with string keys, as an association list with at most one entry per
key. -/
abbrev StrMap (α : Type) := List (String × α)

/-- Map lookup `m[k]`. -/
def StrMap.get {α : Type} (m : StrMap α) (k : String) : Option α :=
  match m with
  | [] => none
  | (k1, v) :: rest => if k1 == k then some v else StrMap.get rest k

/-- Map assignment `m[k] = v`: replaces the entry of `k`, or adds one. -/
def StrMap.set {α : Type} (m : StrMap α) (k : String) (v : α) : StrMap α :=
  match m with
  | [] => [(k, v)]
  | (k1, v1) :: rest => if k1 == k then (k, v) :: rest else (k1, v1) :: StrMap.set rest k v

/-- Map deletion `delete(m, k)`. -/
def StrMap.del {α : Type} (m : StrMap α) (k : String) : StrMap α :=
  m.filter (fun e => !(e.1 == k))

/-! ## `infrastructure/memory/task_repository_impl.go` -/

/-- The field `tasks map[string]*model.Task` of `taskRepositoryImpl`.  The map
holds pointers in Go and values here: what a caller does to a task after `GetByID`
reaches the map through `Update`. -/
abbrev MemoryTaskRepo := StrMap Task

namespace MemoryTaskRepo

/-- Method `Create`. -/
def Create (r : MemoryTaskRepo) (task : Task) : MemoryTaskRepo × GoError :=
  match StrMap.get r task.TaskID with
  | some _ => (r, some ("task already exists: " ++ task.TaskID))
  | none => (StrMap.set r task.TaskID task, none)

/-- Method `GetByID`. -/
def GetByID (r : MemoryTaskRepo) (taskID : String) : Option Task × GoError :=
  match StrMap.get r taskID with
  | none => (none, some ("task not found: " ++ taskID))
  | some t => (some t, none)

/-- Method `Update`: an error if the id is not a key of the map, otherwise the
entry is replaced by `task` with `UpdatedAt = time.Now()`. -/
def Update (r : MemoryTaskRepo) (task : Task) (now : Time) : MemoryTaskRepo × GoError :=
  match StrMap.get r task.TaskID with
  | none => (r, some ("task not found: " ++ task.TaskID))
  | some _ => (StrMap.set r task.TaskID { task with UpdatedAt := now }, none)

end MemoryTaskRepo

/-! ## `infrastructure/mysql/task_repository_impl.go`

The table `task` is the list of its rows, each row held as the `Task` that
`GetByID` scans out of it; `task_id` is a UNIQUE column.  A failing database call
(`dbErr`) changes nothing. -/

/-- The rows of table `task`. -/
abbrev MysqlTaskRepo := List Task

namespace MysqlTaskRepo

/-- Method `Create`: `json.Marshal(task.Payload)`, which fails on a payload that
JSON cannot encode (`marshalErr`), then the INSERT, which names the columns task_id, task_type, priority,
status, payload, retry_count, max_retry, timeout, scheduled_at, created_at,
updated_at; the other columns stay NULL, and the statement fails on a duplicate
`task_id`. -/
def Create (rows : MysqlTaskRepo) (task : Task) (now : Time) (marshalErr dbErr : Bool) :
    MysqlTaskRepo × GoError :=
  if marshalErr then (rows, some "marshal payload failed")
  else if dbErr || rows.any (fun row => row.TaskID == task.TaskID) then
    (rows, some "insert task failed")
  else
    (rows ++ [{ ID := (rows.length : Int) + 1
                TaskID := task.TaskID
                TaskType := task.TaskType
                Priority := if task.Priority == 1 then PriorityHigh else PriorityNormal
                Status := task.Status
                Payload := task.Payload
                RetryCount := task.RetryCount
                MaxRetry := task.MaxRetry
                Timeout := task.Timeout
                ScheduledAt := task.ScheduledAt
                CreatedAt := task.CreatedAt
                UpdatedAt := now }], none)

/-- Method `GetByID`. -/
def GetByID (rows : MysqlTaskRepo) (taskID : String) (dbErr : Bool) : Option Task × GoError :=
  if dbErr then (none, some "query task failed")
  else
    match rows.find? (fun row => row.TaskID == taskID) with
    | none => (none, some ("task not found: " ++ taskID))
    | some t => (some t, none)

/-- The assignment list of the UPDATE statement of `Update`. -/
def updateRow (row task : Task) (now : Time) : Task :=
  { row with
    Status := task.Status
    Result := task.Result
    ErrorMsg := task.ErrorMsg
    WorkerID := task.WorkerID
    RetryCount := task.RetryCount
    ScheduledAt := task.ScheduledAt
    StartedAt := task.StartedAt
    CompletedAt := task.CompletedAt
    UpdatedAt := now }

/-- Method `Update`: `json.Marshal(task.Result)`, which fails on a result that JSON
cannot encode (`marshalErr`), then
`UPDATE task SET status = ?, result = ?, error_message = ?, worker_id = ?,
retry_count = ?, scheduled_at = ?, started_at = ?, completed_at = ?, updated_at = ?
WHERE task_id = ?`, which fails when the database call fails (`dbErr`).  The values
of a map are not modelled, so whether the result can be encoded is an input.  A
result that `GetByID` read out of the JSON column, or no result at all, can always
be encoded. -/
def Update (rows : MysqlTaskRepo) (task : Task) (now : Time) (marshalErr dbErr : Bool) :
    MysqlTaskRepo × GoError :=
  if marshalErr then (rows, some "marshal result failed")
  else if dbErr then (rows, some "update task failed")
  else (rows.map (fun row => if row.TaskID == task.TaskID then updateRow row task now else row),
    none)

/-- Method `FindTimeoutTasks`: rows with `status = PROCESSING`, `started_at` not
NULL and `TIMESTAMPDIFF(SECOND, started_at, NOW()) > timeout`. -/
def FindTimeoutTasks (rows : MysqlTaskRepo) (now : Time) (dbErr : Bool) :
    List Task × GoError :=
  if dbErr then ([], some "query timeout tasks failed")
  else
    (rows.filter (fun row =>
      row.Status == StatusProcessing &&
        match row.StartedAt with
        | none => false
        | some s => decide (Int.tdiv (now - s) Second > row.Timeout)), none)

end MysqlTaskRepo

/-! ## `infrastructure/mysql/task_log_repository_impl.go` -/

/-- The rows of table `task_log`, oldest first. -/
abbrev TaskLogRepo := List TaskLog

/-- Method `Create` of the log repository: one INSERT. -/
def TaskLogRepo.Create (logs : TaskLogRepo) (log : TaskLog) (dbErr : Bool) :
    TaskLogRepo × GoError :=
  if dbErr then (logs, some "insert task log failed")
  else (logs ++ [{ log with ID := (logs.length : Int) + 1 }], none)

/-! ## `infrastructure/redis/queue_manager.go`

A Redis list is a Lean list whose head is the left end: `LPUSH` conses, `RPOP`
takes the last element.  A cancel mark is the key `task:cancel:{taskID}` together
with the instant at which Redis expires it; the clock of Redis is the clock of the
program.  A failing store call changes nothing. -/

/-- The message of the sentinel `redis.Nil`. -/
def redisNil : String := "redis: nil"

/-- Redis `RPOP key` on one list: value and error, and the list left. -/
def rpop (l : List String) (storeErr : Bool) : List String × String × GoError :=
  if storeErr then (l, "", some "redis: connection error")
  else
    match l.getLast? with
    | none => (l, "", some redisNil)
    | some x => (l.dropLast, x, none)

/-- How long a key lives that is written by `Set(ctx, key, value, expiration)` with a
positive expiration (go-redis, a library): an expiration that is below a second
or not a whole number of seconds is sent as `PX` in whole milliseconds, and one
below a millisecond as `PX 1`; a whole number of seconds is sent as `EX`. -/
def redisLife (expiration : Duration) : Duration :=
  if expiration < Second ∨ expiration % Second ≠ 0 then
    (if expiration < Millisecond then 1 else expiration / Millisecond) * Millisecond
  else expiration

/-- The expiration that `SetCancelMark` passes to `Set`: the untyped constant
`3600` as a `time.Duration`, which counts nanoseconds. -/
def cancelMarkExpiration : Duration := 3600

/-- The keys that the queue manager reads and writes; a cancel mark is a task id with
the instant of its expiry. -/
structure Queues where
  high : List String := []
  normal : List String := []
  worker : StrMap (List String) := []
  cancel : List (String × Time) := []
deriving DecidableEq, Repr

namespace Queues

/-- Method `PushTask`: LPUSH to `queue:high` if the priority is high, else to
`queue:normal`. -/
def PushTask (q : Queues) (taskID : String) (priority : TaskPriority) (storeErr : Bool) :
    Queues × GoError :=
  if storeErr then (q, some "redis: connection error")
  else if priority.IsHigh then ({ q with high := taskID :: q.high }, none)
  else ({ q with normal := taskID :: q.normal }, none)

/-- Method `PopTask`: RPOP on `queue:high`; on any error of that call, RPOP on
`queue:normal`. -/
def PopTask (q : Queues) (errHigh errNormal : Bool) : Queues × String × GoError :=
  match rpop q.high errHigh with
  | (l, taskID, none) => ({ q with high := l }, taskID, none)
  | (_, _, some _) =>
    match rpop q.normal errNormal with
    | (l, taskID, err) => ({ q with normal := l }, taskID, err)

/-- The list at key `worker:{workerID}:queue`. -/
def workerQueue (q : Queues) (workerID : String) : List String :=
  (StrMap.get q.worker workerID).getD []

/-- Method `PushToWorkerQueue`. -/
def PushToWorkerQueue (q : Queues) (workerID taskID : String) (storeErr : Bool) :
    Queues × GoError :=
  if storeErr then (q, some "redis: connection error")
  else ({ q with worker := StrMap.set q.worker workerID (taskID :: q.workerQueue workerID) }, none)

/-- Method `PopFromWorkerQueue`. -/
def PopFromWorkerQueue (q : Queues) (workerID : String) (storeErr : Bool) :
    Queues × String × GoError :=
  match rpop (q.workerQueue workerID) storeErr with
  | (_, taskID, some e) => (q, taskID, some e)
  | (l, taskID, none) => ({ q with worker := StrMap.set q.worker workerID l }, taskID, none)

/-- Does the key `task:cancel:{taskID}` exist at `now`: is there a mark of the id
that has not expired? -/
def marked (q : Queues) (taskID : String) (now : Time) : Bool :=
  q.cancel.any (fun m => m.1 == taskID && decide (now < m.2))

/-- Method `SetCancelMark`: `Set(ctx, key, "1", 3600)` at `now`, which replaces the
key and its expiry. -/
def SetCancelMark (q : Queues) (taskID : String) (now : Time) (storeErr : Bool) :
    Queues × GoError :=
  if storeErr then (q, some "redis: connection error")
  else
    ({ q with cancel := (taskID, now + redisLife cancelMarkExpiration) ::
        q.cancel.filter (fun m => !(m.1 == taskID)) }, none)

/-- Method `CheckCancelMark`: `Exists(ctx, key) > 0` at `now`. -/
def CheckCancelMark (q : Queues) (taskID : String) (now : Time) (storeErr : Bool) :
    Bool × GoError :=
  if storeErr then (false, some "redis: connection error")
  else (q.marked taskID now, none)

/-- Method `RemoveCancelMark`. -/
def RemoveCancelMark (q : Queues) (taskID : String) (storeErr : Bool) : Queues × GoError :=
  if storeErr then (q, some "redis: connection error")
  else ({ q with cancel := q.cancel.filter (fun m => !(m.1 == taskID)) }, none)

end Queues

/-- A sequence of `PushTask` calls, every store call succeeding. -/
def pushAll (q : Queues) : List (String × TaskPriority) → Queues
  | [] => q
  | (taskID, priority) :: rest => pushAll (q.PushTask taskID priority false).1 rest

/-- The ids waiting in `queue:high`, the earliest pushed first. -/
def Queues.highFifo (q : Queues) : List String := q.high.reverse

/-- The ids waiting in `queue:normal`, the earliest pushed first. -/
def Queues.normalFifo (q : Queues) : List String := q.normal.reverse

/-- The task ids of the pushes with a high priority, in push order. -/
def highIDs (pushes : List (String × TaskPriority)) : List String :=
  (pushes.filter (fun p => p.2.IsHigh)).map (fun p => p.1)

/-- The task ids of the other pushes, in push order. -/
def normalIDs (pushes : List (String × TaskPriority)) : List String :=
  (pushes.filter (fun p => !p.2.IsHigh)).map (fun p => p.1)

/-! ## `infrastructure/redis/worker_registry_impl.go`

The hash at key `worker:{id}` is held as the `Worker` that `parseWorker` reads out
of it; the set at key `worker:type:{taskType}` is a list of worker ids in insertion
order (the order of `SMEMBERS` and of `KEYS` is unspecified in Redis). -/

/-- Split at commas, as `strings.Split(s, ",")` does; `acc` is the current piece,
reversed. -/
def splitCommaAux : List Char → List Char → List String
  | [], acc => [String.mk acc.reverse]
  | c :: cs, acc =>
    if c == ',' then String.mk acc.reverse :: splitCommaAux cs [] else splitCommaAux cs (c :: acc)

/-- The field `supported_types` read back: `strings.Join(types, ",")` on writing,
and `strings.Split(s, ",")` on reading unless the string is empty. -/
def typesRoundTrip (types : List String) : List String :=
  let joined := String.intercalate "," types
  if joined == "" then [] else splitCommaAux joined.data []

/-- What `parseWorker` returns for the hash that `Register` writes for `w`: the
heartbeat is kept in whole seconds, and `ID`, `CreatedAt`, `UpdatedAt` are not
stored. -/
def storedWorker (w : Worker) : Worker :=
  { WorkerID := w.WorkerID
    WorkerName := w.WorkerName
    Address := w.Address
    Status := w.Status
    Capacity := w.Capacity
    CurrentLoad := w.CurrentLoad
    SupportedTypes := typesRoundTrip w.SupportedTypes
    LastHeartbeat := (w.LastHeartbeat / Second) * Second }

/-- Does `sub` occur in `cs` (`strings.Contains`)? -/
def containsChars (sub : List Char) : List Char → Bool
  | [] => sub.isEmpty
  | c :: cs => sub.isPrefixOf (c :: cs) || containsChars sub cs

/-- The worker registry in Redis. -/
structure Registry where
  records : StrMap Worker := []
  typeIndex : StrMap (List String) := []
deriving DecidableEq, Repr

namespace Registry

/-- The members of the set `worker:type:{taskType}`. -/
def members (r : Registry) (taskType : String) : List String :=
  (StrMap.get r.typeIndex taskType).getD []

/-- Redis `SADD` of one member. -/
def sadd (idx : StrMap (List String)) (taskType workerID : String) : StrMap (List String) :=
  let old := (StrMap.get idx taskType).getD []
  if old.contains workerID then idx else StrMap.set idx taskType (old ++ [workerID])

/-- Method `Register` (every store call succeeding): HSET of the eight fields, then
one SADD per supported type. -/
def Register (r : Registry) (w : Worker) : Registry :=
  { records := StrMap.set r.records w.WorkerID (storedWorker w)
    typeIndex := w.SupportedTypes.foldl (fun idx ty => sadd idx ty w.WorkerID) r.typeIndex }

/-- Method `GetByID`: not found when the hash is empty. -/
def GetByID (r : Registry) (workerID : String) (storeErr : Bool) : Option Worker × GoError :=
  if storeErr then (none, some "get worker failed")
  else
    match StrMap.get r.records workerID with
    | none => (none, some "worker not found")
    | some w => (some w, none)

/-- Method `FindAll`: the keys `worker:*` that contain neither `:type:` nor
`:queue`, hydrated. -/
def FindAll (r : Registry) (storeErr : Bool) : List Worker × GoError :=
  if storeErr then ([], some "find worker keys failed")
  else
    ((r.records.filter (fun e =>
        !(containsChars ":type:".data ("worker:" ++ e.1).data ||
          containsChars ":queue".data ("worker:" ++ e.1).data))).map (fun e => e.2), none)

/-- Method `FindHealthy`: `FindAll`, then keep the workers with
`worker.IsHealthy(timeout)`. -/
def FindHealthy (r : Registry) (timeout : Duration) (now : Time) (storeErr : Bool) :
    List Worker × GoError :=
  match r.FindAll storeErr with
  | (_, some e) => ([], some e)
  | (allWorkers, none) => (allWorkers.filter (fun w => w.IsHealthy timeout now), none)

/-- Method `FindByTaskType`: the members of the type index, each hydrated by
`GetByID`, the ids without a record being skipped. -/
def FindByTaskType (r : Registry) (taskType : String) (storeErr : Bool) :
    List Worker × GoError :=
  if storeErr then ([], some "get workers by task type failed")
  else ((r.members taskType).filterMap (fun workerID => (r.GetByID workerID false).1), none)

/-- Method `UpdateLoad`: `HSET worker:{id} current_load load`.  On a key that does
not exist Redis creates a hash with that single field, which `parseWorker` reads
as a worker with every other field zero. -/
def UpdateLoad (r : Registry) (workerID : String) (load : Int) (storeErr : Bool) :
    Registry × GoError :=
  if storeErr then (r, some "redis: connection error")
  else
    match StrMap.get r.records workerID with
    | none => ({ r with records := StrMap.set r.records workerID { CurrentLoad := load } }, none)
    | some w =>
      ({ r with records := StrMap.set r.records workerID { w with CurrentLoad := load } }, none)

end Registry

/-! ## `domain/service/load_balancer.go` -/

/-- The error `ErrNoAvailableWorker`. -/
def ErrNoAvailableWorker : String := "no available worker"

/-- The loop of `LeastTaskLoadBalancer.Select`, carrying `selected` and `minLoad`. -/
def leastTaskLoop : List Worker → Option Worker → Int → Option Worker
  | [], selected, _ => selected
  | w :: rest, selected, minLoad =>
    if w.CanAcceptTask && decide (w.CurrentLoad < minLoad) then
      leastTaskLoop rest (some w) w.CurrentLoad
    else leastTaskLoop rest selected minLoad

/-- Method `LeastTaskLoadBalancer.Select`. -/
def LeastTaskSelect (workers : List Worker) (_taskID : String) : Except String Worker :=
  if workers.length == 0 then .error ErrNoAvailableWorker
  else
    match leastTaskLoop workers none maxInt with
    | none => .error ErrNoAvailableWorker
    | some w => .ok w

/-- Method `RoundRobinLoadBalancer.Select`; the state is the `uint64` counter, and
`atomic.AddUint64` returns the new value. -/
def RoundRobinSelect (counter : Nat) (workers : List Worker) (_taskID : String) :
    Nat × Except String Worker :=
  if workers.length == 0 then (counter, .error ErrNoAvailableWorker)
  else
    let available := workers.filter (fun w => w.CanAcceptTask)
    if h : available.length = 0 then (counter, .error ErrNoAvailableWorker)
    else
      let counter1 := (counter + 1) % 2 ^ 64
      (counter1, .ok (available.get ⟨counter1 % available.length,
        Nat.mod_lt _ (Nat.pos_of_ne_zero h)⟩))

/-- A load balancer, seen through the interface `service.LoadBalancer`: a state
and a `Select` that may change it and returns a worker or an error. -/
structure LoadBalancer (σ : Type) where
  Select : σ → List Worker → String → σ × Except String Worker

/-- The least-task balancer has no state. -/
def leastTaskBalancer : LoadBalancer Unit :=
  { Select := fun _ workers taskID => ((), LeastTaskSelect workers taskID) }

/-- The round-robin balancer. -/
def roundRobinBalancer : LoadBalancer Nat :=
  { Select := fun counter workers taskID => RoundRobinSelect counter workers taskID }

/-! ### The standard library function `crc32.ChecksumIEEE`

The checksum of Go `hash/crc32` with the IEEE polynomial: the reflected CRC-32
with polynomial `0xedb88320`, initial value `0xffffffff` and final complement.
Bytes are natural numbers below 256. -/

/-- One bit of the reflected CRC: shift right, and xor the polynomial in when the
bit shifted out is set. -/
def crc32Bit (c : Nat) : Nat :=
  if c % 2 == 1 then (c / 2) ^^^ 0xedb88320 else c / 2

/-- One byte: xor it into the low bits, then eight bit steps. -/
def crc32Byte (crc byte : Nat) : Nat :=
  crc32Bit (crc32Bit (crc32Bit (crc32Bit (crc32Bit (crc32Bit (crc32Bit (crc32Bit
    (crc ^^^ byte))))))))

/-- Function `crc32.ChecksumIEEE(data)`, a `uint32`. -/
def ChecksumIEEE (data : List Nat) : Nat :=
  (data.foldl crc32Byte 0xffffffff) ^^^ 0xffffffff

/-- The UTF-8 encoding of one character. -/
def utf8Bytes (c : Char) : List Nat :=
  let n := c.toNat
  if n < 0x80 then [n]
  else if n < 0x800 then [0xc0 + n / 64, 0x80 + n % 64]
  else if n < 0x10000 then [0xe0 + n / 4096, 0x80 + n / 64 % 64, 0x80 + n % 64]
  else [0xf0 + n / 262144, 0x80 + n / 4096 % 64, 0x80 + n / 64 % 64, 0x80 + n % 64]

/-- The conversion `[]byte(s)` of a string holding valid UTF-8. -/
def stringBytes (s : String) : List Nat :=
  s.data.flatMap utf8Bytes

/-- Method `ConsistentHashLoadBalancer.Select`.  The hash is a `uint32`, so
`int(hash)` is the same non-negative number for a 64-bit `int`. -/
def ConsistentHashSelect (workers : List Worker) (taskID : String) : Except String Worker :=
  if workers.length == 0 then .error ErrNoAvailableWorker
  else
    let available := workers.filter (fun w => w.CanAcceptTask)
    if h : available.length = 0 then .error ErrNoAvailableWorker
    else
      let hash := ChecksumIEEE (stringBytes taskID)
      .ok (available.get ⟨hash % available.length, Nat.mod_lt _ (Nat.pos_of_ne_zero h)⟩)

/-- The consistent-hash balancer has no state. -/
def consistentHashBalancer : LoadBalancer Unit :=
  { Select := fun _ workers taskID => ((), ConsistentHashSelect workers taskID) }

/-- The two `int` fields of a worker hold values of the 64-bit Go type `int`. -/
def Worker.intFields (w : Worker) : Bool :=
  decide (minInt ≤ w.Capacity) && decide (w.Capacity ≤ maxInt) &&
    decide (minInt ≤ w.CurrentLoad) && decide (w.CurrentLoad ≤ maxInt)

/-- The accept-capable workers of a list, in input order: the slice `available`
of the round-robin and consistent-hash balancers. -/
def acceptCapable (workers : List Worker) : List Worker :=
  workers.filter (fun w => w.CanAcceptTask)

/-- What a `Select` may return on `workers`: the error `ErrNoAvailableWorker`,
exactly when no worker of the list can accept a task, or else a worker of the list
that can accept a task (hence neither at capacity nor OFFLINE). -/
def SelectsAcceptCapable (workers : List Worker) (result : Except String Worker) : Prop :=
  (result = .error ErrNoAvailableWorker ↔ ∀ w ∈ workers, w.CanAcceptTask = false) ∧
    (∀ e, result = .error e → e = ErrNoAvailableWorker) ∧
    (∀ w, result = .ok w →
      w ∈ workers ∧ w.CanAcceptTask = true ∧ w.CurrentLoad ≠ w.Capacity ∧
        w.Status ≠ WorkerOffline)

/-- The results of successive calls of `RoundRobinLoadBalancer.Select` on the same
worker list, one call per task id, starting with the counter at `counter`. -/
def roundRobinCalls (workers : List Worker) : List String → Nat → List (Except String Worker)
  | [], _ => []
  | taskID :: rest, counter =>
    (RoundRobinSelect counter workers taskID).2 ::
      roundRobinCalls workers rest (RoundRobinSelect counter workers taskID).1

/-! ## `infrastructure/executor/executor_registry_impl.go` -/

/-- An executor as the registry and the worker see it: an identity and its
`SupportedTaskTypes()`. -/
structure Executor where
  name : String := ""
  supportedTaskTypes : List String := []
deriving DecidableEq, Repr

/-- The field `executors map[string]service.Executor`. -/
abbrev ExecutorRegistry := StrMap Executor

/-- Method `Get` of the executor registry. -/
def ExecutorRegistry.Get (r : ExecutorRegistry) (taskType : String) : Except String Executor :=
  match StrMap.get r taskType with
  | none => .error ("executor for task type " ++ taskType ++ " not found")
  | some e => .ok e

/-- The loop of `Register` over `executor.SupportedTaskTypes()`: the first type
that is already a key ends the loop with an error, the types before it staying
registered. -/
def registerLoop (executor : Executor) : List String → ExecutorRegistry →
    ExecutorRegistry × GoError
  | [], r => (r, none)
  | taskType :: rest, r =>
    match StrMap.get r taskType with
    | some _ => (r, some ("executor for task type " ++ taskType ++ " already registered"))
    | none => registerLoop executor rest (StrMap.set r taskType executor)

/-- Method `Register` of the executor registry. -/
def ExecutorRegistry.Register (r : ExecutorRegistry) (executor : Executor) :
    ExecutorRegistry × GoError :=
  registerLoop executor executor.supportedTaskTypes r

/-- What `Execute` returned: a result map, or an error together with whether the
deadline of the execution context had passed (`execCtx.Err() ==
context.DeadlineExceeded`). -/
inductive ExecOutcome where
  | success (result : Blob)
  | failure (errMsg : String) (deadlineExceeded : Bool)
deriving DecidableEq, Repr

/-! ## The application services

The durable store (MySQL) and the coordination store (Redis) form the shared state
`Store`.  One call of a service method is one atomic step.  Which store calls fail
during the call is an input (`Faults`), as are the clock reading `now` (one reading
stands for all the readings of the call), the fresh UUID, and what the executor
returned.

A task that `GetByID` has loaded carries the result read out of the JSON column, or
none, and `json.Marshal` encodes either; so the services pass `false` for the
encoding failure of `Update`, except where the result is the one that the executor
has just returned (`Faults.marshalResult`). -/

/-- The shared state. -/
structure Store where
  tasks : MysqlTaskRepo := []
  logs : TaskLogRepo := []
  configs : List TaskConfig := []
  queues : Queues := {}
  registry : Registry := {}
deriving DecidableEq, Repr

/-- Which store calls fail during one call of a service method. -/
structure Faults where
  getConfig : Bool := false
  marshalPayload : Bool := false
  createTask : Bool := false
  getByID : Bool := false
  marshalResult : Bool := false
  update : Bool := false
  createLog : Bool := false
  pushTask : Bool := false
  popHigh : Bool := false
  popNormal : Bool := false
  pushWorkerQueue : Bool := false
  popWorkerQueue : Bool := false
  setCancel : Bool := false
  checkCancel : Bool := false
  removeCancel : Bool := false
  findByTaskType : Bool := false
  updateLoad : Bool := false
deriving DecidableEq, Repr

/-- The persisted task with this id, if any. -/
def Store.task (st : Store) (taskID : String) : Option Task :=
  st.tasks.find? (fun row => row.TaskID == taskID)

/-! ### `application/task_service.go` -/

namespace TaskService

/-- Method `CreateTask`. -/
def CreateTask (st : Store) (taskType : String) (priority : TaskPriority) (payload : Blob)
    (uuid : String) (now : Time) (f : Faults) : Store × Option Task × GoError :=
  match (if f.getConfig then none else st.configs.find? (fun c => c.TaskType == taskType)) with
  | none => (st, none, some "get task config failed")
  | some config =>
    if !config.IsEnabled then (st, none, some ("task type " ++ taskType ++ " is disabled"))
    else
      let task := config.CreateTask uuid priority payload now now now
      match MysqlTaskRepo.Create st.tasks task now f.marshalPayload f.createTask with
      | (_, some e) => (st, none, some ("create task failed: " ++ e))
      | (tasks, none) =>
        let logEntry := NewStateChangeLog uuid "" StatusPending "" "Task created" now
        let logs := (TaskLogRepo.Create st.logs logEntry f.createLog).1
        match st.queues.PushTask uuid priority f.pushTask with
        | (_, some e) =>
          ({ st with tasks := tasks, logs := logs }, none,
            some ("push task to queue failed: " ++ e))
        | (queues, none) =>
          ({ st with tasks := tasks, logs := logs, queues := queues }, some task, none)

/-- Method `CancelTask`.  The log entry is built after `MarkAsCancelled` has changed
the task in place, so on the PENDING branch its `from_status` is the new status. -/
def CancelTask (st : Store) (taskID : String) (now : Time) (f : Faults) : Store × GoError :=
  match MysqlTaskRepo.GetByID st.tasks taskID f.getByID with
  | (some task, none) =>
    if task.Status != StatusPending && task.Status != StatusProcessing then
      (st, some ("task cannot be cancelled, current status: " ++ task.Status))
    else if task.Status == StatusPending then
      let task1 := task.MarkAsCancelled now
      match MysqlTaskRepo.Update st.tasks task1 now false f.update with
      | (_, some e) => (st, some ("update task failed: " ++ e))
      | (tasks, none) =>
        let logEntry :=
          NewStateChangeLog taskID task1.Status StatusCancelled "" "Task cancelled by user" now
        ({ st with tasks := tasks, logs := (TaskLogRepo.Create st.logs logEntry f.createLog).1 },
          none)
    else
      match st.queues.SetCancelMark taskID now f.setCancel with
      | (_, some e) => (st, some ("set cancel mark failed: " ++ e))
      | (queues, none) =>
        let logEntry :=
          NewStateChangeLog taskID task.Status StatusCancelled "" "Task cancelled by user" now
        ({ st with queues := queues,
                   logs := (TaskLogRepo.Create st.logs logEntry f.createLog).1 }, none)
  | (_, e) => (st, some ("get task failed: " ++ e.getD ""))

end TaskService

/-! ### `application/scheduler_service.go` -/

namespace SchedulerService

/-- The requeue `_ = s.queueManager.PushTask(ctx, taskID, task.Priority)`. -/
def requeue (st : Store) (taskID : String) (priority : TaskPriority) (f : Faults) : Store :=
  { st with queues := (st.queues.PushTask taskID priority f.pushTask).1 }

/-- Method `scanAndSchedule`, for a scheduler with load balancer `lb` (in state
`lbState`) and heartbeat timeout `heartbeatTimeout`. -/
def scanAndSchedule {σ : Type} (lb : LoadBalancer σ) (heartbeatTimeout : Duration)
    (st : Store) (lbState : σ) (now : Time) (f : Faults) : Store × σ × GoError :=
  match st.queues.PopTask f.popHigh f.popNormal with
  | (_, _, some _) => (st, lbState, none)
  | (q1, taskID, none) =>
    let st1 := { st with queues := q1 }
    match MysqlTaskRepo.GetByID st1.tasks taskID f.getByID with
    | (some task, none) =>
      if task.Status != StatusPending then (st1, lbState, none)
      else
        match st1.registry.FindByTaskType task.TaskType f.findByTaskType with
        | (_, some e) => (requeue st1 taskID task.Priority f, lbState, some e)
        | (workers, none) =>
          let healthyWorkers :=
            workers.filter (fun w => w.IsHealthy heartbeatTimeout now && w.CanAcceptTask)
          if healthyWorkers.length == 0 then (requeue st1 taskID task.Priority f, lbState, none)
          else
            match lb.Select lbState healthyWorkers taskID with
            | (lbState1, .error e) => (requeue st1 taskID task.Priority f, lbState1, some e)
            | (lbState1, .ok worker) =>
              let task1 := task.MarkAsProcessing worker.WorkerID now
              match MysqlTaskRepo.Update st1.tasks task1 now false f.update with
              | (_, some e) => (st1, lbState1, some e)
              | (tasks, none) =>
                let st2 := { st1 with tasks := tasks }
                match st2.queues.PushToWorkerQueue worker.WorkerID taskID f.pushWorkerQueue with
                | (_, some e) => (st2, lbState1, some e)
                | (q2, none) =>
                  let worker1 := worker.AcceptTask
                  let registry :=
                    (st2.registry.UpdateLoad worker1.WorkerID worker1.CurrentLoad f.updateLoad).1
                  let logEntry := NewStateChangeLog taskID StatusPending StatusProcessing
                    worker1.WorkerID "Task assigned to worker" now
                  ({ st2 with queues := q2, registry := registry,
                              logs := (TaskLogRepo.Create st2.logs logEntry f.createLog).1 },
                    lbState1, none)
    | (_, e) => (st1, lbState, some ("get task failed: " ++ e.getD ""))

/-- The body of the loop of `checkTimeoutTasks`, for one task of the result of
`FindTimeoutTasks`. -/
def sweepTask (st : Store) (task : Task) (now : Time) (f : Faults) : Store :=
  let task1 := task.MarkAsTimeout now
  if task1.CanRetry then
    let task2 := task1.MarkAsRetrying
    match MysqlTaskRepo.Update st.tasks task2 now false f.update with
    | (_, some _) => st
    | (tasks, none) =>
      let queues := (st.queues.PushTask task2.TaskID task2.Priority f.pushTask).1
      let logEntry := NewRetryLog task2.TaskID task2.RetryCount
        ("Task timeout, retry " ++ toString task2.RetryCount ++ "/" ++ toString task2.MaxRetry)
        now
      { st with tasks := tasks, queues := queues,
                logs := (TaskLogRepo.Create st.logs logEntry f.createLog).1 }
  else
    let tasks := (MysqlTaskRepo.Update st.tasks task1 now false f.update).1
    let logEntry :=
      NewErrorLog task1.TaskID task1.WorkerID "Task timeout and max retry reached" "" now
    { st with tasks := tasks, logs := (TaskLogRepo.Create st.logs logEntry f.createLog).1 }

/-- Method `checkTimeoutTasks`; `faults` gives the failing store calls of each
iteration, by task id. -/
def checkTimeoutTasks (st : Store) (now : Time) (findErr : Bool) (faults : String → Faults) :
    Store × GoError :=
  match MysqlTaskRepo.FindTimeoutTasks st.tasks now findErr with
  | (_, some e) => (st, some ("find timeout tasks failed: " ++ e))
  | (tasks, none) =>
    (tasks.foldl (fun s task => sweepTask s task now (faults task.TaskID)) st, none)

end SchedulerService

/-! ### `application/worker_service.go` -/

/-- The fields of `WorkerService` that `processTask` uses: the worker held in
memory and the executor registry of the process. -/
structure WorkerService where
  worker : Worker := {}
  executorRegistry : ExecutorRegistry := []
deriving DecidableEq, Repr

namespace WorkerService

/-- The two statements "update load": `s.worker.CompleteTask()` and
`s.workerRepo.UpdateLoad(ctx, s.worker.WorkerID, s.worker.CurrentLoad)`. -/
def completeAndUpdateLoad (ws : WorkerService) (st : Store) (f : Faults) :
    WorkerService × Store :=
  let worker := ws.worker.CompleteTask
  ({ ws with worker := worker },
    { st with registry := (st.registry.UpdateLoad worker.WorkerID worker.CurrentLoad
        f.updateLoad).1 })

/-- Method `processTask`; `outcome` is what the executor returns if it is
invoked. -/
def processTask (ws : WorkerService) (st : Store) (outcome : ExecOutcome) (now : Time)
    (f : Faults) : WorkerService × Store × GoError :=
  match st.queues.PopFromWorkerQueue ws.worker.WorkerID f.popWorkerQueue with
  | (_, _, some _) => (ws, st, none)
  | (q1, taskID, none) =>
    let st1 := { st with queues := q1 }
    match MysqlTaskRepo.GetByID st1.tasks taskID f.getByID with
    | (some task, none) =>
      match st1.queues.CheckCancelMark taskID now f.checkCancel with
      | (true, none) =>
        let task1 := task.MarkAsCancelled now
        let st2 := { st1 with
          tasks := (MysqlTaskRepo.Update st1.tasks task1 now false f.update).1
          queues := (st1.queues.RemoveCancelMark taskID f.removeCancel).1 }
        let (ws1, st3) := completeAndUpdateLoad ws st2 f
        (ws1, st3, none)
      | _ =>
        match ws.executorRegistry.Get task.TaskType with
        | .error _ =>
          let task1 := task.MarkAsFailed ("executor not found: " ++ task.TaskType) now
          let st2 := { st1 with tasks := (MysqlTaskRepo.Update st1.tasks task1 now false f.update).1 }
          let (ws1, st3) := completeAndUpdateLoad ws st2 f
          (ws1, st3, some ("executor not found: " ++ task.TaskType))
        | .ok _ =>
          let st2 : Store :=
            match outcome with
            | .failure errMsg deadlineExceeded =>
              let task1 :=
                if deadlineExceeded then task.MarkAsTimeout now else task.MarkAsFailed errMsg now
              if task1.CanRetry then
                let task2 := task1.MarkAsRetrying
                let logEntry := NewRetryLog taskID task2.RetryCount
                  ("Task failed, retry " ++ toString task2.RetryCount ++ "/" ++
                    toString task2.MaxRetry) now
                { st1 with
                  tasks := (MysqlTaskRepo.Update st1.tasks task2 now false f.update).1
                  queues := (st1.queues.PushTask taskID task2.Priority f.pushTask).1
                  logs := (TaskLogRepo.Create st1.logs logEntry f.createLog).1 }
              else
                let logEntry := NewErrorLog taskID ws.worker.WorkerID
                  "Task failed and max retry reached" errMsg now
                { st1 with
                  tasks := (MysqlTaskRepo.Update st1.tasks task1 now false f.update).1
                  logs := (TaskLogRepo.Create st1.logs logEntry f.createLog).1 }
            | .success result =>
              let task1 := task.MarkAsSuccess result now
              let logEntry := NewStateChangeLog taskID StatusProcessing StatusSuccess
                ws.worker.WorkerID "Task completed successfully" now
              { st1 with
                tasks := (MysqlTaskRepo.Update st1.tasks task1 now f.marshalResult f.update).1
                logs := (TaskLogRepo.Create st1.logs logEntry f.createLog).1 }
          let (ws1, st3) := completeAndUpdateLoad ws st2 f
          (ws1, st3, none)
    | (_, e) => (ws, st1, some ("get task failed: " ++ e.getD ""))

end WorkerService

/-! ## `infrastructure/redis/leader_election.go`

The string at key `scheduler:leader` is held as an optional owner id, `none` when
the key does not exist.  One method call is one step; the expiry of the key after
`leaderTTL` is an event of the environment, not a step of the program.  A failing
store call changes nothing. -/

/-- The value at key `scheduler:leader`. -/
abbrev Lease := Option String

namespace LeaderElection

/-- Method `TryAcquire` of the election object of replica `schedulerID`:
`SET scheduler:leader schedulerID NX` with the TTL. -/
def TryAcquire (lease : Lease) (schedulerID : String) (storeErr : Bool) :
    Lease × Bool × GoError :=
  if storeErr then (lease, false, some "acquire leader lock failed: redis: connection error")
  else
    match lease with
    | none => (some schedulerID, true, none)
    | some _ => (lease, false, none)

/-- Method `Renew`: `GET`, which returns `redis.Nil` on a missing key, then the
comparison with the own id, then `EXPIRE`. -/
def Renew (lease : Lease) (schedulerID : String) (getErr expireErr : Bool) : Lease × GoError :=
  if getErr then (lease, some "get current leader failed: redis: connection error")
  else
    match lease with
    | none => (lease, some ("get current leader failed: " ++ redisNil))
    | some currentLeader =>
      if currentLeader != schedulerID then (lease, some "not the current leader")
      else if expireErr then (lease, some "redis: connection error")
      else (lease, none)

/-- Method `Release`: `GET`, the comparison with the own id, then `DEL`. -/
def Release (lease : Lease) (schedulerID : String) (getErr delErr : Bool) : Lease × GoError :=
  if getErr then (lease, some "get current leader failed: redis: connection error")
  else
    match lease with
    | none => (lease, some ("get current leader failed: " ++ redisNil))
    | some currentLeader =>
      if currentLeader != schedulerID then (lease, some "not the current leader")
      else if delErr then (lease, some "redis: connection error")
      else (none, none)

end LeaderElection

/-- One call on the lease by the replica named in it, with the store calls that
fail during it. -/
inductive LeaseCall where
  | tryAcquire (schedulerID : String) (storeErr : Bool)
  | renew (schedulerID : String) (getErr expireErr : Bool)
  | release (schedulerID : String) (getErr delErr : Bool)
deriving DecidableEq, Repr

/-- The lease after one call. -/
def LeaseCall.run (lease : Lease) : LeaseCall → Lease
  | .tryAcquire r storeErr => (LeaderElection.TryAcquire lease r storeErr).1
  | .renew r getErr expireErr => (LeaderElection.Renew lease r getErr expireErr).1
  | .release r getErr delErr => (LeaderElection.Release lease r getErr delErr).1

/-- The lease after a sequence of calls by any replicas. -/
def runLeaseCalls (lease : Lease) (calls : List LeaseCall) : Lease :=
  calls.foldl LeaseCall.run lease

/-- Is this call a `Release` by replica `r`? -/
def LeaseCall.isReleaseBy (r : String) : LeaseCall → Bool
  | .release r1 _ _ => r1 == r
  | _ => false

/-! ## `application/scheduler_service.go`: `Start` and `runAsLeader`

The goroutine that runs `Start` is in the polling loop of `Start`, in the loop of
`runAsLeader`, or has returned.  An event is what the `select` of the current loop
receives, together with the store calls that fail while it is handled. -/

/-- Where the goroutine that runs `SchedulerService.Start` is. -/
inductive SchedulerState where
  | followerPolling
  | leaderLoop
  | stopped (err : String)
deriving DecidableEq, Repr

/-- What a `select` receives. -/
inductive SchedulerEvent where
  | ctxDone (getErr delErr : Bool)
  | pollTick (storeErr : Bool)
  | renewTick (getErr expireErr : Bool)
  | scanTick
  | timeoutTick
deriving DecidableEq, Repr

/-- The message of `ctx.Err()` after a cancellation. -/
def ctxCanceled : String := "context canceled"

/-- One iteration of the loop the goroutine is in, for the scheduler of replica
`schedulerID`: the lease and the state afterwards, or `none` when the loop does not
select on this event (the polling loop has one ticker, the leader loop three, and a
goroutine that has returned handles nothing).  `Start` ends with
`return s.runAsLeader(ctx)`, so what `runAsLeader` returns is what `Start`
returns. -/
def SchedulerState.step (schedulerID : String) (lease : Lease) :
    SchedulerState → SchedulerEvent → Option (Lease × SchedulerState)
  | .followerPolling, .ctxDone _ _ => some (lease, .stopped ctxCanceled)
  | .followerPolling, .pollTick storeErr =>
    match LeaderElection.TryAcquire lease schedulerID storeErr with
    | (lease1, _, some _) => some (lease1, .followerPolling)
    | (lease1, true, none) => some (lease1, .leaderLoop)
    | (lease1, false, none) => some (lease1, .followerPolling)
  | .leaderLoop, .ctxDone getErr delErr =>
    some ((LeaderElection.Release lease schedulerID getErr delErr).1, .stopped ctxCanceled)
  | .leaderLoop, .renewTick getErr expireErr =>
    match LeaderElection.Renew lease schedulerID getErr expireErr with
    | (lease1, some _) => some (lease1, .stopped "lost leadership")
    | (lease1, none) => some (lease1, .leaderLoop)
  | .leaderLoop, .scanTick => some (lease, .leaderLoop)
  | .leaderLoop, .timeoutTick => some (lease, .leaderLoop)
  | _, _ => none

/-- Does the handling of this event call `TryAcquire`? -/
def SchedulerState.callsTryAcquire : SchedulerState → SchedulerEvent → Bool
  | .followerPolling, .pollTick _ => true
  | _, _ => false

/-! ## `cmd/asynctaskmanager/server/main.go`: `MysqlDSN.Parse`

`regexp` and `strconv` are Go standard library.  The regular expression of `Parse`
is a sequence of literal characters and of capture groups that repeat one character
class; `matchItems` matches such a sequence at the start of the input the way a
backtracking matcher does, each repetition taking as many characters as it can and
giving them back one by one while the rest fails, which is the match that
`regexp` returns (leftmost-first).  Strings are lists of characters; the Go code
slices at byte offsets returned by `strings.Index` for ASCII substrings, which are
character boundaries. -/

/-- The struct `mysql.Config`. -/
structure MysqlConfig where
  Host : String := ""
  Port : Int := 0
  User : String := ""
  Password : String := ""
  Database : String := ""
  MaxOpen : Int := 0
  MaxIdle : Int := 0
  MaxLife : Duration := 0
deriving DecidableEq, Repr

/-- One item of a regular expression: a literal character, or a capture group
`(class+)` or `(class*)` over a character class. -/
inductive RegexItem where
  | lit (c : Char)
  | plus (cls : Char → Bool)
  | star (cls : Char → Bool)

/-- The greedy repetition of a class inside a capture group, followed by the rest
of the expression `k`: `acc` holds the characters taken so far, reversed.  The
result is the list of captured strings, this group first. -/
def matchGreedy (cls : Char → Bool) (k : List Char → Option (List String)) :
    List Char → List Char → Option (List String)
  | acc, [] => (k []).map (fun caps => String.mk acc.reverse :: caps)
  | acc, c :: cs =>
    if cls c then
      match matchGreedy cls k (c :: acc) cs with
      | some caps => some caps
      | none => (k (c :: cs)).map (fun caps => String.mk acc.reverse :: caps)
    else (k (c :: cs)).map (fun caps => String.mk acc.reverse :: caps)

/-- Match a sequence of items at the start of the input; the input left after the
last item is not looked at (the expression has no `$`). -/
def matchItems : List RegexItem → List Char → Option (List String)
  | [], _ => some []
  | .lit c :: items, input =>
    match input with
    | [] => none
    | x :: xs => if x == c then matchItems items xs else none
  | .star cls :: items, input => matchGreedy cls (matchItems items) [] input
  | .plus cls :: items, input =>
    match input with
    | [] => none
    | x :: xs => if cls x then matchGreedy cls (matchItems items) [x] xs else none

/-- The regular expression `^([^:]+):([^@]*)@tcp\(([^:]+):(\d+)\)/([^?]+)`. -/
def dsnRegex : List RegexItem :=
  [.plus (fun c => c != ':'), .lit ':', .star (fun c => c != '@'),
   .lit '@', .lit 't', .lit 'c', .lit 'p', .lit '(',
   .plus (fun c => c != ':'), .lit ':', .plus (fun c => c.isDigit),
   .lit ')', .lit '/', .plus (fun c => c != '?')]

/-- The loop of `strconv.Atoi` over the digits: `none` at a character that is not a
decimal digit. -/
def parseDigits : List Char → Nat → Option Nat
  | [], acc => some acc
  | c :: cs, acc => if c.isDigit then parseDigits cs (acc * 10 + (c.toNat - 48)) else none

/-- Function `strconv.Atoi`: an optional sign and at least one decimal digit, the
value within the range of `int`; `none` stands for an error. -/
def Atoi (s : String) : Option Int :=
  let signed : Bool × List Char :=
    match s.data with
    | '+' :: rest => (false, rest)
    | '-' :: rest => (true, rest)
    | cs => (false, cs)
  if signed.2.isEmpty then none
  else
    match parseDigits signed.2 0 with
    | none => none
    | some n =>
      let v : Int := if signed.1 then -(n : Int) else (n : Int)
      if minInt ≤ v ∧ v ≤ maxInt then some v else none

/-- Function `strings.Index(s, sub)` as a position in characters; `none` is -1. -/
def indexOf (sub : List Char) : List Char → Option Nat
  | [] => if sub.isEmpty then some 0 else none
  | c :: cs => if sub.isPrefixOf (c :: cs) then some 0 else (indexOf sub cs).map (fun i => i + 1)

/-- The defaults that `Parse` starts from. -/
def defaultMysqlConfig : MysqlConfig :=
  { Host := "localhost", Port := 3306, User := "root", Password := "", Database := "asynctask",
    MaxOpen := 100, MaxIdle := 10, MaxLife := 3600 * Second }

/-- The first block of the `else` branch of `Parse`: user and password, from the
text before the first `@`. -/
def parseUserPass (config : MysqlConfig) (dsn : List Char) : MysqlConfig :=
  match indexOf "@".data dsn with
  | some (idx + 1) =>
    match indexOf ":".data (dsn.take (idx + 1)) with
    | some (colonIdx + 1) =>
      { config with User := String.mk ((dsn.take (idx + 1)).take (colonIdx + 1))
                    Password := String.mk ((dsn.take (idx + 1)).drop (colonIdx + 2)) }
    | _ => { config with User := String.mk (dsn.take (idx + 1)) }
  | _ => config

/-- The second block: host and port, from the text between the first `tcp(` and
the next `)`. -/
def parseHostPort (config : MysqlConfig) (dsn : List Char) : MysqlConfig :=
  match indexOf "tcp(".data dsn with
  | some idx =>
    match indexOf ")".data (dsn.drop (idx + 4)) with
    | some (endIdx + 1) =>
      match indexOf ":".data ((dsn.drop (idx + 4)).take (endIdx + 1)) with
      | some (colonIdx + 1) =>
        { config with
          Host := String.mk (((dsn.drop (idx + 4)).take (endIdx + 1)).take (colonIdx + 1))
          Port := (Atoi (String.mk (((dsn.drop (idx + 4)).take (endIdx + 1)).drop
            (colonIdx + 2)))).getD config.Port }
      | _ => { config with Host := String.mk ((dsn.drop (idx + 4)).take (endIdx + 1)) }
    | _ => config
  | none => config

/-- The third block: the database name, from the text after the first `)/`. -/
def parseDatabase (config : MysqlConfig) (dsn : List Char) : MysqlConfig :=
  match indexOf ")/".data dsn with
  | some idx =>
    match indexOf "?".data (dsn.drop (idx + 2)) with
    | some (qIdx + 1) => { config with Database := String.mk ((dsn.drop (idx + 2)).take (qIdx + 1)) }
    | _ => { config with Database := String.mk (dsn.drop (idx + 2)) }
  | none => config

/-- The `else` branch of `Parse`, for a DSN that the regular expression does not
match: its three blocks in turn. -/
def parseSimplified (config : MysqlConfig) (dsn : List Char) : MysqlConfig :=
  parseDatabase (parseHostPort (parseUserPass config dsn) dsn) dsn

/-- Method `Parse` of `MysqlDSN`.  `FindStringSubmatch` returns the whole match and
the five groups, six strings, or nil. -/
def MysqlDSN.Parse (dsn : String) : MysqlConfig :=
  let config := defaultMysqlConfig
  if dsn == "" then config
  else
    match matchItems dsnRegex dsn.data with
    | some [user, password, host, port, database] =>
      { config with
        User := user
        Password := password
        Host := host
        Port := (Atoi port).getD config.Port
        Database := database }
    | _ => parseSimplified config dsn.data


/-! ## More of the worker registry

`UpdateHeartbeat` is what the heartbeat loop of a worker calls; `ownKeyed` says that
the hash of an ONLINE worker sits at the key of its own id. -/

/-- Method `UpdateHeartbeat` of the worker registry: `HSET worker:{id} last_heartbeat
now.Unix()`, on a missing key a hash with that single field. -/
def Registry.UpdateHeartbeat (r : Registry) (workerID : String) (now : Time) (storeErr : Bool) :
    Registry × GoError :=
  if storeErr then (r, some "update heartbeat failed")
  else
    match StrMap.get r.records workerID with
    | none =>
      ({ r with records :=
          StrMap.set r.records workerID { LastHeartbeat := (now / Second) * Second } }, none)
    | some w =>
      ({ r with records :=
          StrMap.set r.records workerID { w with LastHeartbeat := (now / Second) * Second } },
        none)

/-- Every record of an ONLINE worker is stored under the worker's own id. -/
def Registry.ownKeyed (r : Registry) : Bool :=
  r.records.all (fun e => e.2.Status != WorkerOnline || e.2.WorkerID == e.1)


/-- The task that the loop body of `checkTimeoutTasks` hands to `Update`: `task`
after `MarkAsTimeout`, and after `MarkAsRetrying` too when it can be retried. -/
def SchedulerService.sweptTask (task : Task) (now : Time) : Task :=
  if (task.MarkAsTimeout now).CanRetry then (task.MarkAsTimeout now).MarkAsRetrying
  else task.MarkAsTimeout now

/-- The log entry that the loop body of `checkTimeoutTasks` builds for `task`. -/
def SchedulerService.sweptLog (task : Task) (now : Time) : TaskLog :=
  if (task.MarkAsTimeout now).CanRetry then
    NewRetryLog task.TaskID (goIncr task.RetryCount)
      ("Task timeout, retry " ++ toString (goIncr task.RetryCount) ++ "/" ++
        toString task.MaxRetry)
      now
  else NewErrorLog task.TaskID task.WorkerID "Task timeout and max retry reached" "" now


/-- The task after the executor has returned an error in `processTask`:
`MarkAsTimeout` when the deadline of the execution context has passed, else
`MarkAsFailed` with the message of the error. -/
def WorkerService.failedTask (task : Task) (errMsg : String) (deadlineExceeded : Bool)
    (now : Time) : Task :=
  if deadlineExceeded then task.MarkAsTimeout now else task.MarkAsFailed errMsg now


/-! ## Concrete tasks and workers used as test inputs -/

/-- The task of the test case "cannot retry when reached max retries". -/
def exhaustedTask : Task :=
  { TaskID := "test-task", Status := StatusFailed, RetryCount := 3, MaxRetry := 3 }

/-- A FAILED task whose retry count is the largest `int`. -/
def maxRetryCountTask : Task :=
  { TaskID := "test-task", Status := StatusFailed, RetryCount := maxInt, MaxRetry := maxInt }

/-- The task of the test case "can retry when failed and under max retries". -/
def retryableTask : Task :=
  { TaskID := "test-task", Status := StatusFailed, RetryCount := 2, MaxRetry := 3 }

/-- A task type configuration: 30 seconds, three retries. -/
def echoConfig : TaskConfig :=
  { TaskType := "echo", TaskName := "Echo", ExecutorType := "LOCAL", DefaultTimeout := 30,
    DefaultMaxRetry := 3, RetryStrategy := "FIXED", RetryDelay := 5, MaxConcurrent := 10,
    Enabled := true }

/-- A freshly created task. -/
def freshTask : Task := echoConfig.CreateTask "t1" PriorityNormal [("x", "1")] 5 5 5

/-- An OFFLINE worker whose last heartbeat is ten seconds old at time `110 * Second`. -/
def offlineWorker : Worker :=
  { WorkerID := "w1", Status := WorkerOffline, Capacity := 10, CurrentLoad := 5,
    SupportedTypes := ["echo"], LastHeartbeat := 100 * Second }

/-- An ONLINE worker with the same heartbeat. -/
def onlineWorker : Worker :=
  { WorkerID := "w2", Status := WorkerOnline, Capacity := 10, CurrentLoad := 5,
    SupportedTypes := ["echo"], LastHeartbeat := 100 * Second }

/-- The worker of `TestWorker_AcceptTask` after its two accepted tasks: capacity 2,
load 2. -/
def fullWorker : Worker :=
  { WorkerID := "w-full", Status := WorkerOnline, Capacity := 2, CurrentLoad := 2 }

/-- The worker of `TestWorker_AcceptTask` after its first accepted task: capacity 2,
load 1. -/
def halfWorker : Worker :=
  { WorkerID := "w-half", Status := WorkerOnline, Capacity := 2, CurrentLoad := 1 }

/-- The three workers of `createTestWorkers`: loads 3, 5 and 1, capacity 10. -/
def testWorkers : List Worker :=
  [{ WorkerID := "worker-1", Status := WorkerOnline, Capacity := 10, CurrentLoad := 3 },
   { WorkerID := "worker-2", Status := WorkerOnline, Capacity := 10, CurrentLoad := 5 },
   { WorkerID := "worker-3", Status := WorkerOnline, Capacity := 10, CurrentLoad := 1 }]

/-- Five workers: one OFFLINE with the least load, one at capacity, and two that
share the least load among the accept-capable ones. -/
def mixedWorkers : List Worker :=
  [{ WorkerID := "off", Status := WorkerOffline, Capacity := 10, CurrentLoad := 0 },
   { WorkerID := "a", Status := WorkerOnline, Capacity := 10, CurrentLoad := 4 },
   { WorkerID := "full", Status := WorkerOnline, Capacity := 2, CurrentLoad := 2 },
   { WorkerID := "b", Status := WorkerOnline, Capacity := 10, CurrentLoad := 2 },
   { WorkerID := "c", Status := WorkerOnline, Capacity := 10, CurrentLoad := 2 }]

/-- Six calls with the task id of `TestRoundRobinLoadBalancer_Select`. -/
def sixTaskIDs : List String := List.replicate 6 "test-task"

/-- The HTTP executor: `SupportedTaskTypes()` is `http_request`, `webhook`. -/
def httpExecutor : Executor :=
  { name := "http", supportedTaskTypes := ["http_request", "webhook"] }

/-- A second executor that also claims `webhook`. -/
def hookExecutor : Executor :=
  { name := "hook", supportedTaskTypes := ["notify", "webhook"] }

/-- An executor whose `SupportedTaskTypes()` names the type `a` twice. -/
def dupExecutor : Executor :=
  { name := "dup", supportedTaskTypes := ["a", "a"] }

/-! ## A run of the services

One task, one worker: the task is created, assigned, swept by the timeout check
while it still waits in the worker queue, cancelled by the user, and then taken
from the worker queue by the worker. -/

/-- The worker `w1`: online, capacity 10, supports `echo`. -/
def runWorker : Worker :=
  { WorkerID := "w1", WorkerName := "Worker-1", Address := "localhost:9000",
    Status := WorkerOnline, Capacity := 10, CurrentLoad := 0, SupportedTypes := ["echo"],
    LastHeartbeat := 0 }

/-- The worker service of `w1`, with an executor registered for `echo`. -/
def runService : WorkerService :=
  { worker := runWorker
    executorRegistry := [("echo", { name := "local", supportedTaskTypes := ["echo"] })] }

/-- Initially: the `echo` configuration, worker `w1` registered, nothing else. -/
def runStore0 : Store :=
  { configs := [echoConfig], registry := Registry.Register {} runWorker }

/-- After `CreateTask("echo", NORMAL, {})` at second 1, with task id `t1`. -/
def runStore1 : Store :=
  (TaskService.CreateTask runStore0 "echo" PriorityNormal [] "t1" (1 * Second) {}).1

/-- After `scanAndSchedule` at second 2 (least-task balancer, heartbeat timeout
30 seconds). -/
def runStore2 : Store :=
  (SchedulerService.scanAndSchedule leastTaskBalancer (30 * Second) runStore1 ()
    (2 * Second) {}).1

/-- After `checkTimeoutTasks` at second 40. -/
def runStore3 : Store :=
  (SchedulerService.checkTimeoutTasks runStore2 (40 * Second) false (fun _ => {})).1

/-- After `CancelTask("t1")` at second 41. -/
def runStore4 : Store :=
  (TaskService.CancelTask runStore3 "t1" (41 * Second) {}).1

/-- After `processTask` of worker `w1` at second 42, the executor returning an
error. -/
def runStore5 : Store :=
  (WorkerService.processTask runService runStore4 (ExecOutcome.failure "boom" false)
    (42 * Second) {}).2.1

/-- The call of `scanAndSchedule` at second 2 on `runStore1` (task `t1` PENDING, its
id in `queue:normal`, worker `w1` healthy and free), with the UPDATE that persists
the PROCESSING status failing. -/
def lostScan : Store × Unit × GoError :=
  SchedulerService.scanAndSchedule leastTaskBalancer (30 * Second) runStore1 ()
    (2 * Second) { update := true }

/-- After `CancelTask("t1")` at second 3 on `runStore2`, where `t1` is PROCESSING on
worker `w1`: the cancel mark of `t1` is set. -/
def markedStore : Store :=
  (TaskService.CancelTask runStore2 "t1" (3 * Second) {}).1

/-- The number that a string of decimal digits denotes: the digit at each place
times the power of ten of that place (the reading of the port of a DSN). -/
def decimalValue : List Char → Nat
  | [] => 0
  | c :: rest => (c.toNat - 48) * 10 ^ rest.length + decimalValue rest

/-- The text after the database name: nothing, or `?` and the parameters. -/
def dsnParams : Option String → String
  | none => ""
  | some params => "?" ++ params

/-- The DSN `user:password@tcp(host:port)/database`, followed by `?params` if
there are parameters. -/
def formatDSN (user password host port database : String) (params : Option String) : String :=
  user ++ ":" ++ password ++ "@tcp(" ++ host ++ ":" ++ port ++ ")/" ++ database ++ dsnParams params


/-- The persisted task `t1` of `runStore1`: PENDING, priority NORMAL. -/
def runTask1 : Task := (runStore1.task "t1").getD {}

/-- The record of worker `w1` in the registry of `runStore1`. -/
def runWorkerRecord : Worker := storedWorker runWorker

/-- The store `runStore5`, in which `t1` is PENDING and `queue:normal` holds its id
twice, after a heartbeat of worker `w1` at second 42. -/
def twiceQueuedStore : Store :=
  { runStore5 with registry := (runStore5.registry.UpdateHeartbeat "w1" (42 * Second) false).1 }

/-- The call of `scanAndSchedule` at second 43 on `twiceQueuedStore`. -/
def twiceQueuedScan : Store × Unit × GoError :=
  SchedulerService.scanAndSchedule leastTaskBalancer (30 * Second) twiceQueuedStore ()
    (43 * Second) {}


/-- After `CancelTask("t1")` at second 2 on `runStore1`, where `t1` is PENDING: the
task is CANCELLED and its id is still in `queue:normal`. -/
def cancelledQueuedStore : Store :=
  (TaskService.CancelTask runStore1 "t1" (2 * Second) {}).1

/-- The persisted task `t1` of `cancelledQueuedStore`. -/
def cancelledTask1 : Task := (cancelledQueuedStore.task "t1").getD {}


/-- A task type with a timeout of one second and one retry. -/
def quickConfig : TaskConfig :=
  { TaskType := "quick", TaskName := "Quick", ExecutorType := "LOCAL", DefaultTimeout := 1,
    DefaultMaxRetry := 1, RetryStrategy := "FIXED", RetryDelay := 1, MaxConcurrent := 10,
    Enabled := true }

/-- Initially: the `quick` configuration and a worker `w1` that supports it. -/
def quickStore0 : Store :=
  { configs := [quickConfig]
    registry := Registry.Register {} { runWorker with SupportedTypes := ["quick"] } }

/-- After `CreateTask("quick", NORMAL, {})` at second 1, with task id `q1`. -/
def quickStore1 : Store :=
  (TaskService.CreateTask quickStore0 "quick" PriorityNormal [] "q1" (1 * Second) {}).1

/-- After `scanAndSchedule` at second 2: `q1` is PROCESSING on `w1`. -/
def quickStore2 : Store :=
  (SchedulerService.scanAndSchedule leastTaskBalancer (30 * Second) quickStore1 ()
    (2 * Second) {}).1

/-- After the first `checkTimeoutTasks`, at second 5. -/
def quickStore3 : Store :=
  (SchedulerService.checkTimeoutTasks quickStore2 (5 * Second) false (fun _ => {})).1

/-- After `scanAndSchedule` at second 6: `q1` is PROCESSING again. -/
def quickStore4 : Store :=
  (SchedulerService.scanAndSchedule leastTaskBalancer (30 * Second) quickStore3 ()
    (6 * Second) {}).1

/-- After the second `checkTimeoutTasks`, at second 10. -/
def quickStore5 : Store :=
  (SchedulerService.checkTimeoutTasks quickStore4 (10 * Second) false (fun _ => {})).1

/-- The persisted task `q1` before the first sweep. -/
def quickTask2 : Task := (quickStore2.task "q1").getD {}

/-- The persisted task `q1` before the second sweep. -/
def quickTask4 : Task := (quickStore4.task "q1").getD {}


/-- A task type without retries: `max_retry = 0`. -/
def onceConfig : TaskConfig :=
  { TaskType := "echo", TaskName := "Echo once", ExecutorType := "LOCAL", DefaultTimeout := 30,
    DefaultMaxRetry := 0, RetryStrategy := "FIXED", RetryDelay := 5, MaxConcurrent := 10,
    Enabled := true }

/-- The task `t1` of type `echo` created with `onceConfig` at second 1 and assigned
to worker `w1` at second 2. -/
def onceStore : Store :=
  (SchedulerService.scanAndSchedule leastTaskBalancer (30 * Second)
    (TaskService.CreateTask { configs := [onceConfig], registry := Registry.Register {} runWorker }
      "echo" PriorityNormal [] "t1" (1 * Second) {}).1 () (2 * Second) {}).1

/-- The persisted task `t1` of `onceStore`: PROCESSING, `max_retry = 0`. -/
def onceTask : Task := (onceStore.task "t1").getD {}

/-- The store `onceStore` with the retry count of its task set to -1. -/
def debtStore : Store :=
  { onceStore with tasks := onceStore.tasks.map (fun t => { t with RetryCount := -1 }) }

/-- The persisted task `t1` of `runStore2`: PROCESSING on `w1`, `max_retry = 3`. -/
def runTask2 : Task := (runStore2.task "t1").getD {}


/-- Two tasks `t1` and `t2` created at second 1 and both assigned to worker `w1`,
at seconds 2 and 3: the registered load of `w1` is 2 and its queue holds both
ids. -/
def busyStore : Store :=
  (SchedulerService.scanAndSchedule leastTaskBalancer (30 * Second)
    (SchedulerService.scanAndSchedule leastTaskBalancer (30 * Second)
      (TaskService.CreateTask
        (TaskService.CreateTask runStore0 "echo" PriorityNormal [] "t1" (1 * Second) {}).1
        "echo" PriorityNormal [] "t2" (1 * Second) {}).1
      () (2 * Second) {}).1
    () (3 * Second) {}).1

/-- The call of `processTask` by worker `w1` at second 4 on `busyStore`, the executor
succeeding and every store call succeeding. -/
def busyDone : WorkerService × Store × GoError :=
  WorkerService.processTask runService busyStore (ExecOutcome.success []) (4 * Second) {}

/-- The same call with the `GetByID` of the task failing. -/
def busyLoadError : WorkerService × Store × GoError :=
  WorkerService.processTask runService busyStore (ExecOutcome.success []) (4 * Second)
    { getByID := true }

/-- The registered `current_load` of a worker. -/
def Store.load (st : Store) (workerID : String) : Option Int :=
  (StrMap.get st.registry.records workerID).map (fun w => w.CurrentLoad)


/-- The executor registry after `Register(httpExecutor)` on the empty registry:
`http_request` and `webhook` are mapped. -/
def httpRegistry : ExecutorRegistry := (ExecutorRegistry.Register [] httpExecutor).1

/-- The worker service of `w1` with an empty executor registry. -/
def bareService : WorkerService := { worker := runWorker, executorRegistry := [] }

/-- The call of `processTask` by `bareService` at second 3 on `runStore2`, where `t1`
(type `echo`, `max_retry = 3`, `retry_count = 0`) is PROCESSING on `w1`. -/
def bareDone : WorkerService × Store × GoError :=
  WorkerService.processTask bareService runStore2 (ExecOutcome.success []) (3 * Second) {}


/-! ## Theorems about the task model -/

/-- Below the largest `int`, `x++` adds one. -/
theorem goIncr_of_lt (x : Int) (h : x < maxInt) : goIncr x = x + 1 := by
  unfold goIncr
  rw [if_neg (by omega)]

/-- At the largest `int`, `x++` gives the smallest. -/
theorem goIncr_maxInt : goIncr maxInt = minInt := by
  decide

/-- On the values of `int`, `x++` is the addition of one modulo `2^64`, read as a
signed number. -/
theorem goIncr_wraps (x : Int) (h0 : minInt ≤ x) (h1 : x ≤ maxInt) :
    goIncr x = (x + 1 + 2 ^ 63) % 2 ^ 64 - 2 ^ 63 := by
  unfold goIncr
  unfold minInt at h0
  unfold maxInt at h1 ⊢
  split
  · rename_i h
    rw [h]
    decide
  · rename_i h
    have h2 : (x + 1 + 2 ^ 63) % 2 ^ 64 = x + 1 + 2 ^ 63 := by
      apply Int.emod_eq_of_lt <;> omega
    rw [h2]
    omega

/-- An increment of a number below a bound stays at or below the bound. -/
theorem goIncr_le (x m : Int) (h : x < m) : goIncr x ≤ m := by
  unfold goIncr
  split
  · rename_i hx
    rw [hx] at h
    unfold maxInt at h
    unfold minInt
    omega
  · omega

/-- The PENDING status is none of the other five. -/
theorem pending_ne :
    StatusPending ≠ StatusProcessing ∧ StatusPending ≠ StatusSuccess ∧
      StatusPending ≠ StatusCancelled ∧ StatusPending ≠ StatusFailed ∧
      StatusPending ≠ StatusTimeout := by
  decide

/-- The PROCESSING status is none of the other five. -/
theorem processing_ne :
    StatusProcessing ≠ StatusPending ∧ StatusProcessing ≠ StatusSuccess ∧
      StatusProcessing ≠ StatusCancelled ∧ StatusProcessing ≠ StatusFailed ∧
      StatusProcessing ≠ StatusTimeout := by
  decide

/-- The four terminal statuses differ from PROCESSING. -/
theorem terminal_ne_processing :
    StatusSuccess ≠ StatusProcessing ∧ StatusCancelled ≠ StatusProcessing ∧
      StatusFailed ≠ StatusProcessing ∧ StatusTimeout ≠ StatusProcessing := by
  decide

/-- Whoever can retry has `RetryCount < MaxRetry`. -/
theorem CanRetry_lt (t : Task) (h : t.CanRetry = true) : t.RetryCount < t.MaxRetry := by
  unfold Task.CanRetry at h
  simp only [Bool.and_eq_true, decide_eq_true_eq] at h
  exact h.2

/-- C3, counterexample: on the task with `RetryCount = MaxRetry = 3` the bound holds
before `MarkAsRetrying` and fails after it (the count becomes 4). -/
theorem retry_bound_broken_by_MarkAsRetrying :
    exhaustedTask.RetryCount ≤ exhaustedTask.MaxRetry ∧
      exhaustedTask.MarkAsRetrying.RetryCount = 4 ∧
      ¬ (exhaustedTask.MarkAsRetrying.RetryCount ≤ exhaustedTask.MarkAsRetrying.MaxRetry) := by
  decide

/-- C3, amended: `retry_count ≤ max_retry` is preserved by `MarkAsProcessing`,
`MarkAsSuccess`, `MarkAsFailed`, `MarkAsTimeout` and `MarkAsCancelled` on every
task, and by `MarkAsRetrying` on every task with `retry_count < max_retry`, which
is the case whenever `CanRetry` holds (the guard under which both services call
it). -/
theorem retry_bound_preserved :
    (∀ (op : TaskOp) (t : Task), t.RetryCount ≤ t.MaxRetry →
        (op = TaskOp.markAsRetrying → t.RetryCount < t.MaxRetry) →
        (op.apply t).RetryCount ≤ (op.apply t).MaxRetry) ∧
      (∀ t : Task, t.CanRetry = true →
        t.MarkAsRetrying.RetryCount ≤ t.MarkAsRetrying.MaxRetry) := by
  refine ⟨?_, ?_⟩
  · intro op t h hg
    cases op with
    | markAsRetrying =>
      have hlt := hg rfl
      exact goIncr_le t.RetryCount t.MaxRetry hlt
    | _ => exact h
  · intro t h
    have hlt := CanRetry_lt t h
    exact goIncr_le t.RetryCount t.MaxRetry hlt

/-- C3, witness: the retryable test task (2 of 3 retries used) keeps the bound
under `MarkAsRetrying`. -/
theorem retry_bound_preserved_witness :
    retryableTask.RetryCount ≤ retryableTask.MaxRetry ∧
      (TaskOp.markAsRetrying.apply retryableTask).RetryCount ≤
        (TaskOp.markAsRetrying.apply retryableTask).MaxRetry ∧
      retryableTask.MarkAsRetrying.RetryCount ≤ retryableTask.MarkAsRetrying.MaxRetry :=
  ⟨by decide,
    retry_bound_preserved.1 TaskOp.markAsRetrying retryableTask (by decide) (fun _ => by decide),
    retry_bound_preserved.2 retryableTask (by decide)⟩

/-- C4: after `MarkAsProcessing w` with a non-empty worker id `w` the task is
PROCESSING, has `worker_id = w` and has `started_at` set; and every task reachable
from `TaskConfig.CreateTask` through the `Task` methods (`MarkAsProcessing` only
with non-empty ids) that is PROCESSING has a non-empty worker id and a start
time. -/
theorem processing_has_worker_and_start :
    (∀ (t : Task) (w : String) (now : Time), w ≠ "" →
        (t.MarkAsProcessing w now).Status = StatusProcessing ∧
        (t.MarkAsProcessing w now).WorkerID = w ∧
        (t.MarkAsProcessing w now).WorkerID ≠ "" ∧
        (t.MarkAsProcessing w now).StartedAt = some now) ∧
      (∀ t : Task, TaskReachable TaskOp.workerNonEmpty t → t.Status = StatusProcessing →
        t.WorkerID ≠ "" ∧ t.StartedAt ≠ none) := by
  refine ⟨fun t w now hw => ⟨rfl, rfl, hw, rfl⟩, ?_⟩
  intro t ht
  induction ht with
  | create tc taskID priority payload nowS nowC nowU =>
    intro h
    exact absurd h pending_ne.1
  | step op t _ hg ih =>
    cases op with
    | markAsProcessing w now =>
      intro _
      have hw : w ≠ "" := by simpa [TaskOp.workerNonEmpty] using hg
      exact ⟨hw, by simp [TaskOp.apply, Task.MarkAsProcessing]⟩
    | markAsSuccess r now => intro h; exact absurd h terminal_ne_processing.1
    | markAsFailed e now => intro h; exact absurd h terminal_ne_processing.2.2.1
    | markAsTimeout now => intro h; exact absurd h terminal_ne_processing.2.2.2
    | markAsCancelled now => intro h; exact absurd h terminal_ne_processing.2.1
    | markAsRetrying => intro h; exact absurd h pending_ne.1

/-- C4, witness: the fresh task `t1`, assigned to worker `w1` at time 7. -/
theorem processing_has_worker_and_start_witness :
    (freshTask.MarkAsProcessing "w1" 7).Status = StatusProcessing ∧
      (freshTask.MarkAsProcessing "w1" 7).WorkerID = "w1" ∧
      (freshTask.MarkAsProcessing "w1" 7).StartedAt = some 7 ∧
      ((TaskOp.markAsProcessing "w1" 7).apply freshTask).WorkerID ≠ "" ∧
      ((TaskOp.markAsProcessing "w1" 7).apply freshTask).StartedAt ≠ none :=
  have h1 := processing_has_worker_and_start.1 freshTask "w1" 7 (by decide)
  have h2 := processing_has_worker_and_start.2 ((TaskOp.markAsProcessing "w1" 7).apply freshTask)
    (TaskReachable.step _ _ (TaskReachable.create echoConfig "t1" PriorityNormal [("x", "1")] 5 5 5)
      (by decide)) (by decide)
  ⟨h1.1, h1.2.1, h1.2.2.2, h2.1, h2.2⟩

/-- A final task has one of the four terminal statuses. -/
theorem IsFinalState_status (t : Task) (h : t.IsFinalState = true) :
    t.Status = StatusSuccess ∨ t.Status = StatusCancelled ∨ t.Status = StatusFailed ∨
      t.Status = StatusTimeout := by
  unfold Task.IsFinalState at h
  simp only [Bool.or_eq_true, Bool.and_eq_true, beq_iff_eq] at h
  tauto

/-- C5: each of `MarkAsSuccess`, `MarkAsFailed`, `MarkAsTimeout`, `MarkAsCancelled`
sets `completed_at`, and every task reachable from `TaskConfig.CreateTask` through
the `Task` methods that is in a final state has `completed_at` set. -/
theorem final_state_has_completed_at :
    (∀ (t : Task) (r : Blob) (now : Time), (t.MarkAsSuccess r now).CompletedAt ≠ none) ∧
      (∀ (t : Task) (e : String) (now : Time), (t.MarkAsFailed e now).CompletedAt ≠ none) ∧
      (∀ (t : Task) (now : Time), (t.MarkAsTimeout now).CompletedAt ≠ none) ∧
      (∀ (t : Task) (now : Time), (t.MarkAsCancelled now).CompletedAt ≠ none) ∧
      (∀ t : Task, TaskReachable TaskOp.anyCall t → t.IsFinalState = true →
        t.CompletedAt ≠ none) := by
  refine ⟨fun _ _ _ => by simp [Task.MarkAsSuccess], fun _ _ _ => by simp [Task.MarkAsFailed],
    fun _ _ => by simp [Task.MarkAsTimeout], fun _ _ => by simp [Task.MarkAsCancelled], ?_⟩
  intro t ht hfin
  have key : (t.Status = StatusSuccess ∨ t.Status = StatusCancelled ∨ t.Status = StatusFailed ∨
      t.Status = StatusTimeout) → t.CompletedAt ≠ none := by
    clear hfin
    induction ht with
    | create tc taskID priority payload nowS nowC nowU =>
      intro h
      rcases h with h | h | h | h
      · exact absurd h pending_ne.2.1
      · exact absurd h pending_ne.2.2.1
      · exact absurd h pending_ne.2.2.2.1
      · exact absurd h pending_ne.2.2.2.2
    | step op t _ _ ih =>
      cases op with
      | markAsProcessing w now =>
        intro h
        rcases h with h | h | h | h
        · exact absurd h processing_ne.2.1
        · exact absurd h processing_ne.2.2.1
        · exact absurd h processing_ne.2.2.2.1
        · exact absurd h processing_ne.2.2.2.2
      | markAsSuccess r now => intro _; simp [TaskOp.apply, Task.MarkAsSuccess]
      | markAsFailed e now => intro _; simp [TaskOp.apply, Task.MarkAsFailed]
      | markAsTimeout now => intro _; simp [TaskOp.apply, Task.MarkAsTimeout]
      | markAsCancelled now => intro _; simp [TaskOp.apply, Task.MarkAsCancelled]
      | markAsRetrying =>
        intro h
        rcases h with h | h | h | h
        · exact absurd h pending_ne.2.1
        · exact absurd h pending_ne.2.2.1
        · exact absurd h pending_ne.2.2.2.1
        · exact absurd h pending_ne.2.2.2.2
  exact key (IsFinalState_status t hfin)

/-- C5, witness: the fresh task `t1`, cancelled at time 9, is final and has
`completed_at` set. -/
theorem final_state_has_completed_at_witness :
    ((TaskOp.markAsCancelled 9).apply freshTask).IsFinalState = true ∧
      ((TaskOp.markAsCancelled 9).apply freshTask).CompletedAt ≠ none :=
  ⟨by decide,
    final_state_has_completed_at.2.2.2.2 ((TaskOp.markAsCancelled 9).apply freshTask)
      (TaskReachable.step _ _ (TaskReachable.create echoConfig "t1" PriorityNormal [("x", "1")] 5 5 5)
        rfl) (by decide)⟩

/-- Unfolding of `CanRetry` into a proposition. -/
theorem CanRetry_unfold (t : Task) :
    t.CanRetry = true ↔
      (t.Status = StatusFailed ∨ t.Status = StatusTimeout) ∧ t.RetryCount < t.MaxRetry := by
  unfold Task.CanRetry
  simp only [Bool.and_eq_true, Bool.or_eq_true, beq_iff_eq, decide_eq_true_eq]

/-- C6: `CanRetry` is true exactly when the status is FAILED or TIMEOUT and
`retry_count < max_retry`. -/
theorem CanRetry_iff (t : Task) :
    t.CanRetry = true ↔
      (t.Status = StatusFailed ∨ t.Status = StatusTimeout) ∧ t.RetryCount < t.MaxRetry := by
  constructor
  · intro h
    exact (CanRetry_unfold t).1 h
  · rintro ⟨hs, hlt⟩
    exact (CanRetry_unfold t).2 ⟨hs, hlt⟩

/-- C7: `IsFinalState` is true exactly when the status is SUCCESS or CANCELLED, or
the status is FAILED or TIMEOUT and `CanRetry` is false, which for those two
statuses means `retry_count ≥ max_retry`; PENDING and PROCESSING tasks are never
final. -/
theorem IsFinalState_iff (t : Task) :
    (t.IsFinalState = true ↔
        (t.Status = StatusSuccess ∨ t.Status = StatusCancelled) ∨
          ((t.Status = StatusFailed ∨ t.Status = StatusTimeout) ∧ t.CanRetry = false)) ∧
      (t.IsFinalState = true ↔
        (t.Status = StatusSuccess ∨ t.Status = StatusCancelled) ∨
          ((t.Status = StatusFailed ∨ t.Status = StatusTimeout) ∧ t.RetryCount ≥ t.MaxRetry)) ∧
      (t.Status = StatusPending → t.IsFinalState = false) ∧
      (t.Status = StatusProcessing → t.IsFinalState = false) := by
  have h1 : t.IsFinalState = true ↔
      (t.Status = StatusSuccess ∨ t.Status = StatusCancelled) ∨
        ((t.Status = StatusFailed ∨ t.Status = StatusTimeout) ∧ t.CanRetry = false) := by
    unfold Task.IsFinalState
    simp only [Bool.or_eq_true, Bool.and_eq_true, beq_iff_eq, Bool.not_eq_true']
    tauto
  have h2 : (t.Status = StatusFailed ∨ t.Status = StatusTimeout) →
      (t.CanRetry = false ↔ t.RetryCount ≥ t.MaxRetry) := by
    intro hs
    rw [← Bool.not_eq_true, CanRetry_unfold]
    constructor
    · intro h
      by_contra hlt
      exact h ⟨hs, by omega⟩
    · intro h hc
      omega
  refine ⟨h1, ?_, ?_, ?_⟩
  · rw [h1]
    constructor
    · rintro (h | ⟨hs, hc⟩)
      · exact Or.inl h
      · exact Or.inr ⟨hs, (h2 hs).1 hc⟩
    · rintro (h | ⟨hs, hc⟩)
      · exact Or.inl h
      · exact Or.inr ⟨hs, (h2 hs).2 hc⟩
  · intro hp
    rw [← Bool.not_eq_true]
    intro hf
    rcases IsFinalState_status t hf with h | h | h | h
    · exact absurd (hp.symm.trans h) pending_ne.2.1
    · exact absurd (hp.symm.trans h) pending_ne.2.2.1
    · exact absurd (hp.symm.trans h) pending_ne.2.2.2.1
    · exact absurd (hp.symm.trans h) pending_ne.2.2.2.2
  · intro hp
    rw [← Bool.not_eq_true]
    intro hf
    rcases IsFinalState_status t hf with h | h | h | h
    · exact absurd (hp.symm.trans h) processing_ne.2.1
    · exact absurd (hp.symm.trans h) processing_ne.2.2.1
    · exact absurd (hp.symm.trans h) processing_ne.2.2.2.1
    · exact absurd (hp.symm.trans h) processing_ne.2.2.2.2

/-- C7, witness: the exhausted FAILED test task is final, the fresh PENDING task
is not. -/
theorem IsFinalState_iff_witness :
    exhaustedTask.IsFinalState = true ∧ freshTask.IsFinalState = false :=
  ⟨(IsFinalState_iff exhaustedTask).2.1.2 (Or.inr ⟨Or.inl rfl, by decide⟩),
    (IsFinalState_iff freshTask).2.2.1 rfl⟩

/-- C8, counterexample: on a task whose retry count is the largest `int`, the
statement `RetryCount++` of `MarkAsRetrying` wraps: the count becomes the smallest
`int`, not the count plus one. -/
theorem retry_count_wraps_at_max_int :
    maxRetryCountTask.RetryCount = 9223372036854775807 ∧
      maxRetryCountTask.MarkAsRetrying.RetryCount = -9223372036854775808 ∧
      maxRetryCountTask.MarkAsRetrying.RetryCount ≠ maxRetryCountTask.RetryCount + 1 := by
  decide

/-- C8, amended: one call of `MarkAsRetrying` sets the status to PENDING, clears
`worker_id`, `started_at` and `completed_at`, and leaves every other field but
`retry_count` as it was; it adds exactly one to `retry_count` when the count is
below the largest `int`, and turns the largest `int` into the smallest; two calls
in sequence add exactly two when the count plus one is below the largest `int`. -/
theorem MarkAsRetrying_frame (t : Task) :
    t.MarkAsRetrying.Status = StatusPending ∧
      (t.RetryCount < maxInt → t.MarkAsRetrying.RetryCount = t.RetryCount + 1) ∧
      (t.RetryCount = maxInt → t.MarkAsRetrying.RetryCount = minInt) ∧
      (t.RetryCount + 1 < maxInt →
        t.MarkAsRetrying.MarkAsRetrying.RetryCount = t.RetryCount + 2) ∧
      t.MarkAsRetrying.WorkerID = "" ∧
      t.MarkAsRetrying.StartedAt = none ∧
      t.MarkAsRetrying.CompletedAt = none ∧
      t.MarkAsRetrying.ID = t.ID ∧
      t.MarkAsRetrying.TaskID = t.TaskID ∧
      t.MarkAsRetrying.TaskType = t.TaskType ∧
      t.MarkAsRetrying.Priority = t.Priority ∧
      t.MarkAsRetrying.Payload = t.Payload ∧
      t.MarkAsRetrying.Result = t.Result ∧
      t.MarkAsRetrying.ErrorMsg = t.ErrorMsg ∧
      t.MarkAsRetrying.MaxRetry = t.MaxRetry ∧
      t.MarkAsRetrying.Timeout = t.Timeout ∧
      t.MarkAsRetrying.ScheduledAt = t.ScheduledAt ∧
      t.MarkAsRetrying.CreatedAt = t.CreatedAt ∧
      t.MarkAsRetrying.UpdatedAt = t.UpdatedAt := by
  refine ⟨rfl, ?_, ?_, ?_, rfl, rfl, rfl, rfl, rfl, rfl, rfl, rfl, rfl, rfl, rfl, rfl, rfl, rfl,
    rfl⟩
  · intro h
    exact goIncr_of_lt t.RetryCount h
  · intro h
    show goIncr t.RetryCount = minInt
    rw [h]
    exact goIncr_maxInt
  · intro h
    show goIncr (goIncr t.RetryCount) = t.RetryCount + 2
    rw [goIncr_of_lt t.RetryCount (by omega), goIncr_of_lt (t.RetryCount + 1) h]
    omega

/-- C8, witness: the retryable test task (retry count 2) has retry count 3 after one
call and 4 after two. -/
theorem MarkAsRetrying_frame_witness :
    retryableTask.MarkAsRetrying.RetryCount = retryableTask.RetryCount + 1 ∧
      retryableTask.MarkAsRetrying.MarkAsRetrying.RetryCount = retryableTask.RetryCount + 2 :=
  ⟨(MarkAsRetrying_frame retryableTask).2.1 (by decide),
    (MarkAsRetrying_frame retryableTask).2.2.2.1 (by decide)⟩

/-! ## Theorems about the worker model -/

/-- C10: the heartbeat check is inclusive.  A heartbeat whose age `now - last` is at
most `timeout`, in particular exactly `timeout`, passes `IsHealthy`; one whose age
is greater fails it. -/
theorem IsHealthy_inclusive (w : Worker) (timeout : Duration) (now : Time) :
    (now - w.LastHeartbeat ≤ timeout → w.IsHealthy timeout now = true) ∧
      (now - w.LastHeartbeat = timeout → w.IsHealthy timeout now = true) ∧
      (now - w.LastHeartbeat > timeout → w.IsHealthy timeout now = false) := by
  unfold Worker.IsHealthy
  refine ⟨fun h => by simpa using h, fun h => by simp [h], fun h => ?_⟩
  simp only [decide_eq_false_iff_not, not_le]
  exact h

/-- C10, witness: with a 30 second timeout a heartbeat exactly 30 seconds old is
healthy, one 10 seconds old is healthy, and one 40 seconds old is not. -/
theorem IsHealthy_inclusive_witness :
    onlineWorker.IsHealthy (30 * Second) (130 * Second) = true ∧
      onlineWorker.IsHealthy (30 * Second) (110 * Second) = true ∧
      onlineWorker.IsHealthy (30 * Second) (140 * Second) = false :=
  ⟨(IsHealthy_inclusive onlineWorker (30 * Second) (130 * Second)).2.1 (by decide),
    (IsHealthy_inclusive onlineWorker (30 * Second) (110 * Second)).1 (by decide),
    (IsHealthy_inclusive onlineWorker (30 * Second) (140 * Second)).2.2 (by decide)⟩

/-! ## Theorems about the task repositories -/

theorem StrMap.get_set_self {α : Type} (m : StrMap α) (k : String) (v : α) :
    StrMap.get (StrMap.set m k v) k = some v := by
  induction m with
  | nil => simp [StrMap.set, StrMap.get]
  | cons e rest ih =>
    obtain ⟨k1, v1⟩ := e
    by_cases h : k1 = k
    · simp [StrMap.set, StrMap.get, h]
    · simp [StrMap.set, StrMap.get, h, ih]

theorem StrMap.get_set_other {α : Type} (m : StrMap α) (k k2 : String) (v : α) (h : k2 ≠ k) :
    StrMap.get (StrMap.set m k v) k2 = StrMap.get m k2 := by
  have hk : (k == k2) = false := by
    simpa using fun e : k = k2 => h e.symm
  induction m with
  | nil => simp [StrMap.set, StrMap.get, hk]
  | cons e rest ih =>
    obtain ⟨k1, v1⟩ := e
    simp only [StrMap.set]
    cases h1 : (k1 == k) with
    | true =>
      have e1 : k1 = k := by simpa using h1
      subst e1
      simp [StrMap.get, hk]
    | false =>
      simp only [Bool.false_eq_true, if_false, StrMap.get, ih]

/-- A row-wise change that keeps `task_id` commutes with the lookup by id. -/
theorem find_map_same_id (g : Task → Task) (hg : ∀ r, (g r).TaskID = r.TaskID)
    (rows : List Task) (taskID : String) :
    (rows.map g).find? (fun row => row.TaskID == taskID) =
      (rows.find? (fun row => row.TaskID == taskID)).map g := by
  induction rows with
  | nil => rfl
  | cons r rest ih =>
    simp only [List.map_cons, List.find?_cons, hg]
    cases h : (r.TaskID == taskID) with
    | true => rfl
    | false => exact ih

/-- Looking up a task id after the UPDATE statement: the first row with that id,
updated if the id is the one of the statement. -/
theorem find_after_update (rows : List Task) (task : Task) (now : Time) (taskID : String) :
    (rows.map (fun row =>
        if row.TaskID == task.TaskID then MysqlTaskRepo.updateRow row task now else row)).find?
        (fun row => row.TaskID == taskID) =
      (rows.find? (fun row => row.TaskID == taskID)).map (fun row =>
        if row.TaskID == task.TaskID then MysqlTaskRepo.updateRow row task now else row) := by
  apply find_map_same_id
  intro r
  split <;> rfl

/-- C9, counterexample: the worker `w1` is OFFLINE and its heartbeat is 10 seconds
old; with a timeout of 30 seconds `IsHealthy` is true, and `FindHealthy` of the
Redis registry returns it. -/
theorem offline_worker_is_healthy :
    offlineWorker.Status = WorkerOffline ∧
      110 * Second - offlineWorker.LastHeartbeat ≤ 30 * Second ∧
      offlineWorker.IsHealthy (30 * Second) (110 * Second) = true ∧
      ¬ (offlineWorker.IsHealthy (30 * Second) (110 * Second) = true ↔
          110 * Second - offlineWorker.LastHeartbeat ≤ 30 * Second ∧
            offlineWorker.Status = WorkerOnline) ∧
      ((Registry.FindHealthy (Registry.Register {} offlineWorker) (30 * Second) (110 * Second)
        false).1.map (fun w => (w.WorkerID, w.Status))) = [("w1", WorkerOffline)] := by
  decide

/-- C9, amended: `IsHealthy(timeout)` holds exactly when
`now − last_heartbeat ≤ timeout`, whatever the status of the worker; the status is
checked by `CanAcceptTask`, so the filter of the scheduler,
`IsHealthy(timeout) && CanAcceptTask()`, holds exactly when the heartbeat is
recent, the status is ONLINE and `current_load < capacity`. -/
theorem IsHealthy_iff_heartbeat (w : Worker) (timeout : Duration) (now : Time) :
    (w.IsHealthy timeout now = true ↔ now - w.LastHeartbeat ≤ timeout) ∧
      ((w.IsHealthy timeout now && w.CanAcceptTask) = true ↔
        now - w.LastHeartbeat ≤ timeout ∧ w.Status = WorkerOnline ∧
          w.CurrentLoad < w.Capacity) := by
  constructor <;> simp [Worker.IsHealthy, Worker.CanAcceptTask]

/-! ## Theorems about the services -/

/-- The persisted task found under an id has that id. -/
theorem Store.task_id (st : Store) (taskID : String) (t : Task) (h : st.task taskID = some t) :
    t.TaskID = taskID := by
  have := List.find?_some h
  simpa using this

/-- A successful `GetByID` returns the persisted task of that id. -/
theorem GetByID_some (rows : MysqlTaskRepo) (taskID : String) (dbErr : Bool) (task : Task)
    (h : MysqlTaskRepo.GetByID rows taskID dbErr = (some task, none)) :
    rows.find? (fun row => row.TaskID == taskID) = some task := by
  unfold MysqlTaskRepo.GetByID at h
  cases dbErr with
  | true => simp at h
  | false =>
    simp only [Bool.false_eq_true, if_false] at h
    cases hf : rows.find? (fun row => row.TaskID == taskID) with
    | none => simp [hf] at h
    | some row =>
      simp only [hf, Prod.mk.injEq, Option.some.injEq, and_true] at h
      rw [h]

/-- An `Update` for one task id leaves the persisted task of every other id as it
is. -/
theorem Update_other_id (rows : MysqlTaskRepo) (task : Task) (now : Time)
    (marshalErr dbErr : Bool)
    (taskID : String) (t : Task) (h : rows.find? (fun row => row.TaskID == taskID) = some t)
    (hne : task.TaskID ≠ taskID) :
    (MysqlTaskRepo.Update rows task now marshalErr dbErr).1.find?
        (fun row => row.TaskID == taskID) =
      some t := by
  unfold MysqlTaskRepo.Update
  cases marshalErr <;> cases dbErr
  case true.true => simpa using h
  case true.false => simpa using h
  case false.true => simpa using h
  case false.false =>
    simp only [Bool.false_eq_true, if_false]
    rw [find_after_update, h]
    have hid : t.TaskID = taskID := by
      have := List.find?_some h
      simpa using this
    have hne2 : ¬ t.TaskID = task.TaskID := by
      rw [hid]
      exact fun e => hne e.symm
    simp [hne2]

/-- A final task is neither PENDING nor PROCESSING. -/
theorem final_not_active (t : Task) (h : t.IsFinalState = true) :
    t.Status ≠ StatusPending ∧ t.Status ≠ StatusProcessing := by
  rcases IsFinalState_status t h with h1 | h1 | h1 | h1
  · exact ⟨fun e => pending_ne.2.1 (e.symm.trans h1), fun e => processing_ne.2.1 (e.symm.trans h1)⟩
  · exact ⟨fun e => pending_ne.2.2.1 (e.symm.trans h1),
      fun e => processing_ne.2.2.1 (e.symm.trans h1)⟩
  · exact ⟨fun e => pending_ne.2.2.2.1 (e.symm.trans h1),
      fun e => processing_ne.2.2.2.1 (e.symm.trans h1)⟩
  · exact ⟨fun e => pending_ne.2.2.2.2 (e.symm.trans h1),
      fun e => processing_ne.2.2.2.2 (e.symm.trans h1)⟩

/-- Method `CancelTask` leaves every persisted final task exactly as it is, whichever task
id it is called with and whichever store calls fail. -/
theorem CancelTask_keeps_final (st : Store) (taskID : String) (now : Time) (f : Faults)
    (id : String) (t : Task) (ht : st.task id = some t) (hfin : t.IsFinalState = true) :
    (TaskService.CancelTask st taskID now f).1.task id = some t := by
  unfold TaskService.CancelTask
  generalize hg : MysqlTaskRepo.GetByID st.tasks taskID f.getByID = g
  obtain ⟨ot, e⟩ := g
  cases ot with
  | none => exact ht
  | some task =>
    cases e with
    | some e => exact ht
    | none =>
      have hfound := GetByID_some _ _ _ _ hg
      have htask : task.TaskID = taskID := by
        have := List.find?_some hfound
        simpa using this
      simp only []
      by_cases hid : taskID = id
      · subst hid
        have heq : task = t := by
          have : some task = some t := hfound.symm.trans ht
          exact Option.some.inj this
        subst heq
        have hna := final_not_active task hfin
        simp [hna.1, hna.2, ht]
      · split
        · exact ht
        · split
          · split
            · exact ht
            · rename_i tasks hupd
              have hkeep := Update_other_id st.tasks (task.MarkAsCancelled now) now false f.update id t ht
                (by
                  show task.TaskID ≠ id
                  rw [htask]
                  exact hid)
              rw [hupd] at hkeep
              exact hkeep
          · split
            · exact ht
            · exact ht

/-- Method `scanAndSchedule` leaves every persisted final task exactly as it is, for every
load balancer and whichever store calls fail. -/
theorem scanAndSchedule_keeps_final {σ : Type} (lb : LoadBalancer σ) (heartbeatTimeout : Duration)
    (st : Store) (lbState : σ) (now : Time) (f : Faults)
    (id : String) (t : Task) (ht : st.task id = some t) (hfin : t.IsFinalState = true) :
    (SchedulerService.scanAndSchedule lb heartbeatTimeout st lbState now f).1.task id =
      some t := by
  unfold SchedulerService.scanAndSchedule
  split
  · exact ht
  · rename_i q1 taskID hpop
    simp only []
    split
    · rename_i task hg
      have hfound := GetByID_some _ _ _ _ hg
      have htask : task.TaskID = taskID := by
        have := List.find?_some hfound
        simpa using this
      by_cases hid : taskID = id
      · subst hid
        have heq : task = t := by
          have : some task = some t := hfound.symm.trans ht
          exact Option.some.inj this
        subst heq
        have hna := final_not_active task hfin
        simp only [bne_iff_ne, ne_eq, hna.1, not_false_eq_true, if_true]
        exact ht
      · split
        · exact ht
        · split
          · exact ht
          · split
            · exact ht
            · split
              · exact ht
              · rename_i lbState1 worker hsel
                split
                · exact ht
                · rename_i tasks hupd
                  have hkeep : tasks.find? (fun row => row.TaskID == id) = some t := by
                    have := Update_other_id st.tasks (task.MarkAsProcessing worker.WorkerID now)
                      now false f.update id t ht
                      (by
                        show task.TaskID ≠ id
                        rw [htask]
                        exact hid)
                    rw [hupd] at this
                    exact this
                  split
                  · exact hkeep
                  · exact hkeep
    · exact ht

/-- One iteration of the timeout sweep leaves the persisted task of every other id
as it is. -/
theorem sweepTask_other_id (st : Store) (task : Task) (now : Time) (f : Faults)
    (id : String) (t : Task) (ht : st.task id = some t) (hne : task.TaskID ≠ id) :
    (SchedulerService.sweepTask st task now f).task id = some t := by
  unfold SchedulerService.sweepTask
  simp only []
  split
  · split
    · exact ht
    · rename_i tasks hupd
      have := Update_other_id st.tasks (task.MarkAsTimeout now).MarkAsRetrying now false f.update id t
        ht hne
      rw [hupd] at this
      exact this
  · exact Update_other_id st.tasks (task.MarkAsTimeout now) now false f.update id t ht hne

/-- The loop of the timeout sweep leaves a persisted task as it is when no swept
task has its id. -/
theorem sweep_loop_other_ids (now : Time) (faults : String → Faults) (id : String) (t : Task)
    (swept : List Task) :
    ∀ st : Store, (∀ s ∈ swept, s.TaskID ≠ id) → st.task id = some t →
      (swept.foldl (fun s task => SchedulerService.sweepTask s task now (faults task.TaskID))
        st).task id = some t := by
  induction swept with
  | nil => intro st _ ht; exact ht
  | cons s rest ih =>
    intro st hall ht
    simp only [List.foldl_cons]
    apply ih
    · intro s2 hs2
      exact hall s2 (List.mem_cons_of_mem _ hs2)
    · exact sweepTask_other_id st s now _ id t ht (hall s (List.mem_cons_self _ _))

/-- Method `checkTimeoutTasks` leaves every persisted final task exactly as it is, given
that `task_id` is unique in the table (the UNIQUE constraint of the schema). -/
theorem checkTimeoutTasks_keeps_final (st : Store) (now : Time) (findErr : Bool)
    (faults : String → Faults) (id : String) (t : Task)
    (huniq : (st.tasks.map (fun row => row.TaskID)).Nodup)
    (ht : st.task id = some t) (hfin : t.IsFinalState = true) :
    (SchedulerService.checkTimeoutTasks st now findErr faults).1.task id = some t := by
  unfold SchedulerService.checkTimeoutTasks
  split
  · exact ht
  · rename_i swept hfind
    simp only []
    apply sweep_loop_other_ids
    · intro s hs hsid
      unfold MysqlTaskRepo.FindTimeoutTasks at hfind
      cases findErr with
      | true => simp at hfind
      | false =>
        simp only [Bool.false_eq_true, if_false, Prod.mk.injEq, and_true] at hfind
        subst hfind
        rw [List.mem_filter] at hs
        obtain ⟨hsmem, hsp⟩ := hs
        have hstat : s.Status = StatusProcessing := by
          simp only [Bool.and_eq_true, beq_iff_eq] at hsp
          exact hsp.1
        have htmem : t ∈ st.tasks := List.mem_of_find?_eq_some ht
        have htid : t.TaskID = id := Store.task_id st id t ht
        have hst : s = t :=
          List.inj_on_of_nodup_map huniq hsmem htmem (hsid.trans htid.symm)
        subst hst
        exact (final_not_active s hfin).2 hstat
    · exact ht

/-- C1, the failing run: task `t1` (three retries allowed) is created, assigned to
worker `w1`, reset to PENDING by the timeout sweep while its id still waits in the
queue of `w1`, and cancelled by the user; every call returns a nil error.  The
persisted task is then CANCELLED and final.  The worker then takes the id from its
queue; the cancel mark is not set, the executor returns an error, and `processTask`
persists the task as PENDING with `retry_count = 2` and pushes its id to
`queue:normal`: the task is no longer final. -/
theorem final_task_rewound_by_processTask :
    (runStore1.task "t1").map (fun t => (t.Status, t.RetryCount, t.MaxRetry)) =
        some (StatusPending, 0, 3) ∧
      (runStore2.task "t1").map (fun t => (t.Status, t.WorkerID)) =
        some (StatusProcessing, "w1") ∧
      runStore2.queues.workerQueue "w1" = ["t1"] ∧
      (SchedulerService.checkTimeoutTasks runStore2 (40 * Second) false (fun _ => {})).2 = none ∧
      (runStore3.task "t1").map (fun t => (t.Status, t.RetryCount)) = some (StatusPending, 1) ∧
      runStore3.queues.workerQueue "w1" = ["t1"] ∧
      (TaskService.CancelTask runStore3 "t1" (41 * Second) {}).2 = none ∧
      (runStore4.task "t1").map (fun t => (t.Status, t.IsFinalState)) =
        some (StatusCancelled, true) ∧
      runStore4.queues.workerQueue "w1" = ["t1"] ∧
      runStore4.queues.cancel = [] ∧
      (WorkerService.processTask runService runStore4 (ExecOutcome.failure "boom" false)
        (42 * Second) {}).2.2 = none ∧
      (runStore5.task "t1").map (fun t => (t.Status, t.RetryCount, t.IsFinalState)) =
        some (StatusPending, 2, false) ∧
      runStore5.queues.normal = ["t1", "t1"] := by
  decide

/-! ## Theorems about the worker load -/

/-- C11, counterexample: the worker with capacity 2 and load 2 satisfies the bound,
and after `AcceptTask` its load is 3, above its capacity. -/
theorem load_bound_broken_by_AcceptTask :
    fullWorker.Capacity > 0 ∧ 0 ≤ fullWorker.CurrentLoad ∧
      fullWorker.CurrentLoad ≤ fullWorker.Capacity ∧
      fullWorker.AcceptTask.CurrentLoad = 3 ∧
      ¬ (fullWorker.AcceptTask.CurrentLoad ≤ fullWorker.AcceptTask.Capacity) := by
  decide

/-- C11, amended: for every worker with `capacity > 0` and
`0 ≤ current_load ≤ capacity`, the capacity being a value of `int`, the bound still
holds after `CompleteTask`, which takes one off a positive load and leaves a zero
load at zero; `AcceptTask` adds one to a load below the largest `int` and turns the
largest `int` into the smallest, so after it the bound holds when
`current_load < capacity`, which is the case whenever `CanAcceptTask` holds (the
filter under which the scheduler and the load balancers pick the worker). -/
theorem load_bound_preserved (w : Worker) (_hc : w.Capacity > 0) (h0 : 0 ≤ w.CurrentLoad)
    (h1 : w.CurrentLoad ≤ w.Capacity) (hint : w.Capacity ≤ maxInt) :
    (0 ≤ w.CompleteTask.CurrentLoad ∧ w.CompleteTask.CurrentLoad ≤ w.CompleteTask.Capacity) ∧
      (w.CurrentLoad > 0 → w.CompleteTask.CurrentLoad = w.CurrentLoad - 1) ∧
      (w.CurrentLoad = 0 → w.CompleteTask.CurrentLoad = 0) ∧
      (w.CurrentLoad < maxInt → w.AcceptTask.CurrentLoad = w.CurrentLoad + 1) ∧
      (w.CurrentLoad = maxInt → w.AcceptTask.CurrentLoad = minInt) ∧
      (w.CurrentLoad < w.Capacity →
        0 ≤ w.AcceptTask.CurrentLoad ∧ w.AcceptTask.CurrentLoad ≤ w.AcceptTask.Capacity) ∧
      (w.CanAcceptTask = true →
        0 ≤ w.AcceptTask.CurrentLoad ∧ w.AcceptTask.CurrentLoad ≤ w.AcceptTask.Capacity) := by
  have hacc : w.CurrentLoad < w.Capacity →
      0 ≤ w.AcceptTask.CurrentLoad ∧ w.AcceptTask.CurrentLoad ≤ w.AcceptTask.Capacity := by
    intro hlt
    show 0 ≤ goIncr w.CurrentLoad ∧ goIncr w.CurrentLoad ≤ w.Capacity
    rw [goIncr_of_lt w.CurrentLoad (by omega)]
    omega
  refine ⟨?_, ?_, ?_, ?_, ?_, hacc, ?_⟩
  · unfold Worker.CompleteTask
    split
    · show 0 ≤ w.CurrentLoad - 1 ∧ w.CurrentLoad - 1 ≤ w.Capacity
      omega
    · exact ⟨h0, h1⟩
  · intro hpos
    unfold Worker.CompleteTask
    rw [if_pos hpos]
  · intro hz
    unfold Worker.CompleteTask
    have : ¬ w.CurrentLoad > 0 := by omega
    rw [if_neg this]
    exact hz
  · intro hlt
    exact goIncr_of_lt w.CurrentLoad hlt
  · intro hmax
    show goIncr w.CurrentLoad = minInt
    rw [hmax]
    exact goIncr_maxInt
  · intro hcan
    apply hacc
    unfold Worker.CanAcceptTask at hcan
    simp only [Bool.and_eq_true, decide_eq_true_eq] at hcan
    exact hcan.2

/-- C11, witness: the worker with capacity 2 and load 1 keeps the bound under both
operations, and `AcceptTask` takes its load to 2. -/
theorem load_bound_preserved_witness :
    (0 ≤ halfWorker.CompleteTask.CurrentLoad ∧
        halfWorker.CompleteTask.CurrentLoad ≤ halfWorker.CompleteTask.Capacity) ∧
      halfWorker.CompleteTask.CurrentLoad = halfWorker.CurrentLoad - 1 ∧
      halfWorker.AcceptTask.CurrentLoad = halfWorker.CurrentLoad + 1 ∧
      (0 ≤ halfWorker.AcceptTask.CurrentLoad ∧
        halfWorker.AcceptTask.CurrentLoad ≤ halfWorker.AcceptTask.Capacity) :=
  have h := load_bound_preserved halfWorker (by decide) (by decide) (by decide) (by decide)
  ⟨h.1, h.2.1 (by decide), h.2.2.2.1 (by decide), h.2.2.2.2.2.1 (by decide)⟩

/-! ## Theorems about the load balancers -/

/-- A worker that can accept a task is ONLINE and below its capacity. -/
theorem CanAcceptTask_unfold (w : Worker) :
    w.CanAcceptTask = true ↔ w.Status = WorkerOnline ∧ w.CurrentLoad < w.Capacity := by
  unfold Worker.CanAcceptTask
  simp only [Bool.and_eq_true, beq_iff_eq, decide_eq_true_eq]

/-- A worker that can accept a task is neither at capacity nor OFFLINE. -/
theorem CanAcceptTask_not_full (w : Worker) (h : w.CanAcceptTask = true) :
    w.CurrentLoad ≠ w.Capacity ∧ w.Status ≠ WorkerOffline := by
  obtain ⟨hs, hl⟩ := (CanAcceptTask_unfold w).1 h
  refine ⟨by omega, ?_⟩
  rw [hs]
  decide

/-- A worker with Go `int` fields that can accept a task has a load below the
largest `int`. -/
theorem load_lt_maxInt (w : Worker) (hint : w.intFields = true) (h : w.CanAcceptTask = true) :
    w.CurrentLoad < maxInt := by
  obtain ⟨_, hl⟩ := (CanAcceptTask_unfold w).1 h
  unfold Worker.intFields at hint
  simp only [Bool.and_eq_true, decide_eq_true_eq] at hint
  omega

/-- The loop of the least-task balancer, started with `selected` and `minLoad`:
either no worker of the list is accept-capable with a load below `minLoad` and the
result is `selected`, or the result is the first worker of least load among the
accept-capable workers of the list, and that load is below `minLoad`. -/
theorem leastTaskLoop_spec (workers : List Worker) :
    ∀ (selected : Option Worker) (minLoad : Int),
      (leastTaskLoop workers selected minLoad = selected ∧
        ∀ w ∈ workers, w.CanAcceptTask = true → minLoad ≤ w.CurrentLoad) ∨
      (∃ pre w post, workers = pre ++ w :: post ∧
        leastTaskLoop workers selected minLoad = some w ∧
        w.CanAcceptTask = true ∧ w.CurrentLoad < minLoad ∧
        (∀ v ∈ pre, v.CanAcceptTask = true → w.CurrentLoad < v.CurrentLoad) ∧
        (∀ v ∈ post, v.CanAcceptTask = true → w.CurrentLoad ≤ v.CurrentLoad)) := by
  induction workers with
  | nil =>
    intro selected minLoad
    left
    exact ⟨rfl, fun w hw => absurd hw (List.not_mem_nil w)⟩
  | cons x rest ih =>
    intro selected minLoad
    by_cases hx : x.CanAcceptTask = true ∧ x.CurrentLoad < minLoad
    · have hstep : leastTaskLoop (x :: rest) selected minLoad =
          leastTaskLoop rest (some x) x.CurrentLoad := by
        simp [leastTaskLoop, hx.1, hx.2]
      right
      rcases ih (some x) x.CurrentLoad with ⟨hres, hall⟩ | ⟨pre, w, post, hsplit, hres, hw, hlt, hpre, hpost⟩
      · exact ⟨[], x, rest, rfl, hstep.trans hres, hx.1, hx.2,
          fun v hv => absurd hv (List.not_mem_nil v), hall⟩
      · refine ⟨x :: pre, w, post, by rw [hsplit]; rfl, hstep.trans hres, hw, by omega, ?_, hpost⟩
        intro v hv hcan
        rcases List.mem_cons.1 hv with hv | hv
        · subst hv
          exact hlt
        · exact hpre v hv hcan
    · have hstep : leastTaskLoop (x :: rest) selected minLoad =
          leastTaskLoop rest selected minLoad := by
        by_cases hc : x.CanAcceptTask = true
        · have : ¬ x.CurrentLoad < minLoad := fun h => hx ⟨hc, h⟩
          simp [leastTaskLoop, hc, this]
        · simp [leastTaskLoop, hc]
      have hxge : x.CanAcceptTask = true → minLoad ≤ x.CurrentLoad := by
        intro hc
        by_contra hlt
        exact hx ⟨hc, by omega⟩
      rcases ih selected minLoad with ⟨hres, hall⟩ | ⟨pre, w, post, hsplit, hres, hw, hlt, hpre, hpost⟩
      · left
        refine ⟨hstep.trans hres, ?_⟩
        intro v hv hcan
        rcases List.mem_cons.1 hv with hv | hv
        · subst hv
          exact hxge hcan
        · exact hall v hv hcan
      · right
        refine ⟨x :: pre, w, post, by rw [hsplit]; rfl, hstep.trans hres, hw, hlt, ?_, hpost⟩
        intro v hv hcan
        rcases List.mem_cons.1 hv with hv | hv
        · subst hv
          have := hxge hcan
          omega
        · exact hpre v hv hcan

/-- The least-task balancer returns the no-available error when no worker of the
list can accept a task. -/
theorem LeastTaskSelect_none (workers : List Worker) (taskID : String)
    (hnone : ∀ w ∈ workers, w.CanAcceptTask = false) :
    LeastTaskSelect workers taskID = .error ErrNoAvailableWorker := by
  unfold LeastTaskSelect
  split
  · rfl
  · rcases leastTaskLoop_spec workers none maxInt with ⟨hres, _⟩ | ⟨pre, w, post, hsplit, _, hw, _⟩
    · rw [hres]
    · have hmem : w ∈ workers := by
        rw [hsplit]
        exact List.mem_append_right _ (List.mem_cons_self _ _)
      rw [hnone w hmem] at hw
      exact absurd hw (by decide)

/-- The least-task balancer on a list with an accept-capable worker (the `int`
fields being Go ints): it returns the first worker of least load among the
accept-capable ones. -/
theorem LeastTaskSelect_first_min (workers : List Worker) (taskID : String)
    (hint : ∀ w ∈ workers, w.intFields = true)
    (hex : ∃ w ∈ workers, w.CanAcceptTask = true) :
    ∃ pre w post, workers = pre ++ w :: post ∧
      LeastTaskSelect workers taskID = .ok w ∧ w.CanAcceptTask = true ∧
      (∀ v ∈ pre, v.CanAcceptTask = true → w.CurrentLoad < v.CurrentLoad) ∧
      (∀ v ∈ post, v.CanAcceptTask = true → w.CurrentLoad ≤ v.CurrentLoad) := by
  obtain ⟨c, hc, hcan⟩ := hex
  rcases leastTaskLoop_spec workers none maxInt with ⟨_, hall⟩ | ⟨pre, w, post, hsplit, hres, hw, _, hpre, hpost⟩
  · have h1 := hall c hc hcan
    have h2 := load_lt_maxInt c (hint c hc) hcan
    omega
  · refine ⟨pre, w, post, hsplit, ?_, hw, hpre, hpost⟩
    unfold LeastTaskSelect
    have hlen : (workers.length == 0) = false := by
      rw [hsplit]
      simp
    rw [hlen, hres]
    rfl

/-- A worker returned by the least-task balancer is an accept-capable worker of the
list, and its only error is the no-available error. -/
theorem LeastTaskSelect_sound (workers : List Worker) (taskID : String) :
    (∀ e, LeastTaskSelect workers taskID = .error e → e = ErrNoAvailableWorker) ∧
      (∀ w, LeastTaskSelect workers taskID = .ok w →
        w ∈ workers ∧ w.CanAcceptTask = true) := by
  unfold LeastTaskSelect
  split
  · exact ⟨fun e h => by injection h with h; exact h.symm, fun w h => by injection h⟩
  · rcases leastTaskLoop_spec workers none maxInt with ⟨hres, _⟩ | ⟨pre, w, post, hsplit, hres, hw, _⟩
    · rw [hres]
      exact ⟨fun e h => by injection h with h; exact h.symm, fun w h => by injection h⟩
    · rw [hres]
      refine ⟨fun e h => by injection h, fun w2 h => ?_⟩
      injection h with h
      subst h
      refine ⟨?_, hw⟩
      rw [hsplit]
      exact List.mem_append_right _ (List.mem_cons_self _ _)

/-- A balancer that returns the no-available error on an empty `available` slice
and an element of it otherwise selects accept-capable workers only. -/
theorem pick_available_capable (workers : List Worker) (result : Except String Worker)
    (hnone : acceptCapable workers = [] → result = .error ErrNoAvailableWorker)
    (hsome : acceptCapable workers ≠ [] → ∃ w ∈ acceptCapable workers, result = .ok w) :
    SelectsAcceptCapable workers result := by
  have hfilter : acceptCapable workers = [] ↔ ∀ w ∈ workers, w.CanAcceptTask = false := by
    unfold acceptCapable
    rw [List.filter_eq_nil_iff]
    constructor
    · intro h w hw
      simpa using h w hw
    · intro h w hw
      simpa using h w hw
  by_cases hav : acceptCapable workers = []
  · have hres := hnone hav
    subst hres
    refine ⟨⟨fun _ => hfilter.1 hav, fun _ => rfl⟩, ?_, ?_⟩
    · intro e h
      injection h with h
      exact h.symm
    · intro w h
      injection h
  · obtain ⟨w, hw, hres⟩ := hsome hav
    subst hres
    have hmem : w ∈ workers ∧ w.CanAcceptTask = true := by
      unfold acceptCapable at hw
      simpa [List.mem_filter] using hw
    refine ⟨⟨fun h => by injection h, fun h => absurd (hfilter.2 h) hav⟩, ?_, ?_⟩
    · intro e h
      injection h
    · intro w2 h
      injection h with h
      subst h
      exact ⟨hmem.1, hmem.2, CanAcceptTask_not_full w hmem.2⟩

/-- The accept-capable slice of the empty list is empty. -/
theorem acceptCapable_of_length_zero (workers : List Worker)
    (h : (workers.length == 0) = true) : acceptCapable workers = [] := by
  have : workers = [] := by
    cases workers with
    | nil => rfl
    | cons x rest => simp at h
  subst this
  rfl

/-- The round-robin balancer returns the worker of `available` whose index is the
incremented counter modulo the length, and stores the incremented counter. -/
theorem RoundRobinSelect_nonempty (counter : Nat) (workers : List Worker) (taskID : String)
    (hav : acceptCapable workers ≠ []) :
    (RoundRobinSelect counter workers taskID).1 = (counter + 1) % 2 ^ 64 ∧
      ((acceptCapable workers)[(counter + 1) % 2 ^ 64 % (acceptCapable workers).length]?).map
        Except.ok = some (RoundRobinSelect counter workers taskID).2 := by
  have hlen : (acceptCapable workers).length ≠ 0 := fun h => hav (List.length_eq_zero.1 h)
  have hw : (workers.length == 0) = false := by
    cases hb : (workers.length == 0) with
    | false => rfl
    | true => exact absurd (acceptCapable_of_length_zero workers hb) hav
  unfold RoundRobinSelect
  rw [hw]
  simp only [Bool.false_eq_true, if_false]
  rw [dif_neg (by exact hlen)]
  refine ⟨rfl, ?_⟩
  have hlt : (counter + 1) % 2 ^ 64 % (acceptCapable workers).length <
      (acceptCapable workers).length := Nat.mod_lt _ (Nat.pos_of_ne_zero hlen)
  rw [List.getElem?_eq_getElem hlt]
  rfl

/-- The round-robin balancer on an empty `available` slice: the no-available error,
and the counter is not touched. -/
theorem RoundRobinSelect_empty (counter : Nat) (workers : List Worker) (taskID : String)
    (hav : acceptCapable workers = []) :
    RoundRobinSelect counter workers taskID = (counter, .error ErrNoAvailableWorker) := by
  unfold RoundRobinSelect
  split
  · rfl
  · have hlen : (List.filter (fun w => w.CanAcceptTask) workers).length = 0 := by
      have := congrArg List.length hav
      simpa [acceptCapable] using this
    simp only []
    rw [dif_pos hlen]

/-- The consistent-hash balancer returns the worker of `available` whose index is
the checksum of the task id modulo the length. -/
theorem ConsistentHashSelect_nonempty (workers : List Worker) (taskID : String)
    (hav : acceptCapable workers ≠ []) :
    ((acceptCapable workers)[ChecksumIEEE (stringBytes taskID) %
        (acceptCapable workers).length]?).map Except.ok =
      some (ConsistentHashSelect workers taskID) := by
  have hlen : (acceptCapable workers).length ≠ 0 := fun h => hav (List.length_eq_zero.1 h)
  have hw : (workers.length == 0) = false := by
    cases hb : (workers.length == 0) with
    | false => rfl
    | true => exact absurd (acceptCapable_of_length_zero workers hb) hav
  unfold ConsistentHashSelect
  rw [hw]
  simp only [Bool.false_eq_true, if_false]
  rw [dif_neg (by exact hlen)]
  have hlt : ChecksumIEEE (stringBytes taskID) % (acceptCapable workers).length <
      (acceptCapable workers).length := Nat.mod_lt _ (Nat.pos_of_ne_zero hlen)
  rw [List.getElem?_eq_getElem hlt]
  rfl

/-- The consistent-hash balancer on an empty `available` slice. -/
theorem ConsistentHashSelect_empty (workers : List Worker) (taskID : String)
    (hav : acceptCapable workers = []) :
    ConsistentHashSelect workers taskID = .error ErrNoAvailableWorker := by
  unfold ConsistentHashSelect
  split
  · rfl
  · have hlen : (List.filter (fun w => w.CanAcceptTask) workers).length = 0 := by
      have := congrArg List.length hav
      simpa [acceptCapable] using this
    simp only []
    rw [dif_pos hlen]

/-- C12: each of the three balancers returns the no-available error exactly when no
worker of the list can accept a task (in particular on the empty list), and
otherwise returns a worker of the list that can accept a task, so never a worker
at capacity or OFFLINE.  For the least-task balancer the `int` fields of the
workers are values of the Go type `int`; the round-robin statement holds for every
value of the counter. -/
theorem Select_only_accept_capable (workers : List Worker) (taskID : String) (counter : Nat) :
    ((∀ w ∈ workers, w.intFields = true) →
        SelectsAcceptCapable workers (LeastTaskSelect workers taskID)) ∧
      SelectsAcceptCapable workers (RoundRobinSelect counter workers taskID).2 ∧
      SelectsAcceptCapable workers (ConsistentHashSelect workers taskID) := by
  refine ⟨?_, ?_, ?_⟩
  · intro hint
    have hsound := LeastTaskSelect_sound workers taskID
    refine ⟨⟨?_, LeastTaskSelect_none workers taskID⟩, hsound.1, ?_⟩
    · intro herr w hw
      cases hcan : w.CanAcceptTask with
      | false => rfl
      | true =>
        obtain ⟨_, w2, _, _, hok, _⟩ := LeastTaskSelect_first_min workers taskID hint ⟨w, hw, hcan⟩
        rw [herr] at hok
        injection hok
    · intro w hok
      have := hsound.2 w hok
      exact ⟨this.1, this.2, CanAcceptTask_not_full w this.2⟩
  · apply pick_available_capable
    · intro hav
      rw [RoundRobinSelect_empty counter workers taskID hav]
    · intro hav
      have hlen : (acceptCapable workers).length ≠ 0 := fun h => hav (List.length_eq_zero.1 h)
      have hlt : (counter + 1) % 2 ^ 64 % (acceptCapable workers).length <
          (acceptCapable workers).length := Nat.mod_lt _ (Nat.pos_of_ne_zero hlen)
      have h := (RoundRobinSelect_nonempty counter workers taskID hav).2
      rw [List.getElem?_eq_getElem hlt] at h
      exact ⟨_, List.getElem_mem hlt, (Option.some.inj h).symm⟩
  · apply pick_available_capable
    · intro hav
      exact ConsistentHashSelect_empty workers taskID hav
    · intro hav
      have hlen : (acceptCapable workers).length ≠ 0 := fun h => hav (List.length_eq_zero.1 h)
      have hlt : ChecksumIEEE (stringBytes taskID) % (acceptCapable workers).length <
          (acceptCapable workers).length := Nat.mod_lt _ (Nat.pos_of_ne_zero hlen)
      have h := ConsistentHashSelect_nonempty workers taskID hav
      rw [List.getElem?_eq_getElem hlt] at h
      exact ⟨_, List.getElem_mem hlt, (Option.some.inj h).symm⟩

/-- C12, witness: on the five mixed workers (one OFFLINE, one at capacity) the
least-task balancer selects an accept-capable worker, and on the single worker at
capacity it returns the no-available error. -/
theorem Select_only_accept_capable_witness :
    SelectsAcceptCapable mixedWorkers (LeastTaskSelect mixedWorkers "test-task") ∧
      LeastTaskSelect [fullWorker] "test-task" = .error ErrNoAvailableWorker :=
  ⟨(Select_only_accept_capable mixedWorkers "test-task" 0).1 (by decide),
    ((Select_only_accept_capable [fullWorker] "test-task" 0).1 (by decide)).1.2 (by decide)⟩

/-- C13: on a worker list with at least one accept-capable worker (the `int` fields
being Go ints) the least-task balancer returns an accept-capable worker `w` whose
load is at most that of every accept-capable worker of the list, and it is the
first such worker: every accept-capable worker before it in the list has a
strictly greater load. -/
theorem LeastTask_selects_first_minimum (workers : List Worker) (taskID : String)
    (hint : ∀ w ∈ workers, w.intFields = true)
    (hex : ∃ w ∈ workers, w.CanAcceptTask = true) :
    ∃ pre w post, workers = pre ++ w :: post ∧
      LeastTaskSelect workers taskID = .ok w ∧ w.CanAcceptTask = true ∧
      (∀ v ∈ workers, v.CanAcceptTask = true → w.CurrentLoad ≤ v.CurrentLoad) ∧
      (∀ v ∈ pre, v.CanAcceptTask = true → w.CurrentLoad < v.CurrentLoad) := by
  obtain ⟨pre, w, post, hsplit, hok, hw, hpre, hpost⟩ :=
    LeastTaskSelect_first_min workers taskID hint hex
  refine ⟨pre, w, post, hsplit, hok, hw, ?_, hpre⟩
  intro v hv hcan
  rw [hsplit] at hv
  rcases List.mem_append.1 hv with hv | hv
  · exact le_of_lt (hpre v hv hcan)
  · rcases List.mem_cons.1 hv with hv | hv
    · subst hv
      exact le_refl _
    · exact hpost v hv hcan

/-- C13, witness: on the test workers (loads 3, 5, 1) the result is `worker-3`; on
the mixed workers, where `b` and `c` share the least load 2 among the
accept-capable ones, it is `b`, the earlier one. -/
theorem LeastTask_selects_first_minimum_witness :
    (∃ pre w post, testWorkers = pre ++ w :: post ∧
        LeastTaskSelect testWorkers "test-task" = .ok w ∧ w.CanAcceptTask = true ∧
        (∀ v ∈ testWorkers, v.CanAcceptTask = true → w.CurrentLoad ≤ v.CurrentLoad) ∧
        (∀ v ∈ pre, v.CanAcceptTask = true → w.CurrentLoad < v.CurrentLoad)) ∧
      (LeastTaskSelect testWorkers "test-task").toOption.map (fun w => w.WorkerID) =
        some "worker-3" ∧
      (LeastTaskSelect mixedWorkers "test-task").toOption.map (fun w => w.WorkerID) =
        some "b" :=
  ⟨LeastTask_selects_first_minimum testWorkers "test-task" (by decide) (by decide),
    by decide, by decide⟩

/-- The `i`-th result (counting from 0) of successive round-robin calls that start
with the counter at `counter`. -/
theorem roundRobinCalls_getElem (workers : List Worker) (hav : acceptCapable workers ≠ []) :
    ∀ (taskIDs : List String) (counter i : Nat), i < taskIDs.length →
      (roundRobinCalls workers taskIDs counter)[i]? =
        ((acceptCapable workers)[(counter + i + 1) % 2 ^ 64 %
          (acceptCapable workers).length]?).map Except.ok := by
  intro taskIDs
  induction taskIDs with
  | nil =>
    intro counter i hi
    exact absurd hi (Nat.not_lt_zero i)
  | cons taskID rest ih =>
    intro counter i hi
    have hsel := RoundRobinSelect_nonempty counter workers taskID hav
    cases i with
    | zero =>
      simp only [roundRobinCalls, List.getElem?_cons_zero, Nat.add_zero]
      exact hsel.2.symm
    | succ j =>
      have hj : j < rest.length := by
        simpa using hi
      simp only [roundRobinCalls, List.getElem?_cons_succ]
      rw [hsel.1, ih _ j hj]
      have : ((counter + 1) % 2 ^ 64 + j + 1) % 2 ^ 64 = (counter + (j + 1) + 1) % 2 ^ 64 := by
        rw [Nat.add_assoc, Nat.mod_add_mod]
        congr 1
        omega
      rw [this]

/-- C14: for a fresh round-robin balancer (counter 0) and a worker list with
`n ≥ 1` accept-capable workers `a[0..n-1]` (in input order), the `k`-th call of
`Select` (`k = 1, 2, …`) returns `a[(k mod 2^64) mod n]`; and any `n` consecutive
calls that end before the counter wraps (the calls `j+1, …, j+n` with
`j + n < 2^64`) return every accept-capable worker exactly once. -/
theorem RoundRobin_rotation (workers : List Worker) (taskIDs : List String)
    (hn : 1 ≤ (acceptCapable workers).length) :
    (∀ k, 1 ≤ k → k ≤ taskIDs.length →
        k % 2 ^ 64 % (acceptCapable workers).length < (acceptCapable workers).length ∧
        (roundRobinCalls workers taskIDs 0)[k - 1]? =
          ((acceptCapable workers)[k % 2 ^ 64 % (acceptCapable workers).length]?).map
            Except.ok) ∧
      (∀ j, j + (acceptCapable workers).length ≤ taskIDs.length →
        j + (acceptCapable workers).length < 2 ^ 64 →
        List.Perm
          (((roundRobinCalls workers taskIDs 0).drop j).take (acceptCapable workers).length)
          ((acceptCapable workers).map Except.ok)) := by
  have hav : acceptCapable workers ≠ [] := by
    intro h
    rw [h] at hn
    exact absurd hn (by decide)
  refine ⟨?_, ?_⟩
  · intro k hk1 hk2
    refine ⟨Nat.mod_lt _ hn, ?_⟩
    have h := roundRobinCalls_getElem workers hav taskIDs 0 (k - 1) (by omega)
    have hk : 0 + (k - 1) + 1 = k := by omega
    rw [hk] at h
    exact h
  · intro j hj hwrap
    have heq : ((roundRobinCalls workers taskIDs 0).drop j).take (acceptCapable workers).length =
        ((acceptCapable workers).rotate (j + 1)).map Except.ok := by
      apply List.ext_getElem?
      intro i
      by_cases hi : i < (acceptCapable workers).length
      · rw [List.getElem?_take_of_lt hi, List.getElem?_drop,
          roundRobinCalls_getElem workers hav taskIDs 0 (j + i) (by omega),
          List.getElem?_map, List.getElem?_rotate hi]
        have h1 : (0 + (j + i) + 1) % 2 ^ 64 = j + i + 1 := by
          rw [Nat.zero_add]
          exact Nat.mod_eq_of_lt (by omega)
        rw [h1]
        have h2 : j + i + 1 = i + (j + 1) := by omega
        rw [h2]
      · rw [List.getElem?_take_eq_none (by omega), List.getElem?_map,
          List.getElem?_eq_none (by rw [List.length_rotate]; omega)]
        rfl
    rw [heq]
    exact (List.rotate_perm _ _).map _

/-- C14, witness: six calls on the three test workers, all accept-capable: the
first call returns `a[1]`, and the calls return `worker-2`, `worker-3`, `worker-1`
twice over; the calls 2, 3, 4 return each worker once. -/
theorem RoundRobin_rotation_witness :
    (roundRobinCalls testWorkers sixTaskIDs 0)[1 - 1]? =
        ((acceptCapable testWorkers)[1 % 2 ^ 64 % (acceptCapable testWorkers).length]?).map
          Except.ok ∧
      List.Perm (((roundRobinCalls testWorkers sixTaskIDs 0).drop 1).take
          (acceptCapable testWorkers).length) ((acceptCapable testWorkers).map Except.ok) ∧
      (roundRobinCalls testWorkers sixTaskIDs 0).map
          (fun r => r.toOption.map (fun w => w.WorkerID)) =
        [some "worker-2", some "worker-3", some "worker-1",
         some "worker-2", some "worker-3", some "worker-1"] :=
  ⟨((RoundRobin_rotation testWorkers sixTaskIDs (by decide)).1 1 (by decide) (by decide)).2,
    (RoundRobin_rotation testWorkers sixTaskIDs (by decide)).2 1 (by decide) (by decide),
    by decide⟩

/-- One bit step keeps a CRC below `2^32`. -/
theorem crc32Bit_lt (c : Nat) (h : c < 2 ^ 32) : crc32Bit c < 2 ^ 32 := by
  unfold crc32Bit
  split
  · apply Nat.xor_lt_two_pow
    · omega
    · norm_num
  · omega

/-- One byte step keeps a CRC below `2^32`. -/
theorem crc32Byte_lt (crc byte : Nat) (hc : crc < 2 ^ 32) (hb : byte < 256) :
    crc32Byte crc byte < 2 ^ 32 := by
  unfold crc32Byte
  have h0 : crc ^^^ byte < 2 ^ 32 := Nat.xor_lt_two_pow hc (by omega)
  exact crc32Bit_lt _ (crc32Bit_lt _ (crc32Bit_lt _ (crc32Bit_lt _ (crc32Bit_lt _
    (crc32Bit_lt _ (crc32Bit_lt _ (crc32Bit_lt _ h0)))))))

/-- The running CRC stays below `2^32`. -/
theorem crc32_foldl_lt (data : List Nat) (hdata : ∀ b ∈ data, b < 256) :
    ∀ crc, crc < 2 ^ 32 → data.foldl crc32Byte crc < 2 ^ 32 := by
  induction data with
  | nil => intro crc h; exact h
  | cons b rest ih =>
    intro crc h
    simp only [List.foldl_cons]
    apply ih
    · intro b2 hb2
      exact hdata b2 (List.mem_cons_of_mem _ hb2)
    · exact crc32Byte_lt crc b h (hdata b (List.mem_cons_self _ _))

/-- The UTF-8 encoding consists of bytes. -/
theorem utf8Bytes_lt (c : Char) : ∀ b ∈ utf8Bytes c, b < 256 := by
  have hv : c.toNat < 0x110000 := by
    have h := c.valid
    unfold UInt32.isValidChar Nat.isValidChar at h
    unfold Char.toNat
    omega
  intro b hb
  unfold utf8Bytes at hb
  simp only [] at hb
  split at hb
  · simp only [List.mem_singleton] at hb
    omega
  · split at hb
    · simp only [List.mem_cons, List.mem_singleton, List.not_mem_nil, or_false] at hb
      omega
    · split at hb
      · simp only [List.mem_cons, List.mem_singleton, List.not_mem_nil, or_false] at hb
        omega
      · simp only [List.mem_cons, List.mem_singleton, List.not_mem_nil, or_false] at hb
        omega

/-- The checksum of the bytes of a string is a `uint32`. -/
theorem ChecksumIEEE_lt (s : String) : ChecksumIEEE (stringBytes s) < 2 ^ 32 := by
  unfold ChecksumIEEE
  apply Nat.xor_lt_two_pow
  · apply crc32_foldl_lt
    · intro b hb
      unfold stringBytes at hb
      rw [List.mem_flatMap] at hb
      obtain ⟨c, _, hc⟩ := hb
      exact utf8Bytes_lt c b hc
    · norm_num
  · norm_num

/-- C15: the consistent-hash balancer is a function of the task id and the worker
list.  On a list with `n ≥ 1` accept-capable workers `a[0..n-1]` (in input order)
it returns `a[CRC32-IEEE(task id bytes) mod n]`; the checksum is a `uint32` and the
index lies in `0..n-1`; and two calls with the same task id and the same list
return the same worker. -/
theorem ConsistentHash_selects_by_checksum (workers : List Worker) (taskID : String)
    (hn : 1 ≤ (acceptCapable workers).length) :
    ChecksumIEEE (stringBytes taskID) < 2 ^ 32 ∧
      ChecksumIEEE (stringBytes taskID) % (acceptCapable workers).length <
        (acceptCapable workers).length ∧
      ((acceptCapable workers)[ChecksumIEEE (stringBytes taskID) %
          (acceptCapable workers).length]?).map Except.ok =
        some (ConsistentHashSelect workers taskID) ∧
      (∃ w ∈ acceptCapable workers, ConsistentHashSelect workers taskID = .ok w) ∧
      (∀ (workers2 : List Worker) (taskID2 : String), workers2 = workers → taskID2 = taskID →
        ConsistentHashSelect workers2 taskID2 = ConsistentHashSelect workers taskID) := by
  have hav : acceptCapable workers ≠ [] := by
    intro h
    rw [h] at hn
    exact absurd hn (by decide)
  have hlt : ChecksumIEEE (stringBytes taskID) % (acceptCapable workers).length <
      (acceptCapable workers).length := Nat.mod_lt _ hn
  have hsel := ConsistentHashSelect_nonempty workers taskID hav
  refine ⟨ChecksumIEEE_lt taskID, hlt, hsel, ?_, ?_⟩
  · rw [List.getElem?_eq_getElem hlt] at hsel
    exact ⟨_, List.getElem_mem hlt, (Option.some.inj hsel).symm⟩
  · intro workers2 taskID2 hw ht
    rw [hw, ht]

set_option maxRecDepth 100000 in
/-- C15, witness: the checksum of `test-task-123` is 1841959751, which is 2 modulo
3, so on the three test workers the balancer returns `a[2]`, `worker-3`. -/
theorem ConsistentHash_selects_by_checksum_witness :
    ChecksumIEEE (stringBytes "test-task-123") = 1841959751 ∧
      ((acceptCapable testWorkers)[ChecksumIEEE (stringBytes "test-task-123") %
          (acceptCapable testWorkers).length]?).map Except.ok =
        some (ConsistentHashSelect testWorkers "test-task-123") ∧
      (ConsistentHashSelect testWorkers "test-task-123").toOption.map (fun w => w.WorkerID) =
        some "worker-3" :=
  ⟨by decide,
    (ConsistentHash_selects_by_checksum testWorkers "test-task-123" (by decide)).2.2.1,
    by decide⟩

/-! ## Theorems about the queue manager -/

/-- Redis `RPOP` on a list whose earliest element is `x`. -/
theorem rpop_of_reverse (l : List String) (x : String) (rest : List String)
    (h : l.reverse = x :: rest) : rpop l false = (rest.reverse, x, none) := by
  have hl : l = rest.reverse ++ [x] := by
    have := congrArg List.reverse h
    simpa using this
  subst hl
  unfold rpop
  simp

/-- One `PushTask` appends the id to the FIFO view of its queue. -/
theorem PushTask_fifo (q : Queues) (taskID : String) (priority : TaskPriority) :
    (q.PushTask taskID priority false).2 = none ∧
      (q.PushTask taskID priority false).1.highFifo =
        q.highFifo ++ highIDs [(taskID, priority)] ∧
      (q.PushTask taskID priority false).1.normalFifo =
        q.normalFifo ++ normalIDs [(taskID, priority)] ∧
      (q.PushTask taskID priority false).1.worker = q.worker ∧
      (q.PushTask taskID priority false).1.cancel = q.cancel := by
  unfold Queues.PushTask Queues.highFifo Queues.normalFifo highIDs normalIDs
  cases h : priority.IsHigh <;> simp [h]

/-- A sequence of pushes appends its ids to the FIFO views, class by class. -/
theorem pushAll_fifo (pushes : List (String × TaskPriority)) :
    ∀ q : Queues, (pushAll q pushes).highFifo = q.highFifo ++ highIDs pushes ∧
      (pushAll q pushes).normalFifo = q.normalFifo ++ normalIDs pushes := by
  induction pushes with
  | nil =>
    intro q
    simp [pushAll, highIDs, normalIDs]
  | cons p rest ih =>
    intro q
    obtain ⟨taskID, priority⟩ := p
    have h1 := PushTask_fifo q taskID priority
    have h2 := ih (q.PushTask taskID priority false).1
    simp only [pushAll]
    rw [h2.1, h2.2, h1.2.1, h1.2.2.1]
    unfold highIDs normalIDs
    cases h : priority.IsHigh <;> simp [h]

/-- C16: the global queues seen as FIFO lists (earliest pushed first).  A sequence
of `PushTask` calls appends the ids with a high priority to the high list and the
others to the normal list, in push order.  `PopTask` then returns and removes the
head of the high list if there is one; otherwise the head of the normal list; and
when both are empty it returns the sentinel `redis.Nil` and changes nothing. -/
theorem PopTask_high_first_fifo (q0 : Queues) (pushes : List (String × TaskPriority)) :
    ((pushAll q0 pushes).highFifo = q0.highFifo ++ highIDs pushes ∧
        (pushAll q0 pushes).normalFifo = q0.normalFifo ++ normalIDs pushes) ∧
      (∀ x rest, (pushAll q0 pushes).highFifo = x :: rest →
        ((pushAll q0 pushes).PopTask false false).2 = (x, none) ∧
        ((pushAll q0 pushes).PopTask false false).1.highFifo = rest ∧
        ((pushAll q0 pushes).PopTask false false).1.normalFifo =
          (pushAll q0 pushes).normalFifo) ∧
      (∀ x rest, (pushAll q0 pushes).highFifo = [] →
        (pushAll q0 pushes).normalFifo = x :: rest →
        ((pushAll q0 pushes).PopTask false false).2 = (x, none) ∧
        ((pushAll q0 pushes).PopTask false false).1.highFifo = [] ∧
        ((pushAll q0 pushes).PopTask false false).1.normalFifo = rest) ∧
      ((pushAll q0 pushes).highFifo = [] → (pushAll q0 pushes).normalFifo = [] →
        (pushAll q0 pushes).PopTask false false = (pushAll q0 pushes, "", some redisNil)) := by
  refine ⟨pushAll_fifo pushes q0, ?_, ?_, ?_⟩
  · intro x rest h
    have hr := rpop_of_reverse _ x rest h
    unfold Queues.PopTask
    rw [hr]
    simp [Queues.highFifo, Queues.normalFifo]
  · intro x rest hh hn
    have hhigh : (pushAll q0 pushes).high = [] := by
      simpa [Queues.highFifo] using hh
    have hr := rpop_of_reverse _ x rest hn
    unfold Queues.PopTask
    rw [hhigh, hr]
    simp [Queues.highFifo, Queues.normalFifo, rpop]
  · intro hh hn
    generalize pushAll q0 pushes = q at hh hn ⊢
    obtain ⟨high, normal, worker, cancel⟩ := q
    have hhigh : high = [] := by
      simpa [Queues.highFifo] using hh
    have hnormal : normal = [] := by
      simpa [Queues.normalFifo] using hn
    subst hhigh hnormal
    rfl

/-- C16, witness: push `tA` NORMAL, then `tB` HIGH; the first `PopTask` returns
`tB`, the second returns `tA`, the third the sentinel. -/
theorem PopTask_high_first_fifo_witness :
    ((pushAll {} [("tA", PriorityNormal), ("tB", PriorityHigh)]).PopTask false false).2 =
        ("tB", none) ∧
      (((pushAll {} [("tA", PriorityNormal), ("tB", PriorityHigh)]).PopTask false false).1.PopTask
        false false).2 = ("tA", none) ∧
      ((((pushAll {} [("tA", PriorityNormal), ("tB", PriorityHigh)]).PopTask false false).1.PopTask
        false false).1.PopTask false false).2 = ("", some redisNil) :=
  ⟨((PopTask_high_first_fifo {} [("tA", PriorityNormal), ("tB", PriorityHigh)]).2.1
      "tB" [] (by decide)).1,
    ((PopTask_high_first_fifo
      ((pushAll {} [("tA", PriorityNormal), ("tB", PriorityHigh)]).PopTask false false).1
      []).2.2.1 "tA" [] (by decide) (by decide)).1,
    by decide⟩

/-! ## Theorems about the scheduler -/

/-- The three failure branches of `scanAndSchedule` that requeue: when the popped
id is that of a PENDING task and `FindByTaskType` fails, or no worker is healthy
and accept-capable, or the load balancer returns an error, the store at return is
the store after the pop with the id pushed back on the queue of its priority (the
push succeeding); the persisted tasks are untouched. -/
theorem scanAndSchedule_requeues {σ : Type} (lb : LoadBalancer σ) (heartbeatTimeout : Duration)
    (st : Store) (lbState : σ) (now : Time) (f : Faults)
    (q1 : Queues) (taskID : String) (task : Task)
    (hpop : st.queues.PopTask f.popHigh f.popNormal = (q1, taskID, none))
    (hget : MysqlTaskRepo.GetByID st.tasks taskID f.getByID = (some task, none))
    (hpend : task.Status = StatusPending) (hpush : f.pushTask = false)
    (hfail : f.findByTaskType = true ∨
      ((st.registry.FindByTaskType task.TaskType false).1.filter
        (fun w => w.IsHealthy heartbeatTimeout now && w.CanAcceptTask)) = [] ∨
      ∃ e, (lb.Select lbState ((st.registry.FindByTaskType task.TaskType false).1.filter
        (fun w => w.IsHealthy heartbeatTimeout now && w.CanAcceptTask)) taskID).2 = .error e) :
    (SchedulerService.scanAndSchedule lb heartbeatTimeout st lbState now f).1 =
      { st with queues := (q1.PushTask taskID task.Priority false).1 } := by
  have hne : (task.Status != StatusPending) = false := by
    rw [hpend]
    decide
  unfold SchedulerService.scanAndSchedule
  rw [hpop]
  simp only []
  rw [hget]
  simp only [hne, Bool.false_eq_true, if_false]
  cases hf : f.findByTaskType with
  | true =>
    simp [Registry.FindByTaskType, SchedulerService.requeue, hpush]
  | false =>
    have hfind : st.registry.FindByTaskType task.TaskType false =
        ((st.registry.FindByTaskType task.TaskType false).1, none) := by
      simp [Registry.FindByTaskType]
    rw [hfind]
    simp only []
    rcases hfail with h | h | ⟨e, h⟩
    · rw [hf] at h
      exact absurd h (by decide)
    · rw [h]
      simp [SchedulerService.requeue, hpush]
    · split
      · simp [SchedulerService.requeue, hpush]
      · generalize hsel : lb.Select lbState _ taskID = sel at h ⊢
        obtain ⟨s1, r⟩ := sel
        simp only at h
        subst h
        simp [SchedulerService.requeue, hpush]

/-- C17, the failing input: on `runStore1` the task `t1` is persisted PENDING and
its id is the only entry of `queue:normal`.  `scanAndSchedule` pops it, finds the
healthy worker `w1`, and the UPDATE that persists PROCESSING fails.  The call
returns the error without pushing the id back: the persisted task is still
PENDING, and its id is in neither global queue and in no worker queue. -/
theorem pending_task_lost_when_Update_fails :
    (runStore1.task "t1").map (fun t => (t.Status, t.Priority)) =
        some (StatusPending, PriorityNormal) ∧
      runStore1.queues.normal = ["t1"] ∧
      lostScan.2.2 = some "update task failed" ∧
      (lostScan.1.task "t1").map (fun t => t.Status) = some StatusPending ∧
      lostScan.1.queues.high = [] ∧
      lostScan.1.queues.normal = [] ∧
      lostScan.1.queues.worker = [] := by
  decide

/-! ## Theorems about cancellation -/

/-- The cancel mark lives for one millisecond: `3600` nanoseconds are sent as
`PX 1`. -/
theorem cancelMark_life : redisLife cancelMarkExpiration = Millisecond := by
  decide

/-- After a successful `SetCancelMark` at `now`, the mark of the id is found from
then on until it expires. -/
theorem CheckCancelMark_after_set (q : Queues) (taskID : String) (now now2 : Time)
    (_h1 : now ≤ now2) (h2 : now2 < now + redisLife cancelMarkExpiration) :
    (q.SetCancelMark taskID now false).1.CheckCancelMark taskID now2 false = (true, none) := by
  unfold Queues.SetCancelMark Queues.CheckCancelMark Queues.marked
  simp only [Bool.false_eq_true, if_false, List.any_cons, beq_self_eq_true, Bool.true_and]
  simp [h2]

/-- After a successful `SetCancelMark` at `now`, the mark of the id is gone once its
life is over. -/
theorem CheckCancelMark_after_expiry (q : Queues) (taskID : String) (now now2 : Time)
    (h : now + redisLife cancelMarkExpiration ≤ now2) :
    (q.SetCancelMark taskID now false).1.CheckCancelMark taskID now2 false = (false, none) := by
  unfold Queues.SetCancelMark Queues.CheckCancelMark Queues.marked
  simp only [Bool.false_eq_true, if_false, List.any_cons, beq_self_eq_true, Bool.true_and]
  have h1 : ¬ now2 < now + redisLife cancelMarkExpiration := Int.not_lt.mpr h
  have hrest : (List.filter (fun m => !m.1 == taskID) q.cancel).any
      (fun m => m.1 == taskID && decide (now2 < m.2)) = false := by
    rw [List.any_eq_false]
    intro m hm
    have hne := (List.mem_filter.mp hm).2
    simp only [Bool.not_eq_true', beq_eq_false_iff_ne, ne_eq] at hne
    simp [hne]
  rw [hrest]
  simp [h1]

/-- A successful `Update` of a persisted task: the row takes the assignments of the
UPDATE statement. -/
theorem Update_same_id (rows : MysqlTaskRepo) (task old : Task) (now : Time)
    (hold : rows.find? (fun row => row.TaskID == task.TaskID) = some old) :
    (MysqlTaskRepo.Update rows task now false false).1.find? (fun row => row.TaskID == task.TaskID) =
      some (MysqlTaskRepo.updateRow old task now) := by
  unfold MysqlTaskRepo.Update
  simp only [Bool.false_eq_true, if_false]
  rw [find_after_update, hold]
  have hid : old.TaskID = task.TaskID := by
    have := List.find?_some hold
    simpa using this
  simp [hid]

/-- A successful `GetByID` on the persisted task. -/
theorem GetByID_of_task (st : Store) (taskID : String) (task : Task)
    (ht : st.task taskID = some task) :
    MysqlTaskRepo.GetByID st.tasks taskID false = (some task, none) := by
  unfold MysqlTaskRepo.GetByID
  unfold Store.task at ht
  simp [ht]

/-- Method `CancelTask` on a task that is neither PENDING nor PROCESSING: an error, and
the store is unchanged, whichever store calls fail. -/
theorem CancelTask_rejects (st : Store) (taskID : String) (now : Time) (f : Faults)
    (task : Task) (ht : st.task taskID = some task)
    (h1 : task.Status ≠ StatusPending) (h2 : task.Status ≠ StatusProcessing) :
    (TaskService.CancelTask st taskID now f).2 ≠ none ∧
      (TaskService.CancelTask st taskID now f).1 = st := by
  unfold TaskService.CancelTask
  cases hf : f.getByID with
  | true => simp [MysqlTaskRepo.GetByID]
  | false =>
    rw [GetByID_of_task st taskID task ht]
    simp [h1, h2]

/-- C18: let `task` be the persisted task of id `taskID`.  If its status is neither
PENDING nor PROCESSING, `CancelTask` returns an error and leaves the whole store
(tasks, cancel marks, logs) unchanged.  If it is PENDING (the store calls
succeeding), `CancelTask` returns nil, the persisted task is CANCELLED with
`completed_at` set, the queues and cancel marks are untouched, and every later
`CancelTask` of that id returns an error and changes nothing.  If it is PROCESSING
(the store calls succeeding), `CancelTask` returns nil, the cancel mark of the id
is set, and the persisted tasks are unchanged, so the status stays PROCESSING. -/
theorem CancelTask_by_status (st : Store) (taskID : String) (now : Time) (f : Faults)
    (task : Task) (ht : st.task taskID = some task) :
    (task.Status ≠ StatusPending → task.Status ≠ StatusProcessing →
        (TaskService.CancelTask st taskID now f).2 ≠ none ∧
        (TaskService.CancelTask st taskID now f).1 = st) ∧
      (task.Status = StatusPending → f.getByID = false → f.update = false →
        (TaskService.CancelTask st taskID now f).2 = none ∧
        (∃ t, (TaskService.CancelTask st taskID now f).1.task taskID = some t ∧
          t.Status = StatusCancelled ∧ t.CompletedAt = some now) ∧
        (TaskService.CancelTask st taskID now f).1.queues = st.queues ∧
        (∀ (now2 : Time) (f2 : Faults),
          (TaskService.CancelTask (TaskService.CancelTask st taskID now f).1 taskID now2 f2).2 ≠
              none ∧
            (TaskService.CancelTask (TaskService.CancelTask st taskID now f).1 taskID now2 f2).1 =
              (TaskService.CancelTask st taskID now f).1)) ∧
      (task.Status = StatusProcessing → f.getByID = false → f.setCancel = false →
        (TaskService.CancelTask st taskID now f).2 = none ∧
        (TaskService.CancelTask st taskID now f).1.queues.CheckCancelMark taskID now false =
          (true, none) ∧
        (TaskService.CancelTask st taskID now f).1.tasks = st.tasks ∧
        (TaskService.CancelTask st taskID now f).1.task taskID = some task) := by
  have htid : task.TaskID = taskID := Store.task_id st taskID task ht
  refine ⟨CancelTask_rejects st taskID now f task ht, ?_, ?_⟩
  · intro hp hg hu
    have hupd := Update_same_id st.tasks (task.MarkAsCancelled now) task now
      (by
        show st.tasks.find? (fun row => row.TaskID == task.TaskID) = some task
        rw [htid]
        exact ht)
    have hcall : TaskService.CancelTask st taskID now f =
        ({ st with
            tasks := (MysqlTaskRepo.Update st.tasks (task.MarkAsCancelled now) now false false).1
            logs := (TaskLogRepo.Create st.logs
              (NewStateChangeLog taskID StatusCancelled StatusCancelled ""
                "Task cancelled by user" now) f.createLog).1 }, none) := by
      unfold TaskService.CancelTask
      rw [hg, GetByID_of_task st taskID task ht]
      simp only [hp, hu]
      simp [MysqlTaskRepo.Update, Task.MarkAsCancelled, StatusPending, StatusProcessing]
    have hafter : (TaskService.CancelTask st taskID now f).1.task taskID =
        some (MysqlTaskRepo.updateRow task (task.MarkAsCancelled now) now) := by
      rw [hcall]
      have := hupd
      rw [show (task.MarkAsCancelled now).TaskID = taskID from htid] at this
      exact this
    refine ⟨by rw [hcall], ⟨_, hafter, rfl, rfl⟩, by rw [hcall], ?_⟩
    intro now2 f2
    exact CancelTask_rejects _ taskID now2 f2 _ hafter
      (by
        show StatusCancelled ≠ StatusPending
        decide)
      (by
        show StatusCancelled ≠ StatusProcessing
        decide)
  · intro hp hg hs
    have hne : (task.Status == StatusPending) = false := by
      rw [hp]
      decide
    have hcall : TaskService.CancelTask st taskID now f =
        ({ st with
            queues := (st.queues.SetCancelMark taskID now false).1
            logs := (TaskLogRepo.Create st.logs
              (NewStateChangeLog taskID task.Status StatusCancelled ""
                "Task cancelled by user" now) f.createLog).1 }, none) := by
      have hset : st.queues.SetCancelMark taskID now false =
          ((st.queues.SetCancelMark taskID now false).1, none) := by
        unfold Queues.SetCancelMark
        simp only [Bool.false_eq_true, if_false]
      have hact : (task.Status != StatusPending && task.Status != StatusProcessing) = false := by
        rw [hp]
        decide
      unfold TaskService.CancelTask
      rw [hg, GetByID_of_task st taskID task ht]
      simp only [hs, hne, hact, Bool.false_eq_true, if_false]
      rw [hset]
    refine ⟨by rw [hcall], ?_, by rw [hcall], by rw [hcall]; exact ht⟩
    rw [hcall]
    exact CheckCancelMark_after_set st.queues taskID now now (Int.le_refl now)
      (by rw [cancelMark_life]; exact Int.lt_add_of_pos_right now (by decide))

/-- C18, witness: on `runStore3` the task `t1` is PENDING: `CancelTask` returns nil
and persists CANCELLED with `completed_at` at second 41, and a second `CancelTask`
returns an error.  On `runStore2` the task is PROCESSING: `CancelTask` sets the
cancel mark and leaves the task as it is. -/
theorem CancelTask_by_status_witness :
    ((TaskService.CancelTask runStore3 "t1" (41 * Second) {}).2 = none ∧
        (∃ t, (TaskService.CancelTask runStore3 "t1" (41 * Second) {}).1.task "t1" = some t ∧
          t.Status = StatusCancelled ∧ t.CompletedAt = some (41 * Second))) ∧
      (TaskService.CancelTask (TaskService.CancelTask runStore3 "t1" (41 * Second) {}).1 "t1"
        (50 * Second) {}).2 ≠ none ∧
      ((TaskService.CancelTask runStore2 "t1" (3 * Second) {}).1.queues.CheckCancelMark "t1"
          (3 * Second) false = (true, none) ∧
        (TaskService.CancelTask runStore2 "t1" (3 * Second) {}).1.task "t1" =
          some ((runStore2.task "t1").getD {})) :=
  have h3 := (CancelTask_by_status runStore3 "t1" (41 * Second) {}
    ((runStore3.task "t1").getD {}) (by decide)).2.1 (by decide) rfl rfl
  have h2 := (CancelTask_by_status runStore2 "t1" (3 * Second) {}
    ((runStore2.task "t1").getD {}) (by decide)).2.2 (by decide) rfl rfl
  ⟨⟨h3.1, h3.2.1⟩, (h3.2.2.2 (50 * Second) {}).1, ⟨h2.2.1, h2.2.2.2⟩⟩

/-! ## Theorems about the worker service -/

/-- Popping a worker queue touches neither the global queues nor the cancel
marks. -/
theorem PopFromWorkerQueue_frame (q q1 : Queues) (workerID taskID : String) (storeErr : Bool)
    (e : GoError) (h : q.PopFromWorkerQueue workerID storeErr = (q1, taskID, e)) :
    q1.high = q.high ∧ q1.normal = q.normal ∧ q1.cancel = q.cancel := by
  unfold Queues.PopFromWorkerQueue at h
  split at h
  · simp only [Prod.mk.injEq] at h
    rw [← h.1]
    exact ⟨rfl, rfl, rfl⟩
  · simp only [Prod.mk.injEq] at h
    rw [← h.1]
    exact ⟨rfl, rfl, rfl⟩

/-- The cancelled branch of `processTask`: what the call returns when it dequeues
the id of a persisted task whose cancel mark is set and the check of the mark
succeeds. -/
theorem processTask_cancelled_eq (ws : WorkerService) (st : Store) (outcome : ExecOutcome)
    (now : Time) (f : Faults) (q1 : Queues) (taskID : String) (task : Task)
    (hpop : st.queues.PopFromWorkerQueue ws.worker.WorkerID f.popWorkerQueue = (q1, taskID, none))
    (ht : st.task taskID = some task) (hg : f.getByID = false)
    (hmark : st.queues.marked taskID now = true) (hc : f.checkCancel = false) :
    WorkerService.processTask ws st outcome now f =
      ({ ws with worker := ws.worker.CompleteTask },
        { st with
          tasks := (MysqlTaskRepo.Update st.tasks (task.MarkAsCancelled now) now false f.update).1
          queues := (q1.RemoveCancelMark taskID f.removeCancel).1
          registry := (st.registry.UpdateLoad ws.worker.CompleteTask.WorkerID
            ws.worker.CompleteTask.CurrentLoad f.updateLoad).1 }, none) := by
  have hq := PopFromWorkerQueue_frame _ _ _ _ _ _ hpop
  have hcheck : q1.CheckCancelMark taskID now false = (true, none) := by
    unfold Queues.CheckCancelMark Queues.marked
    unfold Queues.marked at hmark
    rw [hq.2.2, hmark]
    rfl
  unfold WorkerService.processTask
  rw [hpop]
  simp only []
  rw [hg, GetByID_of_task st taskID task ht]
  simp only [hc]
  rw [hcheck]
  rfl

/-- After a successful `RemoveCancelMark` the id has no mark, at any time. -/
theorem marked_after_remove (q : Queues) (taskID : String) (now : Time) :
    (q.RemoveCancelMark taskID false).1.marked taskID now = false := by
  unfold Queues.RemoveCancelMark Queues.marked
  simp only [Bool.false_eq_true, if_false]
  rw [List.any_eq_false]
  intro m hm
  have hne := (List.mem_filter.mp hm).2
  simp only [Bool.not_eq_true', beq_eq_false_iff_ne, ne_eq] at hne
  simp [hne]

/-- C19, counterexample: in `markedStore` the task `t1` is PROCESSING on `w1`, its id
is in the queue of `w1`, and its cancel mark, set at second 3, exists half a
millisecond later.  If the check of the mark fails at that moment, `processTask`
goes on as if there were no mark: the executor is invoked and the task ends
SUCCESS.  If the check succeeds and the update of the task fails, the task stays
PROCESSING and the mark is removed.  Both calls return nil. -/
theorem cancel_mark_lost_on_store_failure :
    markedStore.queues.workerQueue "w1" = ["t1"] ∧
      markedStore.queues.marked "t1" (3 * Second + 500000) = true ∧
      (WorkerService.processTask runService markedStore (ExecOutcome.success [])
        (3 * Second + 500000) { checkCancel := true }).2.2 = none ∧
      ((WorkerService.processTask runService markedStore (ExecOutcome.success [])
        (3 * Second + 500000) { checkCancel := true }).2.1.task "t1").map (fun t => t.Status) =
        some StatusSuccess ∧
      (WorkerService.processTask runService markedStore (ExecOutcome.success [])
        (3 * Second + 500000) { update := true }).2.2 = none ∧
      ((WorkerService.processTask runService markedStore (ExecOutcome.success [])
        (3 * Second + 500000) { update := true }).2.1.task "t1").map (fun t => t.Status) =
        some StatusProcessing ∧
      (WorkerService.processTask runService markedStore (ExecOutcome.success [])
        (3 * Second + 500000) { update := true }).2.1.queues.marked "t1"
          (3 * Second + 500000) = false := by
  decide

/-- C19, amended: if `processTask` dequeues the id of a persisted task whose cancel
mark exists when the worker checks it, and the store calls `GetByID`,
`CheckCancelMark`, `Update` and `RemoveCancelMark` succeed, then it returns nil, the
persisted task is CANCELLED with `completed_at` set, the id has no cancel mark
any more, the result does not depend on what the executor would return (it is not
invoked), the global queues are as before, the worker queues are as the pop left
them (nothing is pushed), and no log is written. -/
theorem processTask_honours_cancel_mark (ws : WorkerService) (st : Store)
    (outcome : ExecOutcome) (now : Time) (f : Faults) (q1 : Queues) (taskID : String)
    (task : Task)
    (hpop : st.queues.PopFromWorkerQueue ws.worker.WorkerID f.popWorkerQueue = (q1, taskID, none))
    (ht : st.task taskID = some task) (hg : f.getByID = false)
    (hmark : st.queues.marked taskID now = true) (hc : f.checkCancel = false)
    (hu : f.update = false) (hr : f.removeCancel = false) :
    (WorkerService.processTask ws st outcome now f).2.2 = none ∧
      (∃ t, (WorkerService.processTask ws st outcome now f).2.1.task taskID = some t ∧
        t.Status = StatusCancelled ∧ t.CompletedAt = some now) ∧
      (∀ now2 : Time,
        (WorkerService.processTask ws st outcome now f).2.1.queues.marked taskID now2 = false) ∧
      (∀ outcome2 : ExecOutcome,
        WorkerService.processTask ws st outcome2 now f =
          WorkerService.processTask ws st outcome now f) ∧
      (WorkerService.processTask ws st outcome now f).2.1.queues.high = st.queues.high ∧
      (WorkerService.processTask ws st outcome now f).2.1.queues.normal = st.queues.normal ∧
      (WorkerService.processTask ws st outcome now f).2.1.queues.worker = q1.worker ∧
      (WorkerService.processTask ws st outcome now f).2.1.logs = st.logs := by
  have htid : task.TaskID = taskID := Store.task_id st taskID task ht
  have hq := PopFromWorkerQueue_frame _ _ _ _ _ _ hpop
  have hcall := processTask_cancelled_eq ws st outcome now f q1 taskID task hpop ht hg hmark hc
  have hupd := Update_same_id st.tasks (task.MarkAsCancelled now) task now
    (by
      show st.tasks.find? (fun row => row.TaskID == task.TaskID) = some task
      rw [htid]
      exact ht)
  rw [show (task.MarkAsCancelled now).TaskID = taskID from htid] at hupd
  refine ⟨by rw [hcall], ?_, ?_, ?_, ?_, ?_, ?_, by rw [hcall]⟩
  · refine ⟨MysqlTaskRepo.updateRow task (task.MarkAsCancelled now) now, ?_, rfl, rfl⟩
    rw [hcall, hu]
    exact hupd
  · intro now2
    rw [hcall, hr]
    exact marked_after_remove q1 taskID now2
  · intro outcome2
    rw [hcall, processTask_cancelled_eq ws st outcome2 now f q1 taskID task hpop ht hg hmark hc]
  · rw [hcall, hr]
    exact hq.1
  · rw [hcall, hr]
    exact hq.2.1
  · rw [hcall, hr]
    rfl

/-- C19, witness: on `markedStore` the task `t1` is PROCESSING on `w1`, its id is in
the queue of `w1` and its cancel mark was set at second 3; `processTask` of `w1`
half a millisecond later persists it as CANCELLED and removes the mark. -/
theorem processTask_honours_cancel_mark_witness :
    markedStore.queues.workerQueue "w1" = ["t1"] ∧
      markedStore.queues.cancel = [("t1", 3 * Second + Millisecond)] ∧
      (∃ t, (WorkerService.processTask runService markedStore (ExecOutcome.success [])
          (3 * Second + 500000) {}).2.1.task "t1" = some t ∧
        t.Status = StatusCancelled ∧ t.CompletedAt = some (3 * Second + 500000)) ∧
      (WorkerService.processTask runService markedStore (ExecOutcome.success [])
        (3 * Second + 500000) {}).2.1.queues.marked "t1" (3 * Second + 500000) = false :=
  have h := processTask_honours_cancel_mark runService markedStore (ExecOutcome.success [])
    (3 * Second + 500000) {} (markedStore.queues.PopFromWorkerQueue "w1" false).1 "t1"
    ((markedStore.task "t1").getD {}) (by decide) (by decide) rfl (by decide) rfl rfl rfl
  ⟨by decide, by decide, h.2.1, h.2.2.1 (3 * Second + 500000)⟩

/-- The cancel mark that `CancelTask` sets is gone a millisecond later: in
`markedStore` the mark of `t1` was set at second 3; at second 4 the worker finds no
mark, invokes the executor, and the task ends SUCCESS although its cancellation
was accepted. -/
theorem cancel_mark_expired_before_poll :
    markedStore.queues.marked "t1" (3 * Second) = true ∧
      markedStore.queues.marked "t1" (3 * Second + Millisecond) = false ∧
      markedStore.queues.marked "t1" (4 * Second) = false ∧
      ((WorkerService.processTask runService markedStore (ExecOutcome.success [])
        (4 * Second) {}).2.1.task "t1").map (fun t => t.Status) = some StatusSuccess := by
  decide

/-! ## Theorems about the executor registry -/

/-- The loop of `Register` never changes the executor of a type that is mapped. -/
theorem registerLoop_keeps (executor : Executor) (types : List String) :
    ∀ (r : ExecutorRegistry) (taskType : String) (x : Executor),
      StrMap.get r taskType = some x →
      StrMap.get (registerLoop executor types r).1 taskType = some x := by
  induction types with
  | nil => intro r taskType x h; exact h
  | cons ty rest ih =>
    intro r taskType x h
    unfold registerLoop
    cases hty : StrMap.get r ty with
    | some y => exact h
    | none =>
      simp only []
      apply ih
      have hne : taskType ≠ ty := by
        intro e
        rw [e, hty] at h
        exact absurd h (by simp)
      rw [StrMap.get_set_other _ _ _ _ hne]
      exact h

/-- The loop of `Register` returns nil exactly when no type of the list is mapped
and no type occurs twice in the list. -/
theorem registerLoop_ok_iff (executor : Executor) (types : List String) :
    ∀ r : ExecutorRegistry,
      (registerLoop executor types r).2 = none ↔
        (∀ ty ∈ types, StrMap.get r ty = none) ∧ types.Nodup := by
  induction types with
  | nil =>
    intro r
    simp [registerLoop]
  | cons ty rest ih =>
    intro r
    unfold registerLoop
    cases hty : StrMap.get r ty with
    | some y =>
      simp only []
      constructor
      · intro h
        exact absurd h (by simp)
      · intro h
        have := h.1 ty (List.mem_cons_self _ _)
        rw [hty] at this
        exact absurd this (by simp)
    | none =>
      simp only []
      rw [ih]
      constructor
      · rintro ⟨hall, hnd⟩
        have hnotin : ty ∉ rest := by
          intro hmem
          have := hall ty hmem
          rw [StrMap.get_set_self] at this
          exact absurd this (by simp)
        refine ⟨?_, List.nodup_cons.2 ⟨hnotin, hnd⟩⟩
        intro t ht
        rcases List.mem_cons.1 ht with ht | ht
        · rw [ht]
          exact hty
        · have hne : t ≠ ty := fun e => hnotin (e ▸ ht)
          have := hall t ht
          rw [StrMap.get_set_other _ _ _ _ hne] at this
          exact this
      · rintro ⟨hall, hnd⟩
        obtain ⟨hnotin, hnd2⟩ := List.nodup_cons.1 hnd
        refine ⟨?_, hnd2⟩
        intro t ht
        have hne : t ≠ ty := fun e => hnotin (e ▸ ht)
        rw [StrMap.get_set_other _ _ _ _ hne]
        exact hall t (List.mem_cons_of_mem _ ht)

/-- After a loop of `Register` that returned nil, every type of the list is mapped
to the executor. -/
theorem registerLoop_maps (executor : Executor) (types : List String) :
    ∀ r : ExecutorRegistry, (registerLoop executor types r).2 = none →
      ∀ ty ∈ types, StrMap.get (registerLoop executor types r).1 ty = some executor := by
  induction types with
  | nil =>
    intro r _ ty hty
    exact absurd hty (List.not_mem_nil ty)
  | cons t rest ih =>
    intro r hok ty hty
    unfold registerLoop at hok ⊢
    cases ht : StrMap.get r t with
    | some y =>
      rw [ht] at hok
      exact absurd hok (by simp)
    | none =>
      rw [ht] at hok
      simp only [] at hok ⊢
      rcases List.mem_cons.1 hty with h | h
      · rw [h]
        exact registerLoop_keeps executor rest _ t executor (StrMap.get_set_self _ _ _)
      · exact ih _ hok ty h

/-- C20, counterexample: no type of `dupExecutor` is mapped in the empty registry,
and `Register` fails all the same, because the list names `a` twice. -/
theorem Register_fails_on_repeated_type :
    (∀ ty ∈ dupExecutor.supportedTaskTypes,
        StrMap.get ([] : ExecutorRegistry) ty = none) ∧
      (ExecutorRegistry.Register [] dupExecutor).2 =
        some "executor for task type a already registered" := by
  decide

/-- C20, amended: `Register(e)` fails if a task type of `e.SupportedTaskTypes()` is
already mapped or occurs twice in that list, and succeeds otherwise; after a
successful `Register`, `Get(t)` returns `e` for every supported type `t`; a task
type that is mapped keeps its executor under every later `Register`, successful or
not; and `Get(t)` fails exactly when `t` is not mapped. -/
theorem Register_never_overwrites (r : ExecutorRegistry) (e : Executor) :
    ((∃ ty ∈ e.supportedTaskTypes, StrMap.get r ty ≠ none) → (r.Register e).2 ≠ none) ∧
      (¬ e.supportedTaskTypes.Nodup → (r.Register e).2 ≠ none) ∧
      ((∀ ty ∈ e.supportedTaskTypes, StrMap.get r ty = none) → e.supportedTaskTypes.Nodup →
        (r.Register e).2 = none) ∧
      ((r.Register e).2 = none →
        ∀ ty ∈ e.supportedTaskTypes, (r.Register e).1.Get ty = .ok e) ∧
      (∀ (ty : String) (x : Executor), r.Get ty = .ok x → (r.Register e).1.Get ty = .ok x) ∧
      (∀ ty : String, (∃ msg, r.Get ty = .error msg) ↔ StrMap.get r ty = none) := by
  have hiff := registerLoop_ok_iff e e.supportedTaskTypes r
  refine ⟨?_, ?_, ?_, ?_, ?_, ?_⟩
  · rintro ⟨ty, hty, hmapped⟩ hok
    exact hmapped ((hiff.1 hok).1 ty hty)
  · intro hnd hok
    exact hnd (hiff.1 hok).2
  · intro hall hnd
    exact hiff.2 ⟨hall, hnd⟩
  · intro hok ty hty
    unfold ExecutorRegistry.Get
    have := registerLoop_maps e e.supportedTaskTypes r hok ty hty
    unfold ExecutorRegistry.Register
    rw [this]
  · intro ty x hget
    have hx : StrMap.get r ty = some x := by
      unfold ExecutorRegistry.Get at hget
      cases h : StrMap.get r ty with
      | none =>
        rw [h] at hget
        injection hget
      | some y =>
        rw [h] at hget
        injection hget with hget
        rw [hget]
    unfold ExecutorRegistry.Get ExecutorRegistry.Register
    rw [registerLoop_keeps e e.supportedTaskTypes r ty x hx]
  · intro ty
    unfold ExecutorRegistry.Get
    cases h : StrMap.get r ty with
    | none => simp
    | some y => simp

/-- C20, witness: the HTTP executor registers on the empty registry and is returned
for `webhook`; a second executor that also claims `webhook` is refused, and
`webhook` stays with the HTTP executor. -/
theorem Register_never_overwrites_witness :
    (ExecutorRegistry.Register [] httpExecutor).2 = none ∧
      (ExecutorRegistry.Register [] httpExecutor).1.Get "webhook" = .ok httpExecutor ∧
      ((ExecutorRegistry.Register [] httpExecutor).1.Register hookExecutor).2 ≠ none ∧
      ((ExecutorRegistry.Register [] httpExecutor).1.Register hookExecutor).1.Get "webhook" =
        .ok httpExecutor :=
  have h1 := Register_never_overwrites [] httpExecutor
  have h2 := Register_never_overwrites (ExecutorRegistry.Register [] httpExecutor).1 hookExecutor
  ⟨h1.2.2.1 (by decide) (by decide),
    h1.2.2.2.1 (h1.2.2.1 (by decide) (by decide)) "webhook" (by decide),
    h2.1 ⟨"webhook", by decide, by decide⟩,
    h2.2.2.2.2.1 "webhook" httpExecutor rfl⟩

/-! ## Theorems about the leader lease -/

/-- A call that is not a `Release` by the owner leaves the owner in place. -/
theorem LeaseCall.run_keeps_owner (r : String) (c : LeaseCall)
    (h : c.isReleaseBy r = false) : LeaseCall.run (some r) c = some r := by
  cases c with
  | tryAcquire r1 storeErr =>
    cases storeErr <;> simp [LeaseCall.run, LeaderElection.TryAcquire]
  | renew r1 getErr expireErr =>
    simp only [LeaseCall.run, LeaderElection.Renew]
    split
    · rfl
    · split
      · rfl
      · split <;> rfl
  | release r1 getErr delErr =>
    have hne : (r != r1) = true := by
      simp only [LeaseCall.isReleaseBy, beq_eq_false_iff_ne, ne_eq] at h
      simp only [bne_iff_ne, ne_eq]
      exact fun e => h e.symm
    simp only [LeaseCall.run, LeaderElection.Release, hne]
    split <;> rfl

/-- A sequence of calls without a `Release` by the owner leaves the owner in
place. -/
theorem runLeaseCalls_keeps_owner (r : String) (calls : List LeaseCall)
    (h : ∀ c ∈ calls, c.isReleaseBy r = false) : runLeaseCalls (some r) calls = some r := by
  induction calls with
  | nil => rfl
  | cons c rest ih =>
    have hc := LeaseCall.run_keeps_owner r c (h c (List.mem_cons_self _ _))
    simp only [runLeaseCalls, List.foldl_cons, hc]
    exact ih (fun c1 hc1 => h c1 (List.mem_cons_of_mem _ hc1))

/-- Claim C21: with the lease key held as an optional owner id, after every
sequence of TryAcquire, Renew and Release calls by any replicas (from any lease, with
any store failures), a TryAcquire by replica r whose store call succeeds returns
true exactly when no lease exists, and then the owner is r; it returns false and
leaves the lease as it is when one exists; Renew and Release by a replica that is
not the current owner return an error and leave the lease unchanged, whichever
store calls fail; Release by the owner deletes the lease; and while r owns the
lease, no sequence of calls without a Release by r changes the owner, so there is
never more than one owner. -/
theorem lease_has_one_owner (lease0 : Lease) (calls : List LeaseCall) (r : String) :
    (((LeaderElection.TryAcquire (runLeaseCalls lease0 calls) r false).2.1 = true ↔
        runLeaseCalls lease0 calls = none) ∧
      (runLeaseCalls lease0 calls = none →
        LeaderElection.TryAcquire (runLeaseCalls lease0 calls) r false = (some r, true, none)) ∧
      (runLeaseCalls lease0 calls ≠ none →
        LeaderElection.TryAcquire (runLeaseCalls lease0 calls) r false =
          (runLeaseCalls lease0 calls, false, none))) ∧
    (runLeaseCalls lease0 calls ≠ some r →
      (∀ getErr expireErr,
        (LeaderElection.Renew (runLeaseCalls lease0 calls) r getErr expireErr).1 =
            runLeaseCalls lease0 calls ∧
          (LeaderElection.Renew (runLeaseCalls lease0 calls) r getErr expireErr).2 ≠ none) ∧
      (∀ getErr delErr,
        (LeaderElection.Release (runLeaseCalls lease0 calls) r getErr delErr).1 =
            runLeaseCalls lease0 calls ∧
          (LeaderElection.Release (runLeaseCalls lease0 calls) r getErr delErr).2 ≠ none)) ∧
    (runLeaseCalls lease0 calls = some r →
      LeaderElection.Release (runLeaseCalls lease0 calls) r false false = (none, none) ∧
      ∀ later : List LeaseCall, (∀ c ∈ later, c.isReleaseBy r = false) →
        runLeaseCalls (runLeaseCalls lease0 calls) later = some r) := by
  generalize runLeaseCalls lease0 calls = lease
  refine ⟨⟨?_, ?_, ?_⟩, ?_, ?_⟩
  · cases lease <;> simp [LeaderElection.TryAcquire]
  · intro h
    subst h
    rfl
  · intro h
    cases lease with
    | none => exact absurd rfl h
    | some o => rfl
  · intro h
    have hne : ∀ o, lease = some o → (o != r) = true := by
      intro o ho
      simp only [bne_iff_ne, ne_eq]
      intro e
      exact h (by rw [ho, e])
    constructor
    · intro getErr expireErr
      cases lease with
      | none => cases getErr <;> simp [LeaderElection.Renew]
      | some o => cases getErr <;> simp [LeaderElection.Renew, hne o rfl]
    · intro getErr delErr
      cases lease with
      | none => cases getErr <;> simp [LeaderElection.Release]
      | some o => cases getErr <;> simp [LeaderElection.Release, hne o rfl]
  · intro h
    subst h
    constructor
    · simp [LeaderElection.Release]
    · intro later hl
      exact runLeaseCalls_keeps_owner r later hl

/-- Claim C21 on a run of two replicas: A acquires, B is refused, B cannot renew or
release, A releases, B acquires. -/
theorem lease_has_one_owner_witness :
    runLeaseCalls none [LeaseCall.tryAcquire "A" false] = some "A" ∧
    LeaderElection.TryAcquire (some "A") "B" false = (some "A", false, none) ∧
    (LeaderElection.Renew (some "A") "B" false false).1 = some "A" ∧
    (LeaderElection.Renew (some "A") "B" false false).2 ≠ none ∧
    LeaderElection.Release (some "A") "A" false false = (none, none) ∧
    LeaderElection.TryAcquire none "B" false = (some "B", true, none) := by
  have h := lease_has_one_owner none [LeaseCall.tryAcquire "A" false] "B"
  have hA := lease_has_one_owner none [LeaseCall.tryAcquire "A" false] "A"
  have hB := lease_has_one_owner none [] "B"
  have hrun : runLeaseCalls none [LeaseCall.tryAcquire "A" false] = some "A" := by decide
  rw [hrun] at h hA
  refine ⟨hrun, h.1.2.2 (by decide), ((h.2.1 (by decide)).1 false false).1,
    ((h.2.1 (by decide)).1 false false).2, (hA.2.2 rfl).1, hB.1.2.1 rfl⟩


/-! ## Theorems about `MysqlDSN.Parse` -/

/-- One step of the greedy repetition on a non-empty input. -/
theorem matchGreedy_cons (cls : Char → Bool) (k : List Char → Option (List String))
    (acc : List Char) (c : Char) (cs : List Char) :
    matchGreedy cls k acc (c :: cs) =
      if cls c then
        match matchGreedy cls k (c :: acc) cs with
        | some caps => some caps
        | none => (k (c :: cs)).map (fun caps => String.mk acc.reverse :: caps)
      else (k (c :: cs)).map (fun caps => String.mk acc.reverse :: caps) := rfl

/-- A literal item consumes its character. -/
theorem matchItems_lit (c : Char) (items : List RegexItem) (xs : List Char) :
    matchItems (.lit c :: items) (c :: xs) = matchItems items xs := by
  simp [matchItems]

/-- A group `(class+)` whose class holds the first character starts its
repetition with it. -/
theorem matchItems_plus (cls : Char → Bool) (items : List RegexItem) (x : Char)
    (xs : List Char) (h : cls x = true) :
    matchItems (.plus cls :: items) (x :: xs) = matchGreedy cls (matchItems items) [x] xs := by
  rw [matchItems]
  simp [h]

/-- A group `(class*)` starts its repetition with nothing taken. -/
theorem matchItems_star (cls : Char → Bool) (items : List RegexItem) (input : List Char) :
    matchItems (.star cls :: items) input = matchGreedy cls (matchItems items) [] input := by
  rw [matchItems]

/-- A repetition that meets a run of characters of its class, followed by input
that is empty or begins outside the class, takes the whole run when the rest of the
expression matches what follows. -/
theorem matchGreedy_run (cls : Char → Bool) (k : List Char → Option (List String))
    (caps : List String) (rest : List Char)
    (hrest : ∀ x xs, rest = x :: xs → cls x = false) (hk : k rest = some caps) :
    ∀ (run acc : List Char), (∀ c ∈ run, cls c = true) →
      matchGreedy cls k acc (run ++ rest) = some (String.mk (acc.reverse ++ run) :: caps) := by
  intro run
  induction run with
  | nil =>
    intro acc _
    cases rest with
    | nil => simp [matchGreedy, hk]
    | cons x xs => simp [matchGreedy, hrest x xs rfl, hk]
  | cons c cs ih =>
    intro acc h
    have hc : cls c = true := h c (List.mem_cons_self _ _)
    have hcs : ∀ c1 ∈ cs, cls c1 = true := fun c1 h1 => h c1 (List.mem_cons_of_mem _ h1)
    rw [List.cons_append, matchGreedy_cons, if_pos hc, ih (c :: acc) hcs]
    simp

/-- The loop of `Atoi` on a string of digits returns the number it denotes. -/
theorem parseDigits_digits (cs : List Char) :
    ∀ acc : Nat, (∀ c ∈ cs, c.isDigit = true) →
      parseDigits cs acc = some (acc * 10 ^ cs.length + decimalValue cs) := by
  induction cs with
  | nil => intro acc _; simp [parseDigits, decimalValue]
  | cons c rest ih =>
    intro acc h
    have hc : c.isDigit = true := h c (List.mem_cons_self _ _)
    simp only [parseDigits, hc, if_true, decimalValue, List.length_cons]
    rw [ih _ (fun c1 h1 => h c1 (List.mem_cons_of_mem _ h1))]
    congr 1
    ring

/-- Function `Atoi` on a non-empty string of digits whose number is in the range of
`int`. -/
theorem Atoi_digits (cs : List Char) (hne : cs ≠ []) (hd : ∀ c ∈ cs, c.isDigit = true)
    (hrange : (decimalValue cs : Int) ≤ maxInt) :
    Atoi (String.mk cs) = some (decimalValue cs : Int) := by
  obtain ⟨c, rest, rfl⟩ := List.exists_cons_of_ne_nil hne
  have hc : c.isDigit = true := hd c (List.mem_cons_self _ _)
  have hplus : c ≠ '+' := by
    intro e
    rw [e] at hc
    exact absurd hc (by decide)
  have hminus : c ≠ '-' := by
    intro e
    rw [e] at hc
    exact absurd hc (by decide)
  have hsplit : (match (c :: rest : List Char) with
      | '+' :: r => ((false, r) : Bool × List Char)
      | '-' :: r => (true, r)
      | cs1 => (false, cs1)) = (false, c :: rest) := by
    split
    · rename_i h; exact absurd (List.cons.inj h).1 hplus
    · rename_i h; exact absurd (List.cons.inj h).1 hminus
    · rfl
  have hpd := parseDigits_digits (c :: rest) 0 hd
  simp only [Nat.zero_mul, Nat.zero_add] at hpd
  have hmin : minInt ≤ (decimalValue (c :: rest) : Int) := by
    have : (0 : Int) ≤ (decimalValue (c :: rest) : Int) := Int.ofNat_nonneg _
    have hm : minInt ≤ 0 := by decide
    omega
  simp only [Atoi, hsplit, List.isEmpty_cons, hpd]
  simp [hmin, hrange]

/-- The regular expression of `Parse` on a well-formed DSN captures its five
components. -/
theorem matchItems_dsnRegex (u p h n d suffix : List Char)
    (hu : u ≠ []) (huc : ':' ∉ u) (hp : '@' ∉ p) (hh : h ≠ []) (hhc : ':' ∉ h)
    (hn : n ≠ []) (hnd : ∀ c ∈ n, c.isDigit = true) (hd : d ≠ []) (hdc : '?' ∉ d)
    (hs : ∀ x xs, suffix = x :: xs → x = '?') :
    matchItems dsnRegex
        (u ++ ':' :: (p ++ '@' :: 't' :: 'c' :: 'p' :: '(' ::
          (h ++ ':' :: (n ++ ')' :: '/' :: (d ++ suffix))))) =
      some [String.mk u, String.mk p, String.mk h, String.mk n, String.mk d] := by
  obtain ⟨u0, us, rfl⟩ := List.exists_cons_of_ne_nil hu
  obtain ⟨h0, hs0, rfl⟩ := List.exists_cons_of_ne_nil hh
  obtain ⟨n0, ns, rfl⟩ := List.exists_cons_of_ne_nil hn
  obtain ⟨d0, ds, rfl⟩ := List.exists_cons_of_ne_nil hd
  have notIn : ∀ (x : Char) (l : List Char), x ∉ l → ∀ c ∈ l, (c != x) = true := by
    intro x l hx c hc
    simp only [bne_iff_ne, ne_eq]
    intro e
    exact hx (e ▸ hc)
  -- the last group, `([^?]+)`, at the end of the expression
  have h5 : matchItems [.plus (fun c => c != '?')] (d0 :: ds ++ suffix) =
      some [String.mk (d0 :: ds)] := by
    have hd0 := notIn '?' (d0 :: ds) hdc d0 (List.mem_cons_self _ _)
    rw [List.cons_append, matchItems_plus (fun c => c != '?') _ d0 _ hd0]
    exact matchGreedy_run (fun c => c != '?') (matchItems []) [] suffix
      (fun x xs hx => by simp [hs x xs hx]) (by cases suffix <;> rfl) ds [d0]
      (fun c hc => notIn '?' (d0 :: ds) hdc c (List.mem_cons_of_mem _ hc))
  -- the port, `(\d+)\)/`
  have h4 : matchItems [.plus (fun c => c.isDigit), .lit ')', .lit '/',
      .plus (fun c => c != '?')] (n0 :: ns ++ ')' :: '/' :: (d0 :: ds ++ suffix)) =
      some [String.mk (n0 :: ns), String.mk (d0 :: ds)] := by
    have hn0 := hnd n0 (List.mem_cons_self _ _)
    rw [List.cons_append, matchItems_plus (fun c => c.isDigit) _ n0 _ hn0]
    exact matchGreedy_run (fun c => c.isDigit) _ [String.mk (d0 :: ds)]
      (')' :: '/' :: (d0 :: ds ++ suffix))
      (fun x xs hx => by rw [← (List.cons.inj hx).1]; decide)
      (by rw [matchItems_lit, matchItems_lit]; exact h5) ns [n0]
      (fun c hc => hnd c (List.mem_cons_of_mem _ hc))
  -- the host, `([^:]+):`
  have h3 : matchItems [.plus (fun c => c != ':'), .lit ':', .plus (fun c => c.isDigit),
      .lit ')', .lit '/', .plus (fun c => c != '?')]
      (h0 :: hs0 ++ ':' :: (n0 :: ns ++ ')' :: '/' :: (d0 :: ds ++ suffix))) =
      some [String.mk (h0 :: hs0), String.mk (n0 :: ns), String.mk (d0 :: ds)] := by
    have hh0 := notIn ':' (h0 :: hs0) hhc h0 (List.mem_cons_self _ _)
    rw [List.cons_append, matchItems_plus (fun c => c != ':') _ h0 _ hh0]
    exact matchGreedy_run (fun c => c != ':') _ [String.mk (n0 :: ns), String.mk (d0 :: ds)]
      (':' :: (n0 :: ns ++ ')' :: '/' :: (d0 :: ds ++ suffix)))
      (fun x xs hx => by rw [← (List.cons.inj hx).1]; decide)
      (by rw [matchItems_lit]; exact h4) hs0 [h0]
      (fun c hc => notIn ':' (h0 :: hs0) hhc c (List.mem_cons_of_mem _ hc))
  -- the password, `([^@]*)@tcp\(`
  have h2 : matchItems [.star (fun c => c != '@'), .lit '@', .lit 't', .lit 'c', .lit 'p',
      .lit '(', .plus (fun c => c != ':'), .lit ':', .plus (fun c => c.isDigit),
      .lit ')', .lit '/', .plus (fun c => c != '?')]
      (p ++ '@' :: 't' :: 'c' :: 'p' :: '(' ::
        (h0 :: hs0 ++ ':' :: (n0 :: ns ++ ')' :: '/' :: (d0 :: ds ++ suffix)))) =
      some [String.mk p, String.mk (h0 :: hs0), String.mk (n0 :: ns), String.mk (d0 :: ds)] := by
    rw [matchItems_star]
    exact matchGreedy_run (fun c => c != '@') _
      [String.mk (h0 :: hs0), String.mk (n0 :: ns), String.mk (d0 :: ds)]
      ('@' :: 't' :: 'c' :: 'p' :: '(' ::
        (h0 :: hs0 ++ ':' :: (n0 :: ns ++ ')' :: '/' :: (d0 :: ds ++ suffix))))
      (fun x xs hx => by rw [← (List.cons.inj hx).1]; decide)
      (by rw [matchItems_lit, matchItems_lit, matchItems_lit, matchItems_lit, matchItems_lit]
          exact h3) p [] (notIn '@' p hp)
  -- the user, `^([^:]+):`
  have hu0 := notIn ':' (u0 :: us) huc u0 (List.mem_cons_self _ _)
  rw [dsnRegex, List.cons_append, matchItems_plus (fun c => c != ':') _ u0 _ hu0]
  exact matchGreedy_run (fun c => c != ':') _
    [String.mk p, String.mk (h0 :: hs0), String.mk (n0 :: ns), String.mk (d0 :: ds)]
    (':' :: (p ++ '@' :: 't' :: 'c' :: 'p' :: '(' ::
      (h0 :: hs0 ++ ':' :: (n0 :: ns ++ ')' :: '/' :: (d0 :: ds ++ suffix)))))
    (fun x xs hx => by rw [← (List.cons.inj hx).1]; decide)
    (by rw [matchItems_lit]; exact h2) us [u0]
    (fun c hc => notIn ':' (u0 :: us) huc c (List.mem_cons_of_mem _ hc))

/-- The pool settings are those of the configuration that the `else` branch of
`Parse` starts from. -/
theorem parseSimplified_pool (config : MysqlConfig) (dsn : List Char) :
    (parseSimplified config dsn).MaxOpen = config.MaxOpen ∧
    (parseSimplified config dsn).MaxIdle = config.MaxIdle ∧
    (parseSimplified config dsn).MaxLife = config.MaxLife := by
  have h1 : ∀ c : MysqlConfig, (parseUserPass c dsn).MaxOpen = c.MaxOpen ∧
      (parseUserPass c dsn).MaxIdle = c.MaxIdle ∧ (parseUserPass c dsn).MaxLife = c.MaxLife := by
    intro c
    unfold parseUserPass
    (repeat' split) <;> exact ⟨rfl, rfl, rfl⟩
  have h2 : ∀ c : MysqlConfig, (parseHostPort c dsn).MaxOpen = c.MaxOpen ∧
      (parseHostPort c dsn).MaxIdle = c.MaxIdle ∧ (parseHostPort c dsn).MaxLife = c.MaxLife := by
    intro c
    unfold parseHostPort
    (repeat' split) <;> exact ⟨rfl, rfl, rfl⟩
  have h3 : ∀ c : MysqlConfig, (parseDatabase c dsn).MaxOpen = c.MaxOpen ∧
      (parseDatabase c dsn).MaxIdle = c.MaxIdle ∧ (parseDatabase c dsn).MaxLife = c.MaxLife := by
    intro c
    unfold parseDatabase
    (repeat' split) <;> exact ⟨rfl, rfl, rfl⟩
  unfold parseSimplified
  refine ⟨?_, ?_, ?_⟩
  · rw [(h3 _).1, (h2 _).1, (h1 _).1]
  · rw [(h3 _).2.1, (h2 _).2.1, (h1 _).2.1]
  · rw [(h3 _).2.2, (h2 _).2.2, (h1 _).2.2]

/-- The characters of a DSN written by `formatDSN`. -/
theorem formatDSN_data (user password host port database : String) (params : Option String) :
    (formatDSN user password host port database params).data =
      user.data ++ ':' :: (password.data ++ '@' :: 't' :: 'c' :: 'p' :: '(' ::
        (host.data ++ ':' :: (port.data ++ ')' :: '/' ::
          (database.data ++ (dsnParams params).data)))) := by
  have e1 : ":".data = [':'] := rfl
  have e2 : "@tcp(".data = ['@', 't', 'c', 'p', '('] := rfl
  have e3 : ")/".data = [')', '/'] := rfl
  simp only [formatDSN, String.data_append, e1, e2, e3, List.append_assoc, List.cons_append,
    List.nil_append]

/-- Claim C22: for every DSN user:password@tcp(host:port)/database, optionally
followed by ?params, with a non-empty user without a colon, a password without an
at sign, a non-empty host without a colon, a port that is a non-empty string of
decimal digits denoting a number within the range of int, and a non-empty database
without a question mark, Parse returns exactly that user, password, host, port
number and database; for the empty DSN it returns root, the empty password,
localhost, 3306 and asynctask; and for every DSN the pool settings are MaxOpen 100,
MaxIdle 10 and MaxLife one hour. -/
theorem Parse_extracts_components (user password host port database : String)
    (params : Option String)
    (hu : user ≠ "") (huc : ':' ∉ user.data) (hp : '@' ∉ password.data)
    (hh : host ≠ "") (hhc : ':' ∉ host.data)
    (hn : port ≠ "") (hnd : ∀ c ∈ port.data, c.isDigit = true)
    (hrange : (decimalValue port.data : Int) ≤ maxInt)
    (hd : database ≠ "") (hdc : '?' ∉ database.data) :
    MysqlDSN.Parse (formatDSN user password host port database params) =
      { Host := host, Port := (decimalValue port.data : Int), User := user,
        Password := password, Database := database,
        MaxOpen := 100, MaxIdle := 10, MaxLife := 3600 * Second } ∧
    MysqlDSN.Parse "" =
      { Host := "localhost", Port := 3306, User := "root", Password := "",
        Database := "asynctask", MaxOpen := 100, MaxIdle := 10, MaxLife := 3600 * Second } ∧
    ∀ dsn : String, (MysqlDSN.Parse dsn).MaxOpen = 100 ∧ (MysqlDSN.Parse dsn).MaxIdle = 10 ∧
      (MysqlDSN.Parse dsn).MaxLife = 3600 * Second := by
  have nonempty : ∀ s : String, s ≠ "" → s.data ≠ [] := fun s hs hdata => hs (String.ext hdata)
  refine ⟨?_, rfl, ?_⟩
  · have hsuffix : ∀ x xs, (dsnParams params).data = x :: xs → x = '?' := by
      intro x xs hx
      cases params with
      | none => exact absurd hx (by simp [dsnParams])
      | some ps =>
        have e : ("?" ++ ps).data = '?' :: ps.data := by
          rw [String.data_append]; rfl
        rw [dsnParams, e] at hx
        exact (List.cons.inj hx).1.symm
    have hmatch := matchItems_dsnRegex user.data password.data host.data port.data
      database.data (dsnParams params).data (nonempty user hu) huc hp (nonempty host hh) hhc
      (nonempty port hn) hnd (nonempty database hd) hdc hsuffix
    rw [← formatDSN_data] at hmatch
    have hne : (formatDSN user password host port database params == "") = false := by
      rw [beq_eq_false_iff_ne]
      intro e
      have hdata := formatDSN_data user password host port database params
      rw [e] at hdata
      obtain ⟨u0, us, hus⟩ := List.exists_cons_of_ne_nil (nonempty user hu)
      rw [hus] at hdata
      exact absurd hdata (by simp)
    have hport := Atoi_digits port.data (nonempty port hn) hnd hrange
    simp only [MysqlDSN.Parse, hne, hmatch, hport, Option.getD_some, defaultMysqlConfig]
    rfl
  · intro dsn
    simp only [MysqlDSN.Parse]
    split
    · exact ⟨rfl, rfl, rfl⟩
    · split
      · exact ⟨rfl, rfl, rfl⟩
      · exact parseSimplified_pool defaultMysqlConfig dsn.data

/-- Claim C22 on the first case of `TestMysqlDSN_Parse`. -/
theorem Parse_extracts_components_witness :
    MysqlDSN.Parse
        "root:password@tcp(localhost:3306)/asynctask?charset=utf8mb4&parseTime=True&loc=Local" =
      { Host := "localhost", Port := 3306, User := "root", Password := "password",
        Database := "asynctask", MaxOpen := 100, MaxIdle := 10, MaxLife := 3600 * Second } :=
  (Parse_extracts_components "root" "password" "localhost" "3306" "asynctask"
    (some "charset=utf8mb4&parseTime=True&loc=Local")
    (by decide) (by decide) (by decide) (by decide) (by decide) (by decide) (by decide)
    (by decide) (by decide) (by decide)).1


/-! ## Theorems about an assignment by the scheduler -/

/-- A successful `RPOP` takes the last element of the list. -/
theorem rpop_ok (l l1 : List String) (x : String) (storeErr : Bool)
    (h : rpop l storeErr = (l1, x, none)) : l = l1 ++ [x] := by
  unfold rpop at h
  cases storeErr with
  | true =>
    simp only [if_true, Prod.mk.injEq] at h
    exact absurd h.2.2 (by simp)
  | false =>
    simp only [Bool.false_eq_true, if_false] at h
    cases hl : l.getLast? with
    | none =>
      rw [hl] at h
      simp only [Prod.mk.injEq] at h
      exact absurd h.2.2 (by simp)
    | some y =>
      rw [hl] at h
      simp only [Prod.mk.injEq] at h
      rw [← h.1, ← h.2.1]
      exact (List.dropLast_append_getLast? y (by rw [hl]; rfl)).symm

/-- A successful `PopTask` removes one entry from one of the two global queues and
returns it; the other keys are untouched. -/
theorem PopTask_ok (q q1 : Queues) (taskID : String) (errHigh errNormal : Bool)
    (h : q.PopTask errHigh errNormal = (q1, taskID, none)) :
    (q.high = q1.high ++ [taskID] ∧ q.normal = q1.normal ∨
      q.high = q1.high ∧ q.normal = q1.normal ++ [taskID]) ∧
    q1.worker = q.worker ∧ q1.cancel = q.cancel := by
  unfold Queues.PopTask at h
  generalize hh : rpop q.high errHigh = rh at h
  obtain ⟨l, x, e⟩ := rh
  cases e with
  | none =>
    simp only [Prod.mk.injEq] at h
    obtain ⟨hq, hx, _⟩ := h
    subst hq
    subst hx
    exact ⟨Or.inl ⟨rpop_ok _ _ _ _ hh, rfl⟩, rfl, rfl⟩
  | some e1 =>
    simp only at h
    generalize hn : rpop q.normal errNormal = rn at h
    obtain ⟨l2, x2, e2⟩ := rn
    simp only [Prod.mk.injEq] at h
    obtain ⟨hq, hx, he⟩ := h
    subst hq
    subst hx
    subst he
    exact ⟨Or.inr ⟨rfl, rpop_ok _ _ _ _ hn⟩, rfl, rfl⟩

/-- A successful `PopTask` leaves the id once less in the global queues. -/
theorem PopTask_count (q q1 : Queues) (taskID : String) (errHigh errNormal : Bool)
    (h : q.PopTask errHigh errNormal = (q1, taskID, none)) :
    (q.high ++ q.normal).count taskID = (q1.high ++ q1.normal).count taskID + 1 := by
  rcases (PopTask_ok q q1 taskID errHigh errNormal h).1 with ⟨h1, h2⟩ | ⟨h1, h2⟩
  · rw [h1, h2]
    simp only [List.count_append, List.count_singleton, beq_self_eq_true, if_true]
    omega
  · rw [h1, h2]
    simp only [List.count_append, List.count_singleton, beq_self_eq_true, if_true]
    omega

/-- Map assignment keeps a property of all entries that the new entry has. -/
theorem StrMap.all_set {α : Type} (p : String × α → Bool) (m : StrMap α) (k : String) (v : α)
    (hm : List.all m p = true) (hv : p (k, v) = true) :
    List.all (StrMap.set m k v) p = true := by
  induction m with
  | nil => simp [StrMap.set, hv]
  | cons e rest ih =>
    obtain ⟨k1, v1⟩ := e
    simp only [List.all_cons, Bool.and_eq_true] at hm
    unfold StrMap.set
    split
    · simp only [List.all_cons, Bool.and_eq_true]
      exact ⟨hv, hm.2⟩
    · simp only [List.all_cons, Bool.and_eq_true]
      exact ⟨hm.1, ih hm.2⟩

/-- A value found in a map is the value of an entry with that key. -/
theorem StrMap.get_mem {α : Type} (m : StrMap α) (k : String) (v : α)
    (h : StrMap.get m k = some v) : (k, v) ∈ m := by
  induction m with
  | nil => simp [StrMap.get] at h
  | cons e rest ih =>
    obtain ⟨k1, v1⟩ := e
    unfold StrMap.get at h
    split at h
    · rename_i hk
      have hk1 : k1 = k := by simpa using hk
      have hv : v1 = v := by simpa using h
      rw [hk1, hv]
      exact List.mem_cons_self _ _
    · exact List.mem_cons_of_mem _ (ih h)

/-- In a registry that is `ownKeyed`, the record found under a key, if ONLINE, has
that key as its worker id. -/
theorem Registry.ownKeyed_get (r : Registry) (k : String) (w : Worker)
    (hr : r.ownKeyed = true) (h : StrMap.get r.records k = some w)
    (hon : w.Status = WorkerOnline) : w.WorkerID = k := by
  unfold Registry.ownKeyed at hr
  have hmem := StrMap.get_mem _ _ _ h
  have := List.all_eq_true.mp hr (k, w) hmem
  simp only [hon, bne_self_eq_false, Bool.false_or, beq_iff_eq] at this
  exact this

/-- Method `Register` keeps the registry `ownKeyed`. -/
theorem Registry.ownKeyed_Register (r : Registry) (w : Worker) (hr : r.ownKeyed = true) :
    (r.Register w).ownKeyed = true := by
  unfold Registry.ownKeyed at hr ⊢
  unfold Registry.Register
  exact StrMap.all_set _ _ _ _ hr (by simp [storedWorker])

/-- Method `UpdateLoad` keeps the registry `ownKeyed`. -/
theorem Registry.ownKeyed_UpdateLoad (r : Registry) (workerID : String) (load : Int)
    (storeErr : Bool) (hr : r.ownKeyed = true) :
    (r.UpdateLoad workerID load storeErr).1.ownKeyed = true := by
  unfold Registry.UpdateLoad
  split
  · exact hr
  · split
    · unfold Registry.ownKeyed at hr ⊢
      exact StrMap.all_set _ _ _ _ hr (by
        have h : ((("" : String) : WorkerStatus) != WorkerOnline) = true := by decide
        simp [h])
    · rename_i w hw
      unfold Registry.ownKeyed at hr ⊢
      refine StrMap.all_set _ _ _ _ hr ?_
      have := List.all_eq_true.mp hr (workerID, w) (StrMap.get_mem _ _ _ hw)
      exact this

/-- Method `UpdateHeartbeat` keeps the registry `ownKeyed`. -/
theorem Registry.ownKeyed_UpdateHeartbeat (r : Registry) (workerID : String) (now : Time)
    (storeErr : Bool) (hr : r.ownKeyed = true) :
    (r.UpdateHeartbeat workerID now storeErr).1.ownKeyed = true := by
  unfold Registry.UpdateHeartbeat
  split
  · exact hr
  · split
    · unfold Registry.ownKeyed at hr ⊢
      exact StrMap.all_set _ _ _ _ hr (by
        have h : ((("" : String) : WorkerStatus) != WorkerOnline) = true := by decide
        simp [h])
    · rename_i w hw
      unfold Registry.ownKeyed at hr ⊢
      refine StrMap.all_set _ _ _ _ hr ?_
      have := List.all_eq_true.mp hr (workerID, w) (StrMap.get_mem _ _ _ hw)
      exact this

/-- A worker that `FindByTaskType` returns is a record of the registry. -/
theorem FindByTaskType_mem (r : Registry) (taskType : String) (w : Worker)
    (h : w ∈ (r.FindByTaskType taskType false).1) :
    ∃ k, StrMap.get r.records k = some w := by
  unfold Registry.FindByTaskType at h
  simp only [Bool.false_eq_true, if_false, List.mem_filterMap] at h
  obtain ⟨k, _, hk⟩ := h
  refine ⟨k, ?_⟩
  unfold Registry.GetByID at hk
  simp only [Bool.false_eq_true, if_false] at hk
  split at hk
  · simp at hk
  · rename_i w1 hw1
    simp only [Option.some.injEq] at hk
    rw [hw1, hk]

/-- The success path of `scanAndSchedule` in closed form: the popped id is that of
a PENDING task, a worker is healthy and accept-capable, the load balancer returns
`worker`, and every store call succeeds. -/
theorem scanAndSchedule_success_eq {σ : Type} (lb : LoadBalancer σ)
    (heartbeatTimeout : Duration) (st : Store) (lbState lbState1 : σ) (now : Time)
    (q1 : Queues) (taskID : String) (task : Task) (worker : Worker)
    (hpop : st.queues.PopTask false false = (q1, taskID, none))
    (ht : st.task taskID = some task) (hpend : task.Status = StatusPending)
    (hsel : lb.Select lbState ((st.registry.FindByTaskType task.TaskType false).1.filter
      (fun w => w.IsHealthy heartbeatTimeout now && w.CanAcceptTask)) taskID =
        (lbState1, .ok worker))
    (hmem : worker ∈ (st.registry.FindByTaskType task.TaskType false).1.filter
      (fun w => w.IsHealthy heartbeatTimeout now && w.CanAcceptTask)) :
    SchedulerService.scanAndSchedule lb heartbeatTimeout st lbState now {} =
      ({ st with
          tasks := (MysqlTaskRepo.Update st.tasks (task.MarkAsProcessing worker.WorkerID now)
            now false false).1
          queues := (q1.PushToWorkerQueue worker.WorkerID taskID false).1
          registry := (st.registry.UpdateLoad worker.WorkerID (goIncr worker.CurrentLoad) false).1
          logs := (TaskLogRepo.Create st.logs (NewStateChangeLog taskID StatusPending
            StatusProcessing worker.WorkerID "Task assigned to worker" now) false).1 },
        lbState1, none) := by
  have hne : (task.Status != StatusPending) = false := by
    rw [hpend]
    decide
  have hfind : st.registry.FindByTaskType task.TaskType false =
      ((st.registry.FindByTaskType task.TaskType false).1, none) := by
    simp [Registry.FindByTaskType]
  have hlen : (((st.registry.FindByTaskType task.TaskType false).1.filter
      (fun w => w.IsHealthy heartbeatTimeout now && w.CanAcceptTask)).length == 0) = false := by
    cases hl : (st.registry.FindByTaskType task.TaskType false).1.filter
        (fun w => w.IsHealthy heartbeatTimeout now && w.CanAcceptTask) with
    | nil => rw [hl] at hmem; exact absurd hmem (List.not_mem_nil _)
    | cons a l => rfl
  unfold SchedulerService.scanAndSchedule
  simp only []
  rw [hpop]
  simp only []
  rw [GetByID_of_task st taskID task ht]
  simp only [hne, Bool.false_eq_true, if_false]
  rw [hfind]
  simp only [hlen, Bool.false_eq_true, if_false]
  rw [hsel]
  simp [MysqlTaskRepo.Update, Queues.PushToWorkerQueue, Worker.AcceptTask]

/-- Claim C23, as the code has it: when `scanAndSchedule` pops the id of a PENDING
task, the load balancer returns `worker` out of the healthy and accept-capable
workers of the task type, and every store call succeeds (the registry being
`ownKeyed` and the capacity of the worker a value of `int`), the call returns nil
and afterwards the persisted task is PROCESSING
with the worker id of `worker` and `started_at = now`; the id is the newest entry
of the queue of that worker; the global queues are as the pop left them, holding
the id once less than before, so the id is in neither of them if it was queued
once; the registered load of the worker is one more than before and at most its
capacity; and one STATE_CHANGE log PENDING to PROCESSING that names the worker is
appended. -/
theorem scanAndSchedule_assigns {σ : Type} (lb : LoadBalancer σ)
    (heartbeatTimeout : Duration) (st : Store) (lbState lbState1 : σ) (now : Time)
    (q1 : Queues) (taskID : String) (task : Task) (worker : Worker)
    (hkeys : st.registry.ownKeyed = true) (hint : worker.Capacity ≤ maxInt)
    (hpop : st.queues.PopTask false false = (q1, taskID, none))
    (ht : st.task taskID = some task) (hpend : task.Status = StatusPending)
    (hsel : lb.Select lbState ((st.registry.FindByTaskType task.TaskType false).1.filter
      (fun w => w.IsHealthy heartbeatTimeout now && w.CanAcceptTask)) taskID =
        (lbState1, .ok worker))
    (hmem : worker ∈ (st.registry.FindByTaskType task.TaskType false).1.filter
      (fun w => w.IsHealthy heartbeatTimeout now && w.CanAcceptTask)) :
    (SchedulerService.scanAndSchedule lb heartbeatTimeout st lbState now {}).2.2 = none ∧
    (SchedulerService.scanAndSchedule lb heartbeatTimeout st lbState now {}).2.1 = lbState1 ∧
    (∃ t, (SchedulerService.scanAndSchedule lb heartbeatTimeout st lbState now {}).1.task taskID =
        some t ∧
      t.Status = StatusProcessing ∧ t.WorkerID = worker.WorkerID ∧ t.StartedAt = some now ∧
      t.RetryCount = task.RetryCount) ∧
    (SchedulerService.scanAndSchedule lb heartbeatTimeout st lbState now {}).1.queues.workerQueue
        worker.WorkerID = taskID :: st.queues.workerQueue worker.WorkerID ∧
    ((SchedulerService.scanAndSchedule lb heartbeatTimeout st lbState now {}).1.queues.high =
        q1.high ∧
      (SchedulerService.scanAndSchedule lb heartbeatTimeout st lbState now {}).1.queues.normal =
        q1.normal ∧
      (st.queues.high ++ st.queues.normal).count taskID =
        (q1.high ++ q1.normal).count taskID + 1 ∧
      ((st.queues.high ++ st.queues.normal).count taskID = 1 →
        taskID ∉ q1.high ∧ taskID ∉ q1.normal)) ∧
    (StrMap.get st.registry.records worker.WorkerID = some worker ∧
      StrMap.get (SchedulerService.scanAndSchedule lb heartbeatTimeout st lbState now
          {}).1.registry.records worker.WorkerID =
        some { worker with CurrentLoad := worker.CurrentLoad + 1 } ∧
      worker.CurrentLoad + 1 ≤ worker.Capacity) ∧
    (SchedulerService.scanAndSchedule lb heartbeatTimeout st lbState now {}).1.logs =
      st.logs ++ [{ NewStateChangeLog taskID StatusPending StatusProcessing worker.WorkerID
        "Task assigned to worker" now with ID := (st.logs.length : Int) + 1 }] := by
  rw [scanAndSchedule_success_eq lb heartbeatTimeout st lbState lbState1 now q1 taskID task worker
    hpop ht hpend hsel hmem]
  have hid : task.TaskID = taskID := Store.task_id st taskID task ht
  obtain ⟨_, hqw, _⟩ := PopTask_ok st.queues q1 taskID false false hpop
  have hacc : worker.CanAcceptTask = true := by
    have := (List.mem_filter.mp hmem).2
    simp only [Bool.and_eq_true] at this
    exact this.2
  obtain ⟨hon, hload⟩ := (CanAcceptTask_unfold worker).mp hacc
  have hrec : StrMap.get st.registry.records worker.WorkerID = some worker := by
    obtain ⟨k, hk⟩ := FindByTaskType_mem st.registry task.TaskType worker
      (List.mem_filter.mp hmem).1
    rw [Registry.ownKeyed_get st.registry k worker hkeys hk hon]
    exact hk
  have hcount := PopTask_count st.queues q1 taskID false false hpop
  refine ⟨rfl, rfl, ?_, ?_, ⟨rfl, rfl, hcount, ?_⟩, ⟨hrec, ?_, by omega⟩, ?_⟩
  · refine ⟨MysqlTaskRepo.updateRow task (task.MarkAsProcessing worker.WorkerID now) now,
      ?_, rfl, rfl, rfl, rfl⟩
    have hold : st.tasks.find? (fun row => row.TaskID ==
        (task.MarkAsProcessing worker.WorkerID now).TaskID) = some task := by
      have : (task.MarkAsProcessing worker.WorkerID now).TaskID = taskID := hid
      rw [this]
      exact ht
    have := Update_same_id st.tasks (task.MarkAsProcessing worker.WorkerID now) task now hold
    have hid2 : (task.MarkAsProcessing worker.WorkerID now).TaskID = taskID := hid
    rw [hid2] at this
    exact this
  · simp only [Queues.PushToWorkerQueue, Bool.false_eq_true, if_false, Queues.workerQueue,
      StrMap.get_set_self, Option.getD_some, hqw]
  · intro h1
    rw [h1] at hcount
    have h0 : (q1.high ++ q1.normal).count taskID = 0 := by omega
    have hnot := List.count_eq_zero.mp h0
    exact ⟨fun h => hnot (List.mem_append_left _ h), fun h => hnot (List.mem_append_right _ h)⟩
  · rw [goIncr_of_lt worker.CurrentLoad (by omega)]
    simp only [Registry.UpdateLoad, Bool.false_eq_true, if_false, hrec, StrMap.get_set_self]
  · simp only [TaskLogRepo.Create, Bool.false_eq_true, if_false]

/-- Claim C23 on the run: `scanAndSchedule` on `runStore1` assigns `t1` to `w1`. -/
theorem scanAndSchedule_assigns_witness :
    (runStore2.task "t1").map (fun t => (t.Status, t.WorkerID, t.StartedAt)) =
        some (StatusProcessing, "w1", some (2 * Second)) ∧
      runStore2.queues.workerQueue "w1" = ["t1"] ∧
      runStore2.queues.high = [] ∧ runStore2.queues.normal = [] ∧
      (StrMap.get runStore2.registry.records "w1").map (fun w => w.CurrentLoad) = some 1 := by
  have h := scanAndSchedule_assigns leastTaskBalancer (30 * Second) runStore1 () () (2 * Second)
    { worker := runStore1.queues.worker } "t1" runTask1 runWorkerRecord
    (by decide) (by decide) (by decide) (by decide) (by decide) (by rfl) (by decide)
  obtain ⟨_, _, ⟨t, ht, h1, h2, h3, _⟩, hw, ⟨hh, hn, _, _⟩, ⟨_, hr, _⟩, _⟩ := h
  have e : runStore2 = (SchedulerService.scanAndSchedule leastTaskBalancer (30 * Second)
      runStore1 () (2 * Second) {}).1 := rfl
  rw [e]
  refine ⟨?_, ?_, hh, hn, ?_⟩
  · rw [ht]
    simp only [Option.map_some', h1, h3]
    rw [h2]
    rfl
  · rw [show ("w1" : String) = runWorkerRecord.WorkerID from rfl, hw]
    decide
  · rw [show ("w1" : String) = runWorkerRecord.WorkerID from rfl, hr]
    rfl

/-- Claim C23, the part that fails: in `twiceQueuedStore` the task `t1` is PENDING
and `queue:normal` holds its id twice (the run that led there is that of
`runStore0` to `runStore5`); `scanAndSchedule` assigns the task to `w1`, every store
call succeeding, and the id is still in the global queue afterwards. -/
theorem assigned_task_still_in_global_queue :
    (twiceQueuedStore.task "t1").map (fun t => t.Status) = some StatusPending ∧
      twiceQueuedStore.queues.normal = ["t1", "t1"] ∧
      twiceQueuedScan.2.2 = none ∧
      (twiceQueuedScan.1.task "t1").map (fun t => (t.Status, t.WorkerID)) =
        some (StatusProcessing, "w1") ∧
      twiceQueuedScan.1.queues.workerQueue "w1" = ["t1"] ∧
      twiceQueuedScan.1.queues.normal = ["t1"] ∧
      "t1" ∈ twiceQueuedScan.1.queues.normal := by
  decide


/-- Claim C24: if the task popped by scanAndSchedule has a status other than
PENDING, the call returns nil, leaving the load balancer as it was, and the store
at return is the store after the pop: the id is not pushed back (the global queues
hold it once less than before), no worker queue and no cancel mark changes, and the
persisted tasks, the worker registry with its loads and the task logs are
unchanged.  This holds whichever of the later store calls would fail. -/
theorem scanAndSchedule_drops_non_pending {σ : Type} (lb : LoadBalancer σ)
    (heartbeatTimeout : Duration) (st : Store) (lbState : σ) (now : Time) (f : Faults)
    (q1 : Queues) (taskID : String) (task : Task)
    (hpop : st.queues.PopTask f.popHigh f.popNormal = (q1, taskID, none))
    (hget : MysqlTaskRepo.GetByID st.tasks taskID f.getByID = (some task, none))
    (hstatus : task.Status ≠ StatusPending) :
    SchedulerService.scanAndSchedule lb heartbeatTimeout st lbState now f =
        ({ st with queues := q1 }, lbState, none) ∧
      (SchedulerService.scanAndSchedule lb heartbeatTimeout st lbState now f).1.tasks =
        st.tasks ∧
      (SchedulerService.scanAndSchedule lb heartbeatTimeout st lbState now f).1.registry =
        st.registry ∧
      (SchedulerService.scanAndSchedule lb heartbeatTimeout st lbState now f).1.logs = st.logs ∧
      (SchedulerService.scanAndSchedule lb heartbeatTimeout st lbState now f).1.queues.worker =
        st.queues.worker ∧
      (SchedulerService.scanAndSchedule lb heartbeatTimeout st lbState now f).1.queues.cancel =
        st.queues.cancel ∧
      (st.queues.high ++ st.queues.normal).count taskID =
        ((SchedulerService.scanAndSchedule lb heartbeatTimeout st lbState now f).1.queues.high ++
          (SchedulerService.scanAndSchedule lb heartbeatTimeout st lbState now
            f).1.queues.normal).count taskID + 1 := by
  have hne : (task.Status != StatusPending) = true := by
    simp only [bne_iff_ne, ne_eq]
    exact hstatus
  have heq : SchedulerService.scanAndSchedule lb heartbeatTimeout st lbState now f =
      ({ st with queues := q1 }, lbState, none) := by
    unfold SchedulerService.scanAndSchedule
    simp only []
    rw [hpop]
    simp only []
    rw [hget]
    simp only [hne, if_true]
  obtain ⟨_, hw, hc⟩ := PopTask_ok st.queues q1 taskID f.popHigh f.popNormal hpop
  rw [heq]
  exact ⟨rfl, rfl, rfl, rfl, hw, hc, PopTask_count st.queues q1 taskID f.popHigh f.popNormal hpop⟩

/-- Claim C24 on a task cancelled while it was queued: `scanAndSchedule` drops it. -/
theorem scanAndSchedule_drops_non_pending_witness :
    cancelledTask1.Status = StatusCancelled ∧
      cancelledQueuedStore.queues.normal = ["t1"] ∧
      SchedulerService.scanAndSchedule leastTaskBalancer (30 * Second) cancelledQueuedStore ()
          (3 * Second) {} =
        ({ cancelledQueuedStore with queues := {} }, (), none) :=
  ⟨by decide, by decide,
    (scanAndSchedule_drops_non_pending leastTaskBalancer (30 * Second) cancelledQueuedStore ()
      (3 * Second) {} {} "t1" cancelledTask1 (by decide) (by decide) (by decide)).1⟩


/-! ## Theorems about the timeout sweep -/

/-- The task handed to `Update` by the sweep has the id of the swept task. -/
theorem sweptTask_id (task : Task) (now : Time) :
    (SchedulerService.sweptTask task now).TaskID = task.TaskID := by
  unfold SchedulerService.sweptTask
  split <;> rfl

/-- The loop body of `checkTimeoutTasks` in closed form, every store call
succeeding. -/
theorem sweepTask_eq (st : Store) (task : Task) (now : Time) :
    SchedulerService.sweepTask st task now {} =
      { st with
        tasks := (MysqlTaskRepo.Update st.tasks (SchedulerService.sweptTask task now) now false false).1
        queues :=
          if (task.MarkAsTimeout now).CanRetry then
            (st.queues.PushTask task.TaskID task.Priority false).1
          else st.queues
        logs := st.logs ++ [{ SchedulerService.sweptLog task now with
          ID := (st.logs.length : Int) + 1 }] } := by
  unfold SchedulerService.sweepTask SchedulerService.sweptTask SchedulerService.sweptLog
  simp only []
  split
  · simp [MysqlTaskRepo.Update, TaskLogRepo.Create, Task.MarkAsRetrying, Task.MarkAsTimeout]
  · simp [MysqlTaskRepo.Update, TaskLogRepo.Create, Task.MarkAsTimeout]

/-- A row of a table with unique ids is the row found under its id. -/
theorem find_of_mem_nodup (rows : List Task) (t : Task)
    (huniq : (rows.map (fun row => row.TaskID)).Nodup) (hmem : t ∈ rows) :
    rows.find? (fun row => row.TaskID == t.TaskID) = some t := by
  cases hf : rows.find? (fun row => row.TaskID == t.TaskID) with
  | none =>
    have := List.find?_eq_none.mp hf t hmem
    simp at this
  | some r =>
    have hr : r ∈ rows := List.mem_of_find?_eq_some hf
    have hid : r.TaskID = t.TaskID := by
      have := List.find?_some hf
      simpa using this
    rw [List.inj_on_of_nodup_map huniq hr hmem hid]

/-- The persisted task of a swept id after the loop of the sweep, every store call
succeeding: the row with the assignments of the UPDATE for that task. -/
theorem sweep_fold_task (now : Time) :
    ∀ (swept : List Task) (st : Store) (task : Task),
      (swept.map (fun row => row.TaskID)).Nodup → task ∈ swept →
      st.task task.TaskID = some task →
      (swept.foldl (fun s t => SchedulerService.sweepTask s t now {}) st).task task.TaskID =
        some (MysqlTaskRepo.updateRow task (SchedulerService.sweptTask task now) now) := by
  intro swept
  induction swept with
  | nil => intro st task _ h; exact absurd h (List.not_mem_nil _)
  | cons x rest ih =>
    intro st task hnd hmem ht
    simp only [List.map_cons, List.nodup_cons] at hnd
    obtain ⟨hx, hrest⟩ := hnd
    simp only [List.foldl_cons]
    rcases List.mem_cons.mp hmem with rfl | hin
    · have hstep : (SchedulerService.sweepTask st task now {}).task task.TaskID =
          some (MysqlTaskRepo.updateRow task (SchedulerService.sweptTask task now) now) := by
        rw [sweepTask_eq]
        have hold : st.tasks.find? (fun row => row.TaskID ==
            (SchedulerService.sweptTask task now).TaskID) = some task := by
          rw [sweptTask_id]
          exact ht
        have := Update_same_id st.tasks (SchedulerService.sweptTask task now) task now hold
        rw [sweptTask_id] at this
        exact this
      exact sweep_loop_other_ids now (fun _ => {}) task.TaskID _ rest _
        (fun s hs hsid => hx (List.mem_map.mpr ⟨s, hs, hsid⟩)) hstep
    · have hne : x.TaskID ≠ task.TaskID := by
        intro e
        exact hx (List.mem_map.mpr ⟨task, hin, e.symm⟩)
      exact ih _ task hrest hin (sweepTask_other_id st x now {} task.TaskID task ht hne)

/-- The queues after one iteration of the sweep, every store call succeeding. -/
theorem sweepTask_queues (st : Store) (x : Task) (now : Time) (id : String) :
    (SchedulerService.sweepTask st x now {}).queues.worker = st.queues.worker ∧
    (SchedulerService.sweepTask st x now {}).queues.high.count id =
      st.queues.high.count id +
        (if (x.MarkAsTimeout now).CanRetry && x.Priority.IsHigh && x.TaskID == id then 1 else 0) ∧
    (SchedulerService.sweepTask st x now {}).queues.normal.count id =
      st.queues.normal.count id +
        (if (x.MarkAsTimeout now).CanRetry && !x.Priority.IsHigh && x.TaskID == id then 1
          else 0) := by
  rw [sweepTask_eq]
  simp only [Queues.PushTask, Bool.false_eq_true, if_false]
  cases hc : (x.MarkAsTimeout now).CanRetry <;> cases hp : x.Priority.IsHigh <;>
    cases hi : (x.TaskID == id) <;> simp [List.count_cons, hi]

/-- The queues after the loop of the sweep, for an id that no swept task has:
nothing is pushed for it, and no worker queue changes. -/
theorem sweep_fold_queues_other (now : Time) (id : String) :
    ∀ (swept : List Task) (st : Store), (∀ s ∈ swept, s.TaskID ≠ id) →
      (swept.foldl (fun s t => SchedulerService.sweepTask s t now {}) st).queues.worker =
        st.queues.worker ∧
      (swept.foldl (fun s t => SchedulerService.sweepTask s t now {}) st).queues.high.count id =
        st.queues.high.count id ∧
      (swept.foldl (fun s t => SchedulerService.sweepTask s t now {}) st).queues.normal.count id =
        st.queues.normal.count id := by
  intro swept
  induction swept with
  | nil => intro st _; exact ⟨rfl, rfl, rfl⟩
  | cons x rest ih =>
    intro st hall
    simp only [List.foldl_cons]
    obtain ⟨h1, h2, h3⟩ := ih (SchedulerService.sweepTask st x now {})
      (fun s hs => hall s (List.mem_cons_of_mem _ hs))
    obtain ⟨g1, g2, g3⟩ := sweepTask_queues st x now id
    have hne : (x.TaskID == id) = false := by
      rw [beq_eq_false_iff_ne]
      exact hall x (List.mem_cons_self _ _)
    simp only [hne, Bool.and_false, Bool.false_eq_true, if_false, Nat.add_zero] at g2 g3
    exact ⟨h1.trans g1, h2.trans g2, h3.trans g3⟩

/-- The queues after the loop of the sweep, for the id of a swept task: one push to
the queue of its priority if the task can be retried, none otherwise. -/
theorem sweep_fold_queues (now : Time) :
    ∀ (swept : List Task) (st : Store) (task : Task),
      (swept.map (fun row => row.TaskID)).Nodup → task ∈ swept →
      (swept.foldl (fun s t => SchedulerService.sweepTask s t now {}) st).queues.worker =
        st.queues.worker ∧
      (swept.foldl (fun s t => SchedulerService.sweepTask s t now {})
          st).queues.high.count task.TaskID =
        st.queues.high.count task.TaskID +
          (if (task.MarkAsTimeout now).CanRetry && task.Priority.IsHigh then 1 else 0) ∧
      (swept.foldl (fun s t => SchedulerService.sweepTask s t now {})
          st).queues.normal.count task.TaskID =
        st.queues.normal.count task.TaskID +
          (if (task.MarkAsTimeout now).CanRetry && !task.Priority.IsHigh then 1 else 0) := by
  intro swept
  induction swept with
  | nil => intro st task _ h; exact absurd h (List.not_mem_nil _)
  | cons x rest ih =>
    intro st task hnd hmem
    simp only [List.map_cons, List.nodup_cons] at hnd
    obtain ⟨hx, hrest⟩ := hnd
    simp only [List.foldl_cons]
    rcases List.mem_cons.mp hmem with rfl | hin
    · obtain ⟨h1, h2, h3⟩ := sweep_fold_queues_other now task.TaskID rest
        (SchedulerService.sweepTask st task now {})
        (fun s hs hsid => hx (List.mem_map.mpr ⟨s, hs, hsid⟩))
      obtain ⟨g1, g2, g3⟩ := sweepTask_queues st task now task.TaskID
      simp only [beq_self_eq_true, Bool.and_true] at g2 g3
      exact ⟨h1.trans g1, h2.trans g2, h3.trans g3⟩
    · have hne : (x.TaskID == task.TaskID) = false := by
        rw [beq_eq_false_iff_ne]
        intro e
        exact hx (List.mem_map.mpr ⟨task, hin, e.symm⟩)
      obtain ⟨h1, h2, h3⟩ := ih (SchedulerService.sweepTask st x now {}) task hrest hin
      obtain ⟨g1, g2, g3⟩ := sweepTask_queues st x now task.TaskID
      simp only [hne, Bool.and_false, Bool.false_eq_true, if_false, Nat.add_zero] at g2 g3
      exact ⟨h1.trans g1, by rw [h2, g2], by rw [h3, g3]⟩

/-- The logs after the loop of the sweep: the old rows, then new rows, among them
the entry of each swept task. -/
theorem sweep_fold_logs (now : Time) :
    ∀ (swept : List Task) (st : Store),
      ∃ extra : List TaskLog,
        (swept.foldl (fun s t => SchedulerService.sweepTask s t now {}) st).logs =
          st.logs ++ extra ∧
        ∀ task ∈ swept, ∃ n : Int,
          { SchedulerService.sweptLog task now with ID := n } ∈ extra := by
  intro swept
  induction swept with
  | nil => intro st; exact ⟨[], by simp, fun t h => absurd h (List.not_mem_nil _)⟩
  | cons x rest ih =>
    intro st
    obtain ⟨extra, he, hall⟩ := ih (SchedulerService.sweepTask st x now {})
    refine ⟨{ SchedulerService.sweptLog x now with ID := (st.logs.length : Int) + 1 } :: extra,
      ?_, ?_⟩
    · simp only [List.foldl_cons]
      rw [he, sweepTask_eq]
      simp
    · intro task hmem
      rcases List.mem_cons.mp hmem with rfl | hin
      · exact ⟨_, List.mem_cons_self _ _⟩
      · obtain ⟨n, hn⟩ := hall task hin
        exact ⟨n, List.mem_cons_of_mem _ hn⟩

/-- After `MarkAsTimeout` a task can be retried exactly when its retry count is
below its maximum. -/
theorem MarkAsTimeout_CanRetry (task : Task) (now : Time) :
    (task.MarkAsTimeout now).CanRetry = true ↔ task.RetryCount < task.MaxRetry := by
  rw [CanRetry_unfold]
  constructor
  · intro h; exact h.2
  · intro h; exact ⟨Or.inr rfl, h⟩

/-- Claim C25, amended: for every task returned by FindTimeoutTasks, with task_id
unique in the table, max_retry a value of int and every store call succeeding,
checkTimeoutTasks returns nil and applies the retry policy.  If
retry_count < max_retry, the persisted task becomes
PENDING with retry_count increased by one and worker_id, started_at and
completed_at cleared, its id is pushed once to the global queue of its priority
(and not to the other one), and a RETRY log of the task is among the appended log
rows.  Otherwise the persisted task becomes TIMEOUT, a final state, with
completed_at set, the error message "Task execution timeout" and retry_count
unchanged, an ERROR log of the task is among the appended rows, and the id is
pushed to no queue. -/
theorem checkTimeoutTasks_applies_retry_policy (st : Store) (now : Time) (task : Task)
    (huniq : (st.tasks.map (fun row => row.TaskID)).Nodup) (hint : task.MaxRetry ≤ maxInt)
    (hmem : task ∈ (MysqlTaskRepo.FindTimeoutTasks st.tasks now false).1) :
    (SchedulerService.checkTimeoutTasks st now false (fun _ => {})).2 = none ∧
    (SchedulerService.checkTimeoutTasks st now false (fun _ => {})).1.queues.worker =
      st.queues.worker ∧
    (task.RetryCount < task.MaxRetry →
      (∃ t, (SchedulerService.checkTimeoutTasks st now false (fun _ => {})).1.task task.TaskID =
          some t ∧
        t.Status = StatusPending ∧ t.RetryCount = task.RetryCount + 1 ∧ t.WorkerID = "" ∧
        t.StartedAt = none ∧ t.CompletedAt = none) ∧
      (SchedulerService.checkTimeoutTasks st now false
          (fun _ => {})).1.queues.high.count task.TaskID =
        st.queues.high.count task.TaskID + (if task.Priority.IsHigh then 1 else 0) ∧
      (SchedulerService.checkTimeoutTasks st now false
          (fun _ => {})).1.queues.normal.count task.TaskID =
        st.queues.normal.count task.TaskID + (if task.Priority.IsHigh then 0 else 1) ∧
      (if task.Priority.IsHigh then
          task.TaskID ∈ (SchedulerService.checkTimeoutTasks st now false
            (fun _ => {})).1.queues.high
        else
          task.TaskID ∈ (SchedulerService.checkTimeoutTasks st now false
            (fun _ => {})).1.queues.normal) ∧
      ∃ extra : List TaskLog,
        (SchedulerService.checkTimeoutTasks st now false (fun _ => {})).1.logs =
          st.logs ++ extra ∧
        ∃ l ∈ extra, l.TaskID = task.TaskID ∧ l.LogType = LogTypeRetry ∧
          l.RetryCount = task.RetryCount + 1) ∧
    (¬ task.RetryCount < task.MaxRetry →
      (∃ t, (SchedulerService.checkTimeoutTasks st now false (fun _ => {})).1.task task.TaskID =
          some t ∧
        t.Status = StatusTimeout ∧ t.CompletedAt = some now ∧
        t.ErrorMsg = "Task execution timeout" ∧ t.RetryCount = task.RetryCount ∧
        t.IsFinalState = true) ∧
      (SchedulerService.checkTimeoutTasks st now false
          (fun _ => {})).1.queues.high.count task.TaskID = st.queues.high.count task.TaskID ∧
      (SchedulerService.checkTimeoutTasks st now false
          (fun _ => {})).1.queues.normal.count task.TaskID =
        st.queues.normal.count task.TaskID ∧
      ∃ extra : List TaskLog,
        (SchedulerService.checkTimeoutTasks st now false (fun _ => {})).1.logs =
          st.logs ++ extra ∧
        ∃ l ∈ extra, l.TaskID = task.TaskID ∧ l.LogType = LogTypeError) := by
  have hres : SchedulerService.checkTimeoutTasks st now false (fun _ => {}) =
      ((MysqlTaskRepo.FindTimeoutTasks st.tasks now false).1.foldl
        (fun s t => SchedulerService.sweepTask s t now {}) st, none) := rfl
  rw [hres]
  generalize hsw : (MysqlTaskRepo.FindTimeoutTasks st.tasks now false).1 = swept at hmem ⊢
  have hsub : swept.Sublist st.tasks := by
    rw [← hsw]
    unfold MysqlTaskRepo.FindTimeoutTasks
    simp only [Bool.false_eq_true, if_false]
    exact List.filter_sublist _
  have hnd : (swept.map (fun row => row.TaskID)).Nodup :=
    List.Nodup.sublist (hsub.map _) huniq
  have hrow : st.task task.TaskID = some task :=
    find_of_mem_nodup st.tasks task huniq (hsub.subset hmem)
  have htask := sweep_fold_task now swept st task hnd hmem hrow
  obtain ⟨hw, hhigh, hnormal⟩ := sweep_fold_queues now swept st task hnd hmem
  obtain ⟨extra, hlogs, hall⟩ := sweep_fold_logs now swept st
  obtain ⟨n, hlog⟩ := hall task hmem
  refine ⟨rfl, hw, ?_, ?_⟩
  · intro hlt
    have hc : (task.MarkAsTimeout now).CanRetry = true := (MarkAsTimeout_CanRetry task now).mpr hlt
    simp only [SchedulerService.sweptTask, hc, if_true] at htask
    simp only [SchedulerService.sweptLog, hc, if_true] at hlog
    simp only [hc, Bool.true_and] at hhigh hnormal
    have hincr : goIncr task.RetryCount = task.RetryCount + 1 :=
      goIncr_of_lt task.RetryCount (by omega)
    refine ⟨⟨_, htask, rfl, hincr, rfl, rfl, rfl⟩, ?_, ?_, ?_, extra, hlogs, _, hlog, rfl, rfl,
      hincr⟩
    · rw [hhigh]
    · rw [hnormal]
      cases task.Priority.IsHigh <;> rfl
    · cases hp : task.Priority.IsHigh
      · simp only [Bool.false_eq_true, if_false]
        rw [hp] at hnormal
        apply List.count_pos_iff.mp
        rw [hnormal]
        simp
      · simp only [if_true]
        rw [hp] at hhigh
        apply List.count_pos_iff.mp
        rw [hhigh]
        simp
  · intro hge
    have hc : (task.MarkAsTimeout now).CanRetry = false := by
      cases h : (task.MarkAsTimeout now).CanRetry with
      | false => rfl
      | true => exact absurd ((MarkAsTimeout_CanRetry task now).mp h) hge
    simp only [SchedulerService.sweptTask, hc, Bool.false_eq_true, if_false] at htask
    simp only [SchedulerService.sweptLog, hc, Bool.false_eq_true, if_false] at hlog
    simp only [hc, Bool.false_and, Bool.false_eq_true, if_false, Nat.add_zero] at hhigh hnormal
    refine ⟨⟨_, htask, rfl, rfl, rfl, rfl, ?_⟩, hhigh, hnormal, extra, hlogs, _, hlog, rfl, rfl⟩
    have hc2 : (MysqlTaskRepo.updateRow task (task.MarkAsTimeout now) now).CanRetry = false := by
      cases h : (MysqlTaskRepo.updateRow task (task.MarkAsTimeout now) now).CanRetry with
      | false => rfl
      | true => exact absurd (CanRetry_lt _ h) hge
    have hs : (MysqlTaskRepo.updateRow task (task.MarkAsTimeout now) now).Status =
        StatusTimeout := rfl
    simp [Task.IsFinalState, hc2, hs]

/-- Claim C25, counterexample: in `quickStore2` the task `q1` (timeout one second,
max_retry 1, retry_count 0) has been PROCESSING since second 2 and is returned by
`FindTimeoutTasks` at second 5.  If the `Update` of the sweep fails, the loop skips
the task: it stays PROCESSING with retry_count 0, nothing is pushed and no log is
written.  If the `Update` succeeds and the `PushTask` fails, the task is PENDING
with retry_count 1 and its id is in no global queue.  Both calls of
`checkTimeoutTasks` return nil. -/
theorem sweep_not_applied_on_store_failure :
    quickTask2 ∈ (MysqlTaskRepo.FindTimeoutTasks quickStore2.tasks (5 * Second) false).1 ∧
      (quickTask2.Status, quickTask2.RetryCount, quickTask2.MaxRetry) =
        (StatusProcessing, 0, 1) ∧
      (SchedulerService.checkTimeoutTasks quickStore2 (5 * Second) false
        (fun _ => { update := true })).2 = none ∧
      ((SchedulerService.checkTimeoutTasks quickStore2 (5 * Second) false
        (fun _ => { update := true })).1.task "q1").map (fun t => (t.Status, t.RetryCount)) =
        some (StatusProcessing, 0) ∧
      (SchedulerService.checkTimeoutTasks quickStore2 (5 * Second) false
        (fun _ => { update := true })).1.queues.normal = [] ∧
      (SchedulerService.checkTimeoutTasks quickStore2 (5 * Second) false
        (fun _ => { update := true })).1.logs = quickStore2.logs ∧
      (SchedulerService.checkTimeoutTasks quickStore2 (5 * Second) false
        (fun _ => { pushTask := true })).2 = none ∧
      ((SchedulerService.checkTimeoutTasks quickStore2 (5 * Second) false
        (fun _ => { pushTask := true })).1.task "q1").map (fun t => (t.Status, t.RetryCount)) =
        some (StatusPending, 1) ∧
      (SchedulerService.checkTimeoutTasks quickStore2 (5 * Second) false
        (fun _ => { pushTask := true })).1.queues.normal = [] ∧
      (SchedulerService.checkTimeoutTasks quickStore2 (5 * Second) false
        (fun _ => { pushTask := true })).1.queues.high = [] := by
  decide

/-- Claim C25, the witness of the claim: a task with a timeout of one second and
max_retry = 1 is PENDING with retry_count 1 after the first sweep, its id pushed to
the normal queue, and TIMEOUT and final with retry_count 1 after the second, its id
pushed to no global queue. -/
theorem checkTimeoutTasks_applies_retry_policy_witness :
    (quickTask2.Timeout, quickTask2.MaxRetry, quickTask2.RetryCount) = (1, 1, 0) ∧
      (quickStore3.task "q1").map (fun t => (t.Status, t.RetryCount)) =
        some (StatusPending, 1) ∧
      quickStore3.queues.normal = ["q1"] ∧
      (quickStore5.task "q1").map (fun t => (t.Status, t.RetryCount, t.IsFinalState)) =
        some (StatusTimeout, 1, true) ∧
      quickStore5.queues.normal = [] ∧ quickStore5.queues.high = [] := by
  have h1 := checkTimeoutTasks_applies_retry_policy quickStore2 (5 * Second) quickTask2
    (by decide) (by decide) (by decide)
  have h2 := checkTimeoutTasks_applies_retry_policy quickStore4 (10 * Second) quickTask4
    (by decide) (by decide) (by decide)
  obtain ⟨t1, ht1, hs1, hr1, _⟩ := (h1.2.2.1 (by decide)).1
  obtain ⟨t2, ht2, hs2, _, _, hr2, hf2⟩ := (h2.2.2.2 (by decide)).1
  have e3 : quickStore3 =
      (SchedulerService.checkTimeoutTasks quickStore2 (5 * Second) false (fun _ => {})).1 := rfl
  have e5 : quickStore5 =
      (SchedulerService.checkTimeoutTasks quickStore4 (10 * Second) false (fun _ => {})).1 := rfl
  have id2 : quickTask2.TaskID = "q1" := by decide
  have id4 : quickTask4.TaskID = "q1" := by decide
  rw [id2] at ht1
  rw [id4] at ht2
  refine ⟨by decide, ?_, by decide, ?_, by decide, by decide⟩
  · rw [e3, ht1]
    simp only [Option.map_some', hs1, hr1]
    rfl
  · rw [e5, ht2]
    simp only [Option.map_some', hs2, hr2, hf2]
    rfl


/-! ## Theorems about a failed execution -/

/-- After `MarkAsTimeout` or `MarkAsFailed` a task can be retried exactly when its
retry count is below its maximum. -/
theorem failedTask_CanRetry (task : Task) (errMsg : String) (deadlineExceeded : Bool)
    (now : Time) :
    (WorkerService.failedTask task errMsg deadlineExceeded now).CanRetry = true ↔
      task.RetryCount < task.MaxRetry := by
  rw [CanRetry_unfold]
  cases deadlineExceeded
  · constructor
    · intro h; exact h.2
    · intro h; exact ⟨Or.inl rfl, h⟩
  · constructor
    · intro h; exact h.2
    · intro h; exact ⟨Or.inr rfl, h⟩

/-- The check of the cancel mark after a pop from a worker queue, when the id has
no mark at that time. -/
theorem CheckCancelMark_unset (q q1 : Queues) (workerID taskID : String) (now : Time)
    (hpop : q.PopFromWorkerQueue workerID false = (q1, taskID, none))
    (hmark : q.marked taskID now = false) :
    q1.CheckCancelMark taskID now false = (false, none) := by
  have hq := PopFromWorkerQueue_frame _ _ _ _ _ _ hpop
  unfold Queues.CheckCancelMark Queues.marked
  unfold Queues.marked at hmark
  rw [hq.2.2, hmark]
  rfl

/-- Method `processTask` in closed form when the executor returns an error, no cancel
mark is set and every store call succeeds. -/
theorem processTask_failure_eq (ws : WorkerService) (st : Store) (errMsg : String)
    (deadlineExceeded : Bool) (now : Time) (q1 : Queues) (taskID : String) (task : Task)
    (e : Executor)
    (hpop : st.queues.PopFromWorkerQueue ws.worker.WorkerID false = (q1, taskID, none))
    (ht : st.task taskID = some task)
    (hmark : st.queues.marked taskID now = false)
    (hexec : ws.executorRegistry.Get task.TaskType = .ok e) :
    WorkerService.processTask ws st (.failure errMsg deadlineExceeded) now {} =
      ({ ws with worker := ws.worker.CompleteTask },
        (if (WorkerService.failedTask task errMsg deadlineExceeded now).CanRetry then
          { st with
            tasks := (MysqlTaskRepo.Update st.tasks
              (WorkerService.failedTask task errMsg deadlineExceeded now).MarkAsRetrying now
              false false).1
            queues := (q1.PushTask taskID task.Priority false).1
            logs := st.logs ++ [{ NewRetryLog taskID (goIncr task.RetryCount)
              ("Task failed, retry " ++ toString (goIncr task.RetryCount) ++ "/" ++
                toString task.MaxRetry) now with ID := (st.logs.length : Int) + 1 }]
            registry := (st.registry.UpdateLoad ws.worker.WorkerID
              ws.worker.CompleteTask.CurrentLoad false).1 }
        else
          { st with
            tasks := (MysqlTaskRepo.Update st.tasks
              (WorkerService.failedTask task errMsg deadlineExceeded now) now false false).1
            queues := q1
            logs := st.logs ++ [{ NewErrorLog taskID ws.worker.WorkerID
              "Task failed and max retry reached" errMsg now with
              ID := (st.logs.length : Int) + 1 }]
            registry := (st.registry.UpdateLoad ws.worker.WorkerID
              ws.worker.CompleteTask.CurrentLoad false).1 }), none) := by
  have hwid : ws.worker.CompleteTask.WorkerID = ws.worker.WorkerID := by
    unfold Worker.CompleteTask
    split <;> rfl
  unfold WorkerService.processTask
  rw [hpop]
  simp only []
  rw [GetByID_of_task st taskID task ht, CheckCancelMark_unset _ _ _ _ now hpop hmark]
  simp only []
  rw [hexec]
  simp only [WorkerService.completeAndUpdateLoad, hwid]
  unfold WorkerService.failedTask
  cases deadlineExceeded <;>
    simp only [Bool.false_eq_true, if_false, if_true] <;>
    split <;>
    simp [TaskLogRepo.Create, Task.MarkAsRetrying, Task.MarkAsFailed, Task.MarkAsTimeout]

/-- C26, the counterexample.  In `runStore2` the task `t1` is PROCESSING with
retry_count 0 of 3 and the executor returns an error.  When the `Update` of the
task fails, `processTask` returns nil all the same: the persisted task is still
PROCESSING with retry_count 0, while its id has been pushed to the global queue and
the RETRY log written.  When the `PushTask` fails, the call returns nil, the task
is PENDING with retry_count 1 and its id is in no global queue.  In `onceStore`,
where `max_retry = 0`, a failing `Update` leaves the task PROCESSING, not FAILED.
In `debtStore`, where `max_retry = 0` and the retry count is -1, the task does go
back to PENDING, with every store call succeeding. -/
theorem failure_policy_not_applied_on_store_failure :
    (runTask2.Status, runTask2.RetryCount, runTask2.MaxRetry) = (StatusProcessing, 0, 3) ∧
      (WorkerService.processTask runService runStore2 (.failure "boom" false) (3 * Second)
          { update := true }).2.2 = none ∧
      ((WorkerService.processTask runService runStore2 (.failure "boom" false) (3 * Second)
          { update := true }).2.1.task "t1").map (fun t => (t.Status, t.RetryCount)) =
        some (StatusProcessing, 0) ∧
      (WorkerService.processTask runService runStore2 (.failure "boom" false) (3 * Second)
          { update := true }).2.1.queues.normal = ["t1"] ∧
      (WorkerService.processTask runService runStore2 (.failure "boom" false) (3 * Second)
          { pushTask := true }).2.2 = none ∧
      ((WorkerService.processTask runService runStore2 (.failure "boom" false) (3 * Second)
          { pushTask := true }).2.1.task "t1").map (fun t => (t.Status, t.RetryCount)) =
        some (StatusPending, 1) ∧
      (WorkerService.processTask runService runStore2 (.failure "boom" false) (3 * Second)
          { pushTask := true }).2.1.queues.normal = [] ∧
      (WorkerService.processTask runService runStore2 (.failure "boom" false) (3 * Second)
          { pushTask := true }).2.1.queues.high = [] ∧
      (onceTask.Status, onceTask.RetryCount, onceTask.MaxRetry) = (StatusProcessing, 0, 0) ∧
      (WorkerService.processTask runService onceStore (.failure "boom" false) (3 * Second)
          { update := true }).2.2 = none ∧
      ((WorkerService.processTask runService onceStore (.failure "boom" false) (3 * Second)
          { update := true }).2.1.task "t1").map (fun t => t.Status) = some StatusProcessing ∧
      (debtStore.task "t1").map (fun t => (t.Status, t.RetryCount, t.MaxRetry)) =
        some (StatusProcessing, -1, 0) ∧
      ((WorkerService.processTask runService debtStore (.failure "boom" false) (3 * Second)
          {}).2.1.task "t1").map (fun t => (t.Status, t.RetryCount)) =
        some (StatusPending, 0) := by
  decide

/-- Claim C26, amended: when `processTask` dequeues the id of a persisted task whose
max_retry is a value of `int`, no cancel mark exists for it at that time, an
executor is registered for the task type and returns an error, and every store call
succeeds, then the call returns nil and: if retry_count < max_retry, the persisted
task becomes PENDING with retry_count increased by one and worker_id, started_at
and completed_at cleared, its id is pushed to the global queue of its priority, and
a RETRY log is appended; otherwise the persisted task is FAILED, or TIMEOUT when
the deadline was exceeded, a final state, with completed_at set and retry_count
unchanged, an ERROR log is appended, and the id is pushed to no queue.  In
particular a task with max_retry = 0 whose retry count is not negative is not
PENDING afterwards. -/
theorem processTask_failure_retry_policy (ws : WorkerService) (st : Store) (errMsg : String)
    (deadlineExceeded : Bool) (now : Time) (q1 : Queues) (taskID : String) (task : Task)
    (e : Executor)
    (hpop : st.queues.PopFromWorkerQueue ws.worker.WorkerID false = (q1, taskID, none))
    (ht : st.task taskID = some task)
    (hmark : st.queues.marked taskID now = false)
    (hexec : ws.executorRegistry.Get task.TaskType = .ok e)
    (hint : task.MaxRetry ≤ maxInt) :
    (WorkerService.processTask ws st (.failure errMsg deadlineExceeded) now {}).2.2 = none ∧
    (WorkerService.processTask ws st (.failure errMsg deadlineExceeded) now {}).2.1.queues.worker =
      q1.worker ∧
    (task.RetryCount < task.MaxRetry →
      (∃ t, (WorkerService.processTask ws st (.failure errMsg deadlineExceeded) now
          {}).2.1.task taskID = some t ∧
        t.Status = StatusPending ∧ t.RetryCount = task.RetryCount + 1 ∧ t.WorkerID = "" ∧
        t.StartedAt = none ∧ t.CompletedAt = none) ∧
      (WorkerService.processTask ws st (.failure errMsg deadlineExceeded) now
          {}).2.1.queues.high =
        (if task.Priority.IsHigh then taskID :: st.queues.high else st.queues.high) ∧
      (WorkerService.processTask ws st (.failure errMsg deadlineExceeded) now
          {}).2.1.queues.normal =
        (if task.Priority.IsHigh then st.queues.normal else taskID :: st.queues.normal) ∧
      (WorkerService.processTask ws st (.failure errMsg deadlineExceeded) now {}).2.1.logs =
        st.logs ++ [{ NewRetryLog taskID (task.RetryCount + 1)
          ("Task failed, retry " ++ toString (task.RetryCount + 1) ++ "/" ++
            toString task.MaxRetry) now with ID := (st.logs.length : Int) + 1 }]) ∧
    (¬ task.RetryCount < task.MaxRetry →
      (∃ t, (WorkerService.processTask ws st (.failure errMsg deadlineExceeded) now
          {}).2.1.task taskID = some t ∧
        t.Status = (if deadlineExceeded then StatusTimeout else StatusFailed) ∧
        t.CompletedAt = some now ∧ t.RetryCount = task.RetryCount ∧ t.IsFinalState = true) ∧
      (WorkerService.processTask ws st (.failure errMsg deadlineExceeded) now
          {}).2.1.queues.high = st.queues.high ∧
      (WorkerService.processTask ws st (.failure errMsg deadlineExceeded) now
          {}).2.1.queues.normal = st.queues.normal ∧
      (WorkerService.processTask ws st (.failure errMsg deadlineExceeded) now {}).2.1.logs =
        st.logs ++ [{ NewErrorLog taskID ws.worker.WorkerID "Task failed and max retry reached"
          errMsg now with ID := (st.logs.length : Int) + 1 }]) ∧
    (task.MaxRetry = 0 → 0 ≤ task.RetryCount →
      ∃ t, (WorkerService.processTask ws st (.failure errMsg deadlineExceeded) now
          {}).2.1.task taskID = some t ∧
        t.Status ≠ StatusPending ∧ (t.Status = StatusFailed ∨ t.Status = StatusTimeout)) := by
  have hid : task.TaskID = taskID := Store.task_id st taskID task ht
  obtain ⟨hqh, hqn, _⟩ := PopFromWorkerQueue_frame _ _ _ _ _ _ hpop
  have hfid : ∀ t2 : Task, t2.TaskID = taskID →
      (MysqlTaskRepo.Update st.tasks t2 now false false).1.find? (fun row => row.TaskID == taskID) =
        some (MysqlTaskRepo.updateRow task t2 now) := by
    intro t2 h2
    have hold : st.tasks.find? (fun row => row.TaskID == t2.TaskID) = some task := by
      rw [h2]
      exact ht
    have := Update_same_id st.tasks t2 task now hold
    rw [h2] at this
    exact this
  have hfailid : (WorkerService.failedTask task errMsg deadlineExceeded now).TaskID = taskID := by
    unfold WorkerService.failedTask
    split <;> exact hid
  have hterminal : ¬ task.RetryCount < task.MaxRetry →
      (∃ t, (WorkerService.processTask ws st (.failure errMsg deadlineExceeded) now
          {}).2.1.task taskID = some t ∧
        t.Status = (if deadlineExceeded then StatusTimeout else StatusFailed) ∧
        t.CompletedAt = some now ∧ t.RetryCount = task.RetryCount ∧ t.IsFinalState = true) ∧
      (WorkerService.processTask ws st (.failure errMsg deadlineExceeded) now
          {}).2.1.queues.high = st.queues.high ∧
      (WorkerService.processTask ws st (.failure errMsg deadlineExceeded) now
          {}).2.1.queues.normal = st.queues.normal ∧
      (WorkerService.processTask ws st (.failure errMsg deadlineExceeded) now {}).2.1.logs =
        st.logs ++ [{ NewErrorLog taskID ws.worker.WorkerID "Task failed and max retry reached"
          errMsg now with ID := (st.logs.length : Int) + 1 }] := by
    intro hge
    have hc : (WorkerService.failedTask task errMsg deadlineExceeded now).CanRetry = false := by
      cases h : (WorkerService.failedTask task errMsg deadlineExceeded now).CanRetry with
      | false => rfl
      | true => exact absurd ((failedTask_CanRetry task errMsg deadlineExceeded now).mp h) hge
    rw [processTask_failure_eq ws st errMsg deadlineExceeded now q1 taskID task e hpop ht hmark
      hexec]
    simp only [hc, Bool.false_eq_true, if_false]
    refine ⟨⟨_, hfid _ hfailid, ?_, ?_, ?_, ?_⟩, hqh, hqn, by first | rfl | trivial⟩
    · cases deadlineExceeded <;> rfl
    · cases deadlineExceeded <;> rfl
    · cases deadlineExceeded <;> rfl
    · have hc2 : (MysqlTaskRepo.updateRow task
          (WorkerService.failedTask task errMsg deadlineExceeded now) now).CanRetry = false := by
        cases h : (MysqlTaskRepo.updateRow task
            (WorkerService.failedTask task errMsg deadlineExceeded now) now).CanRetry with
        | false => rfl
        | true =>
          have hlt := CanRetry_lt _ h
          have hr : (MysqlTaskRepo.updateRow task
              (WorkerService.failedTask task errMsg deadlineExceeded now) now).RetryCount =
              task.RetryCount := by cases deadlineExceeded <;> rfl
          rw [hr] at hlt
          exact absurd hlt hge
      cases deadlineExceeded
      · have hs : (MysqlTaskRepo.updateRow task
            (WorkerService.failedTask task errMsg false now) now).Status = StatusFailed := rfl
        simp [Task.IsFinalState, hc2, hs]
      · have hs : (MysqlTaskRepo.updateRow task
            (WorkerService.failedTask task errMsg true now) now).Status = StatusTimeout := rfl
        simp [Task.IsFinalState, hc2, hs]
  refine ⟨?_, ?_, ?_, hterminal, ?_⟩
  · rw [processTask_failure_eq ws st errMsg deadlineExceeded now q1 taskID task e hpop ht hmark
      hexec]
  · rw [processTask_failure_eq ws st errMsg deadlineExceeded now q1 taskID task e hpop ht hmark
      hexec]
    cases hc : (WorkerService.failedTask task errMsg deadlineExceeded now).CanRetry
    · simp only [Bool.false_eq_true, if_false]
    · simp only [if_true, Queues.PushTask, Bool.false_eq_true, if_false]
      split <;> rfl
  · intro hlt
    have hc : (WorkerService.failedTask task errMsg deadlineExceeded now).CanRetry = true :=
      (failedTask_CanRetry task errMsg deadlineExceeded now).mpr hlt
    rw [processTask_failure_eq ws st errMsg deadlineExceeded now q1 taskID task e hpop ht hmark
      hexec]
    simp only [hc, if_true]
    have hincr : goIncr task.RetryCount = task.RetryCount + 1 :=
      goIncr_of_lt task.RetryCount (by omega)
    have hcount : (MysqlTaskRepo.updateRow task
        (WorkerService.failedTask task errMsg deadlineExceeded now).MarkAsRetrying
        now).RetryCount = goIncr task.RetryCount := by
      cases deadlineExceeded <;> rfl
    refine ⟨⟨_, hfid _ hfailid, ?_, ?_, ?_, ?_, ?_⟩, ?_, ?_, ?_⟩
    · rfl
    · rw [hcount, hincr]
    · rfl
    · rfl
    · rfl
    · simp only [Queues.PushTask, Bool.false_eq_true, if_false]
      split <;> simp [hqh]
    · simp only [Queues.PushTask, Bool.false_eq_true, if_false]
      split <;> simp [hqn]
    · rw [hincr]
  · intro hmax hnonneg
    have hge : ¬ task.RetryCount < task.MaxRetry := by omega
    obtain ⟨⟨t, htt, hs, _⟩, _⟩ := hterminal hge
    refine ⟨t, htt, ?_, ?_⟩
    · cases deadlineExceeded
      · simp only [Bool.false_eq_true, if_false] at hs
        rw [hs]
        exact fun h => pending_ne.2.2.2.1 h.symm
      · simp only [if_true] at hs
        rw [hs]
        exact fun h => pending_ne.2.2.2.2 h.symm
    · cases deadlineExceeded
      · simp only [Bool.false_eq_true, if_false] at hs
        exact Or.inl hs
      · simp only [if_true] at hs
        exact Or.inr hs


/-- Claim C26 on the two tasks: `t1` with three retries allowed goes back to PENDING
with retry_count 1 and is queued again; `t1` with `max_retry = 0` ends FAILED and
is queued nowhere. -/
theorem processTask_failure_retry_policy_witness :
    (runTask2.RetryCount, runTask2.MaxRetry) = (0, 3) ∧
      ((WorkerService.processTask runService runStore2 (.failure "boom" false) (3 * Second)
          {}).2.1.task "t1").map (fun t => (t.Status, t.RetryCount)) =
        some (StatusPending, 1) ∧
      (WorkerService.processTask runService runStore2 (.failure "boom" false) (3 * Second)
          {}).2.1.queues.normal = ["t1"] ∧
      (onceTask.RetryCount, onceTask.MaxRetry) = (0, 0) ∧
      ((WorkerService.processTask runService onceStore (.failure "boom" false) (3 * Second)
          {}).2.1.task "t1").map (fun t => t.Status) = some StatusFailed ∧
      (WorkerService.processTask runService onceStore (.failure "boom" false) (3 * Second)
          {}).2.1.queues.normal = [] := by
  have h1 := processTask_failure_retry_policy runService runStore2 "boom" false (3 * Second)
    { worker := [("w1", [])] } "t1" runTask2 { name := "local", supportedTaskTypes := ["echo"] }
    (by decide) (by decide) (by decide) rfl (by decide)
  have h2 := processTask_failure_retry_policy runService onceStore "boom" false (3 * Second)
    { worker := [("w1", [])] } "t1" onceTask { name := "local", supportedTaskTypes := ["echo"] }
    (by decide) (by decide) (by decide) rfl (by decide)
  obtain ⟨⟨t1, ht1, hs1, hr1, _⟩, _, hn1, _⟩ := h1.2.2.1 (by decide)
  obtain ⟨⟨t2, ht2, hs2, _⟩, _, hn2, _⟩ := h2.2.2.2.1 (by decide)
  refine ⟨by decide, ?_, ?_, by decide, ?_, ?_⟩
  · rw [ht1]
    simp only [Option.map_some', hs1, hr1]
    rfl
  · rw [hn1]
    rfl
  · rw [ht2]
    simp only [Option.map_some', hs2]
    rfl
  · rw [hn2]
    rfl

/-! ## Theorems about the load of a worker -/

/-- C27, the failing input: two tasks are assigned to worker `w1`, so its registered
load is 2 (the scheduler writes the registered load plus one), while the load of
the worker held in memory by its `WorkerService` is still 0.  One call of
`processTask` takes `t1` from the queue, the executor succeeds, and the call writes
the load held in memory after `CompleteTask`, which is 0: the registered load goes
from 2 to 0, not to 1, while `t2` is still waiting in the queue of the worker.  In
the same state, a call in which the `GetByID` of the task fails takes the id from
the queue and returns the error before the load is touched: the registered load
stays 2. -/
theorem registered_load_reset_by_processTask :
    busyStore.load "w1" = some 2 ∧
      busyStore.queues.workerQueue "w1" = ["t2", "t1"] ∧
      runService.worker.CurrentLoad = 0 ∧
      busyDone.2.2 = none ∧
      (busyDone.2.1.task "t1").map (fun t => t.Status) = some StatusSuccess ∧
      busyDone.2.1.queues.workerQueue "w1" = ["t2"] ∧
      busyDone.2.1.load "w1" = some 0 ∧
      busyLoadError.2.2 = some "get task failed: query task failed" ∧
      busyLoadError.2.1.queues.workerQueue "w1" = ["t2"] ∧
      busyLoadError.2.1.load "w1" = some 2 := by
  decide

/-- On every path of `processTask` that reaches the update of the load, the value
written to the registry is the load of the worker held in memory after
`CompleteTask`; here for the path of a failed execution. -/
theorem processTask_writes_memory_load (ws : WorkerService) (st : Store) (errMsg : String)
    (deadlineExceeded : Bool) (now : Time) (q1 : Queues) (taskID : String) (task : Task)
    (e : Executor)
    (hpop : st.queues.PopFromWorkerQueue ws.worker.WorkerID false = (q1, taskID, none))
    (ht : st.task taskID = some task)
    (hmark : st.queues.marked taskID now = false)
    (hexec : ws.executorRegistry.Get task.TaskType = .ok e) :
    (WorkerService.processTask ws st (.failure errMsg deadlineExceeded) now {}).2.1.load
        ws.worker.WorkerID = some ws.worker.CompleteTask.CurrentLoad := by
  rw [processTask_failure_eq ws st errMsg deadlineExceeded now q1 taskID task e hpop ht hmark
    hexec]
  unfold Store.load
  split <;>
  · simp only [Registry.UpdateLoad, Bool.false_eq_true, if_false]
    split <;> simp [StrMap.get_set_self]


/-! ## Theorems about `Start` and `runAsLeader` -/

/-- Method `Renew` never changes the lease. -/
theorem Renew_keeps_lease (lease : Lease) (schedulerID : String) (getErr expireErr : Bool) :
    (LeaderElection.Renew lease schedulerID getErr expireErr).1 = lease := by
  unfold LeaderElection.Renew
  split
  · rfl
  · split
    · rfl
    · split
      · rfl
      · split <;> rfl

/-- The renew tick in the leader loop. -/
theorem step_renewTick (schedulerID : String) (lease : Lease) (getErr expireErr : Bool) :
    SchedulerState.step schedulerID lease .leaderLoop (.renewTick getErr expireErr) =
      match LeaderElection.Renew lease schedulerID getErr expireErr with
      | (lease1, some _) => some (lease1, .stopped "lost leadership")
      | (lease1, none) => some (lease1, .leaderLoop) := rfl

/-- Claim C28, as the code has it: in the leader loop, whenever `Renew` returns an
error on the renew tick, the goroutine that runs `Start` stops: `runAsLeader`
returns the error "lost leadership" and `Start` returns what `runAsLeader` returns,
the lease is left as it is, and no event is handled after that, so this call of
`Start` makes no further `TryAcquire`.  When `Renew` returns nil the loop goes on.
A follower stays in the polling loop, calling `TryAcquire` at every tick, until
`TryAcquire` succeeds or the context is cancelled. -/
theorem failed_renew_stops_scheduler (schedulerID : String) (lease : Lease)
    (getErr expireErr : Bool) :
    ((LeaderElection.Renew lease schedulerID getErr expireErr).2 ≠ none →
      SchedulerState.step schedulerID lease .leaderLoop (.renewTick getErr expireErr) =
        some (lease, .stopped "lost leadership")) ∧
    ((LeaderElection.Renew lease schedulerID getErr expireErr).2 = none →
      SchedulerState.step schedulerID lease .leaderLoop (.renewTick getErr expireErr) =
        some (lease, .leaderLoop)) ∧
    (∀ (err : String) (lease1 : Lease) (event : SchedulerEvent),
      SchedulerState.step schedulerID lease1 (.stopped err) event = none ∧
      SchedulerState.callsTryAcquire (.stopped err) event = false) ∧
    (∀ (lease1 : Lease) (storeErr : Bool),
      SchedulerState.callsTryAcquire .followerPolling (.pollTick storeErr) = true ∧
      ∃ lease2 next,
        SchedulerState.step schedulerID lease1 .followerPolling (.pollTick storeErr) =
          some (lease2, next) ∧
        (next = .followerPolling ∨ next = .leaderLoop) ∧
        (next = .leaderLoop ↔
          (LeaderElection.TryAcquire lease1 schedulerID storeErr).2.1 = true)) := by
  refine ⟨?_, ?_, ?_, ?_⟩
  · intro h
    rw [step_renewTick]
    have hl := Renew_keeps_lease lease schedulerID getErr expireErr
    generalize LeaderElection.Renew lease schedulerID getErr expireErr = r at h hl ⊢
    obtain ⟨l1, e⟩ := r
    simp only at hl
    subst hl
    cases e with
    | none => exact absurd rfl h
    | some msg => rfl
  · intro h
    rw [step_renewTick]
    have hl := Renew_keeps_lease lease schedulerID getErr expireErr
    generalize LeaderElection.Renew lease schedulerID getErr expireErr = r at h hl ⊢
    obtain ⟨l1, e⟩ := r
    simp only at hl h
    subst hl
    subst h
    rfl
  · intro err lease1 event
    cases event <;> exact ⟨rfl, rfl⟩
  · intro lease1 storeErr
    refine ⟨rfl, ?_⟩
    unfold SchedulerState.step
    cases storeErr with
    | true =>
      exact ⟨lease1, .followerPolling, rfl, Or.inl rfl, by
        simp [LeaderElection.TryAcquire]⟩
    | false =>
      cases lease1 with
      | none =>
        exact ⟨some schedulerID, .leaderLoop, rfl, Or.inr rfl, by
          simp [LeaderElection.TryAcquire]⟩
      | some o =>
        exact ⟨some o, .followerPolling, rfl, Or.inl rfl, by
          simp [LeaderElection.TryAcquire]⟩

/-- Claim C28 on a failover: replica A is in its leader loop, its lease has expired
and replica B holds the lease; the renew tick of A finds B as the owner, `Renew`
returns an error, and A stops with "lost leadership". -/
theorem failed_renew_stops_scheduler_witness :
    (LeaderElection.Renew (some "B") "A" false false).2 = some "not the current leader" ∧
      SchedulerState.step "A" (some "B") .leaderLoop (.renewTick false false) =
        some (some "B", .stopped "lost leadership") :=
  ⟨by decide,
    (failed_renew_stops_scheduler "A" (some "B") false false).1 (by decide)⟩

/-- Claim C28, the counterexample: replica A is in its leader loop and the
context is not cancelled; `Renew` returns an error because replica B now owns the
lease.  The next state is not the polling loop: `Start` has returned, and the next
poll tick is handled by nobody, so A never calls `TryAcquire` again, even after B
has released the lease. -/
theorem failed_renew_does_not_resume_polling :
    (LeaderElection.Renew (some "B") "A" false false).2 ≠ none ∧
      SchedulerState.step "A" (some "B") .leaderLoop (.renewTick false false) ≠
        some (some "B", .followerPolling) ∧
      SchedulerState.step "A" (some "B") .leaderLoop (.renewTick false false) =
        some (some "B", .stopped "lost leadership") ∧
      SchedulerState.step "A" none (.stopped "lost leadership") (.pollTick false) = none ∧
      SchedulerState.callsTryAcquire (.stopped "lost leadership") (.pollTick false) = false := by
  decide


/-! ## Theorems about a failed registration -/

/-- C29, the counterexample: in `httpRegistry` the type `webhook` is mapped and
`notify` is not.  `Register(hookExecutor)`, whose types are `notify` and `webhook`,
returns the error for `webhook`, and `notify` is mapped to `hookExecutor` all the
same: `Get("notify")` fails before the call and succeeds after it.  On the empty
registry, `Register(dupExecutor)`, whose list names `a` twice, returns an error and
leaves `a` mapped to `dupExecutor`. -/
theorem failed_Register_changes_registry :
    StrMap.get httpRegistry "notify" = none ∧
      (httpRegistry.Register hookExecutor).2 =
        some "executor for task type webhook already registered" ∧
      StrMap.get (httpRegistry.Register hookExecutor).1 "notify" = some hookExecutor ∧
      (httpRegistry.Register hookExecutor).1 ≠ httpRegistry ∧
      (ExecutorRegistry.Register [] dupExecutor).2 =
        some "executor for task type a already registered" ∧
      StrMap.get (ExecutorRegistry.Register [] dupExecutor).1 "a" = some dupExecutor ∧
      (ExecutorRegistry.Register [] dupExecutor).1 ≠ [] := by
  decide

/-- The loop of `Register` when it ends with an error: the list of types splits at
the type `ty` that the error names, which was mapped before the call or stands
earlier in the list; the types before it were unmapped, differ from each other,
and are now mapped to the executor; every other key is as before. -/
theorem registerLoop_failed (executor : Executor) (types : List String) :
    ∀ r : ExecutorRegistry, (registerLoop executor types r).2 ≠ none →
      ∃ pre ty rest, types = pre ++ ty :: rest ∧
        (∀ t ∈ pre, StrMap.get r t = none) ∧ pre.Nodup ∧
        (StrMap.get r ty ≠ none ∨ ty ∈ pre) ∧
        (registerLoop executor types r).2 =
          some ("executor for task type " ++ ty ++ " already registered") ∧
        ∀ k, StrMap.get (registerLoop executor types r).1 k =
          if k ∈ pre then some executor else StrMap.get r k := by
  induction types with
  | nil =>
    intro r h
    exact absurd rfl h
  | cons t rest ih =>
    intro r h
    cases hget : StrMap.get r t with
    | some x =>
      refine ⟨[], t, rest, rfl, ?_, List.nodup_nil, Or.inl ?_, ?_, ?_⟩
      · intro u hu
        cases hu
      · rw [hget]
        exact fun hx => Option.noConfusion hx
      · unfold registerLoop
        rw [hget]
      · intro k
        unfold registerLoop
        rw [hget]
        simp
    | none =>
      have hstep : registerLoop executor (t :: rest) r =
          registerLoop executor rest (StrMap.set r t executor) := by
        rw [registerLoop, hget]
      rw [hstep] at h
      obtain ⟨pre, ty, rest2, hsplit, hpre, hnodup, hty, herr, hkeys⟩ := ih _ h
      have hself : StrMap.get (StrMap.set r t executor) t = some executor :=
        StrMap.get_set_self r t executor
      have htpre : t ∉ pre := by
        intro hmem
        have := hpre t hmem
        rw [hself] at this
        exact Option.noConfusion this
      refine ⟨t :: pre, ty, rest2, ?_, ?_, ?_, ?_, ?_, ?_⟩
      · rw [hsplit]
        rfl
      · intro u hu
        rcases List.mem_cons.mp hu with hu | hu
        · rw [hu]
          exact hget
        · have hne : u ≠ t := fun hx => htpre (hx ▸ hu)
          rw [← StrMap.get_set_other r t u executor hne]
          exact hpre u hu
      · exact List.nodup_cons.mpr ⟨htpre, hnodup⟩
      · by_cases hx : ty = t
        · exact Or.inr (hx ▸ List.mem_cons_self _ _)
        · rcases hty with hty | hty
          · left
            rw [← StrMap.get_set_other r t ty executor hx]
            exact hty
          · exact Or.inr (List.mem_cons_of_mem _ hty)
      · rw [hstep]
        exact herr
      · intro k
        rw [hstep, hkeys k]
        by_cases hk : k = t
        · rw [hk, if_neg htpre, if_pos (List.mem_cons_self _ _)]
          exact hself
        · have hiff : (k ∈ t :: pre) ↔ k ∈ pre := by
            simp [hk]
          by_cases hm : k ∈ pre
          · rw [if_pos hm, if_pos (hiff.mpr hm)]
          · rw [if_neg hm, if_neg (fun hx => hm (hiff.mp hx))]
            exact StrMap.get_set_other r t k executor hk

/-- Claim C29, amended: when `Register` returns an error, the list of supported types
of the executor splits at the type `ty` that the error names, a type that was
mapped before the call or that stands earlier in the list.  The types before `ty`
in the list were not mapped, and after the call every one of them is mapped to the
executor; for every other type, `Get` returns what it returned before the call.
So a type that was mapped keeps its executor, and a type that is not in the list of
the executor is as before, mapped or not. -/
theorem failed_Register_frame (r : ExecutorRegistry) (e : Executor)
    (herr : (r.Register e).2 ≠ none) :
    ∃ pre ty rest, e.supportedTaskTypes = pre ++ ty :: rest ∧
      (∀ t ∈ pre, StrMap.get r t = none) ∧ pre.Nodup ∧
      (StrMap.get r ty ≠ none ∨ ty ∈ pre) ∧
      (r.Register e).2 = some ("executor for task type " ++ ty ++ " already registered") ∧
      (∀ k, (r.Register e).1.Get k = if k ∈ pre then .ok e else r.Get k) ∧
      (∀ k x, StrMap.get r k = some x → StrMap.get (r.Register e).1 k = some x) ∧
      (∀ k, k ∉ e.supportedTaskTypes → (r.Register e).1.Get k = r.Get k) := by
  obtain ⟨pre, ty, rest, hsplit, hpre, hnodup, hty, hmsg, hkeys⟩ :=
    registerLoop_failed e e.supportedTaskTypes r herr
  refine ⟨pre, ty, rest, hsplit, hpre, hnodup, hty, hmsg, ?_, ?_, ?_⟩
  · intro k
    unfold ExecutorRegistry.Get
    have hk : StrMap.get (r.Register e).1 k = if k ∈ pre then some e else StrMap.get r k :=
      hkeys k
    rw [hk]
    by_cases hm : k ∈ pre
    · rw [if_pos hm, if_pos hm]
    · rw [if_neg hm, if_neg hm]
  · intro k x hx
    exact registerLoop_keeps e e.supportedTaskTypes r k x hx
  · intro k hk
    have hm : k ∉ pre := by
      intro hx
      apply hk
      rw [hsplit]
      exact List.mem_append_left _ hx
    unfold ExecutorRegistry.Get
    have hk2 : StrMap.get (r.Register e).1 k = if k ∈ pre then some e else StrMap.get r k :=
      hkeys k
    rw [hk2, if_neg hm]

/-- Claim C29 on the two executors: `Register(hookExecutor)` fails in `httpRegistry`
at `webhook`; the type `notify` before it in the list is mapped to `hookExecutor`
afterwards, and `webhook` and `http_request` still have `httpExecutor`. -/
theorem failed_Register_frame_witness :
    (httpRegistry.Register hookExecutor).2 ≠ none ∧
      ∃ pre ty rest, hookExecutor.supportedTaskTypes = pre ++ ty :: rest ∧
        (httpRegistry.Register hookExecutor).2 =
          some ("executor for task type " ++ ty ++ " already registered") ∧
        (∀ k, (httpRegistry.Register hookExecutor).1.Get k =
          if k ∈ pre then .ok hookExecutor else httpRegistry.Get k) ∧
        StrMap.get (httpRegistry.Register hookExecutor).1 "webhook" = some httpExecutor ∧
        StrMap.get (httpRegistry.Register hookExecutor).1 "http_request" = some httpExecutor := by
  obtain ⟨pre, ty, rest, hsplit, _, _, _, hmsg, hget, hkeep, _⟩ :=
    failed_Register_frame httpRegistry hookExecutor (by decide)
  exact ⟨by decide, pre, ty, rest, hsplit, hmsg, hget, hkeep _ _ (by decide),
    hkeep _ _ (by decide)⟩


/-! ## Theorems about the state in which `processTask` leaves a task -/

/-- Method `processTask` in closed form when the executor succeeds, no cancel mark is
set and every store call succeeds. -/
theorem processTask_success_eq (ws : WorkerService) (st : Store) (result : Blob)
    (now : Time) (q1 : Queues) (taskID : String) (task : Task) (e : Executor)
    (hpop : st.queues.PopFromWorkerQueue ws.worker.WorkerID false = (q1, taskID, none))
    (ht : st.task taskID = some task)
    (hmark : st.queues.marked taskID now = false)
    (hexec : ws.executorRegistry.Get task.TaskType = .ok e) :
    WorkerService.processTask ws st (.success result) now {} =
      ({ ws with worker := ws.worker.CompleteTask },
        { st with
          tasks := (MysqlTaskRepo.Update st.tasks (task.MarkAsSuccess result now) now false false).1
          queues := q1
          logs := st.logs ++ [{ NewStateChangeLog taskID StatusProcessing StatusSuccess
            ws.worker.WorkerID "Task completed successfully" now with
            ID := (st.logs.length : Int) + 1 }]
          registry := (st.registry.UpdateLoad ws.worker.WorkerID
            ws.worker.CompleteTask.CurrentLoad false).1 }, none) := by
  have hwid : ws.worker.CompleteTask.WorkerID = ws.worker.WorkerID := by
    unfold Worker.CompleteTask
    split <;> rfl
  unfold WorkerService.processTask
  rw [hpop]
  simp only []
  rw [GetByID_of_task st taskID task ht, CheckCancelMark_unset _ _ _ _ now hpop hmark]
  simp only []
  rw [hexec]
  simp [WorkerService.completeAndUpdateLoad, hwid, TaskLogRepo.Create]

/-- Method `processTask` in closed form when no executor is registered for the type of
the task, no cancel mark is set and every store call succeeds: whatever the
executor would return, the task is marked FAILED, no log is written and nothing is
pushed. -/
theorem processTask_missing_eq (ws : WorkerService) (st : Store) (outcome : ExecOutcome)
    (now : Time) (q1 : Queues) (taskID : String) (task : Task) (msg : String)
    (hpop : st.queues.PopFromWorkerQueue ws.worker.WorkerID false = (q1, taskID, none))
    (ht : st.task taskID = some task)
    (hmark : st.queues.marked taskID now = false)
    (hexec : ws.executorRegistry.Get task.TaskType = .error msg) :
    WorkerService.processTask ws st outcome now {} =
      ({ ws with worker := ws.worker.CompleteTask },
        { st with
          tasks := (MysqlTaskRepo.Update st.tasks
            (task.MarkAsFailed ("executor not found: " ++ task.TaskType) now) now false false).1
          queues := q1
          registry := (st.registry.UpdateLoad ws.worker.WorkerID
            ws.worker.CompleteTask.CurrentLoad false).1 },
        some ("executor not found: " ++ task.TaskType)) := by
  have hwid : ws.worker.CompleteTask.WorkerID = ws.worker.WorkerID := by
    unfold Worker.CompleteTask
    split <;> rfl
  unfold WorkerService.processTask
  rw [hpop]
  simp only []
  rw [GetByID_of_task st taskID task ht, CheckCancelMark_unset _ _ _ _ now hpop hmark]
  simp only []
  rw [hexec]
  simp [WorkerService.completeAndUpdateLoad, hwid]

/-- The row found under an id after a successful `Update` with a task of that id. -/
theorem task_after_Update (st : Store) (taskID : String) (task t2 : Task) (now : Time)
    (ht : st.task taskID = some task) (h2 : t2.TaskID = taskID) :
    (MysqlTaskRepo.Update st.tasks t2 now false false).1.find? (fun row => row.TaskID == taskID) =
      some (MysqlTaskRepo.updateRow task t2 now) := by
  have hold : st.tasks.find? (fun row => row.TaskID == t2.TaskID) = some task := by
    rw [h2]
    exact ht
  have := Update_same_id st.tasks t2 task now hold
  rw [h2] at this
  exact this

/-- After a failed execution the persisted task is final, or PENDING with its id in
the global queue of its priority. -/
theorem processTask_failure_policy_aux (ws : WorkerService) (st : Store) (errMsg : String)
    (deadlineExceeded : Bool) (now : Time) (q1 : Queues) (taskID : String) (task : Task)
    (e : Executor)
    (hpop : st.queues.PopFromWorkerQueue ws.worker.WorkerID false = (q1, taskID, none))
    (ht : st.task taskID = some task)
    (hmark : st.queues.marked taskID now = false)
    (hexec : ws.executorRegistry.Get task.TaskType = .ok e) :
    ∃ t, (WorkerService.processTask ws st (.failure errMsg deadlineExceeded) now
        {}).2.1.task taskID = some t ∧
      (t.IsFinalState = true ∨
        (t.Status = StatusPending ∧
          taskID ∈ (if t.Priority.IsHigh
            then (WorkerService.processTask ws st (.failure errMsg deadlineExceeded) now
              {}).2.1.queues.high
            else (WorkerService.processTask ws st (.failure errMsg deadlineExceeded) now
              {}).2.1.queues.normal))) := by
  have hid : task.TaskID = taskID := Store.task_id st taskID task ht
  have hfailid : (WorkerService.failedTask task errMsg deadlineExceeded now).TaskID = taskID := by
    unfold WorkerService.failedTask
    split <;> exact hid
  rw [processTask_failure_eq ws st errMsg deadlineExceeded now q1 taskID task e hpop ht hmark
    hexec]
  cases hc : (WorkerService.failedTask task errMsg deadlineExceeded now).CanRetry with
  | true =>
    simp only [if_true]
    refine ⟨_, task_after_Update st taskID task _ now ht hfailid, Or.inr ⟨rfl, ?_⟩⟩
    have hp : (MysqlTaskRepo.updateRow task
        (WorkerService.failedTask task errMsg deadlineExceeded now).MarkAsRetrying now).Priority =
        task.Priority := rfl
    rw [hp]
    simp only [Queues.PushTask, Bool.false_eq_true, if_false]
    cases task.Priority.IsHigh <;> simp
  | false =>
    simp only [Bool.false_eq_true, if_false]
    refine ⟨_, task_after_Update st taskID task _ now ht hfailid, Or.inl ?_⟩
    have hc2 : (MysqlTaskRepo.updateRow task
        (WorkerService.failedTask task errMsg deadlineExceeded now) now).CanRetry = false := by
      rw [← hc]
      cases deadlineExceeded <;> rfl
    cases deadlineExceeded
    · have hs : (MysqlTaskRepo.updateRow task
          (WorkerService.failedTask task errMsg false now) now).Status = StatusFailed := rfl
      simp [Task.IsFinalState, hc2, hs]
    · have hs : (MysqlTaskRepo.updateRow task
          (WorkerService.failedTask task errMsg true now) now).Status = StatusTimeout := rfl
      simp [Task.IsFinalState, hc2, hs]

/-- Claim C30, as the code has it: when `processTask` dequeues the id of a persisted
task and every store call succeeds, then at return: if the cancel mark of the id
is set (it exists at the time of the call) or an executor is registered for the
type of the task, the persisted task is in a final state, or it is PENDING and its
id is in the global queue of its priority; if no cancel mark is set and no
executor is registered for the type,
the persisted task is FAILED with the message "executor not found", its retry
count unchanged and its id pushed to no global queue, and that is a final state
exactly when the task has no retries left. -/
theorem processTask_leaves_final_or_queued (ws : WorkerService) (st : Store)
    (outcome : ExecOutcome) (now : Time) (q1 : Queues) (taskID : String) (task : Task)
    (hpop : st.queues.PopFromWorkerQueue ws.worker.WorkerID false = (q1, taskID, none))
    (ht : st.task taskID = some task) :
    ∃ t, (WorkerService.processTask ws st outcome now {}).2.1.task taskID = some t ∧
      ((st.queues.marked taskID now = true ∨
          (∃ e, ws.executorRegistry.Get task.TaskType = .ok e)) →
        t.IsFinalState = true ∨
          (t.Status = StatusPending ∧
            taskID ∈ (if t.Priority.IsHigh
              then (WorkerService.processTask ws st outcome now {}).2.1.queues.high
              else (WorkerService.processTask ws st outcome now {}).2.1.queues.normal))) ∧
      (st.queues.marked taskID now = false →
        (∃ msg, ws.executorRegistry.Get task.TaskType = .error msg) →
        t.Status = StatusFailed ∧ t.ErrorMsg = "executor not found: " ++ task.TaskType ∧
        t.RetryCount = task.RetryCount ∧ t.MaxRetry = task.MaxRetry ∧
        (WorkerService.processTask ws st outcome now {}).2.1.queues.high = st.queues.high ∧
        (WorkerService.processTask ws st outcome now {}).2.1.queues.normal = st.queues.normal ∧
        (t.IsFinalState = true ↔ ¬ task.RetryCount < task.MaxRetry)) := by
  have hid : task.TaskID = taskID := Store.task_id st taskID task ht
  obtain ⟨hqh, hqn, _⟩ := PopFromWorkerQueue_frame _ _ _ _ _ _ hpop
  cases hmark : st.queues.marked taskID now with
  | true =>
    rw [processTask_cancelled_eq ws st outcome now {} q1 taskID task hpop ht rfl hmark rfl]
    refine ⟨_, task_after_Update st taskID task (task.MarkAsCancelled now) now ht hid, ?_, ?_⟩
    · intro _
      left
      have hs : (MysqlTaskRepo.updateRow task (task.MarkAsCancelled now) now).Status =
          StatusCancelled := rfl
      simp [Task.IsFinalState, hs]
    · intro h
      exact absurd h (by simp)
  | false =>
    cases hexec : ws.executorRegistry.Get task.TaskType with
    | error msg =>
      rw [processTask_missing_eq ws st outcome now q1 taskID task msg hpop ht hmark hexec]
      refine ⟨_, task_after_Update st taskID task
        (task.MarkAsFailed ("executor not found: " ++ task.TaskType) now) now ht hid, ?_, ?_⟩
      · rintro (h | ⟨e, h⟩)
        · exact absurd h (by simp)
        · exact absurd h (by simp)
      · intro _ _
        refine ⟨rfl, rfl, rfl, rfl, hqh, hqn, ?_⟩
        have hs : (MysqlTaskRepo.updateRow task
            (task.MarkAsFailed ("executor not found: " ++ task.TaskType) now) now).Status =
            StatusFailed := rfl
        constructor
        · intro hfin hlt
          have hc : (MysqlTaskRepo.updateRow task
              (task.MarkAsFailed ("executor not found: " ++ task.TaskType) now) now).CanRetry =
              true := (CanRetry_unfold _).mpr ⟨Or.inl rfl, hlt⟩
          simp [Task.IsFinalState, hc, hs] at hfin
          revert hfin
          decide
        · intro hge
          have hc : (MysqlTaskRepo.updateRow task
              (task.MarkAsFailed ("executor not found: " ++ task.TaskType) now) now).CanRetry =
              false := by
            cases h : (MysqlTaskRepo.updateRow task
                (task.MarkAsFailed ("executor not found: " ++ task.TaskType) now) now).CanRetry with
            | false => rfl
            | true => exact absurd (CanRetry_lt _ h) hge
          simp [Task.IsFinalState, hc, hs]
    | ok e =>
      cases outcome with
      | success result =>
        rw [processTask_success_eq ws st result now q1 taskID task e hpop ht hmark hexec]
        refine ⟨_, task_after_Update st taskID task (task.MarkAsSuccess result now) now ht hid,
          ?_, ?_⟩
        · intro _
          left
          have hs : (MysqlTaskRepo.updateRow task (task.MarkAsSuccess result now) now).Status =
              StatusSuccess := rfl
          simp [Task.IsFinalState, hs]
        · intro _ h
          obtain ⟨msg, h⟩ := h
          exact absurd h (by simp)
      | failure errMsg deadlineExceeded =>
        have hpol := processTask_failure_policy_aux ws st errMsg deadlineExceeded now q1 taskID
          task e hpop ht hmark hexec
        obtain ⟨t, htt, hcase⟩ := hpol
        refine ⟨t, htt, ?_, ?_⟩
        · intro _
          exact hcase
        · intro _ h
          obtain ⟨msg, h⟩ := h
          exact absurd h (by simp)


/-- Claim C30 on the run: in `runStore2` the task `t1` is PROCESSING on `w1`, which
has an executor for its type; after a `processTask` of `runService` whose executor
fails, the persisted task is final, or PENDING with its id in the global queue of
its priority (here it is PENDING, in `queue:normal`). -/
theorem processTask_leaves_final_or_queued_witness :
    ∃ t, (WorkerService.processTask runService runStore2 (.failure "boom" false) (3 * Second)
        {}).2.1.task "t1" = some t ∧
      (t.IsFinalState = true ∨
        (t.Status = StatusPending ∧
          "t1" ∈ (if t.Priority.IsHigh
            then (WorkerService.processTask runService runStore2 (.failure "boom" false)
              (3 * Second) {}).2.1.queues.high
            else (WorkerService.processTask runService runStore2 (.failure "boom" false)
              (3 * Second) {}).2.1.queues.normal))) := by
  obtain ⟨t, ht, h1, _⟩ := processTask_leaves_final_or_queued runService runStore2
    (.failure "boom" false) (3 * Second) { worker := [("w1", [])] } "t1" runTask2
    (by decide) (by decide)
  exact ⟨t, ht, h1 (Or.inr ⟨{ name := "local", supportedTaskTypes := ["echo"] }, rfl⟩)⟩

/-- Claim C30, the counterexample: worker `w1` has no executor registered for
`echo`.  It takes `t1` (retry_count 0, max_retry 3) from its queue, every store
call succeeding; `processTask` marks the task FAILED and returns "executor not
found", without a retry and without a push.  The persisted task is then not in a
final state (it is FAILED with retries left) and not PENDING, and its id is in no
queue. -/
theorem failed_task_with_retries_left_not_queued :
    (runStore2.task "t1").map (fun t => (t.Status, t.RetryCount, t.MaxRetry)) =
        some (StatusProcessing, 0, 3) ∧
      runStore2.queues.workerQueue "w1" = ["t1"] ∧
      bareService.executorRegistry.Get "echo" = .error "executor for task type echo not found" ∧
      bareDone.2.2 = some "executor not found: echo" ∧
      (bareDone.2.1.task "t1").map
          (fun t => (t.Status, t.RetryCount, t.MaxRetry, t.IsFinalState)) =
        some (StatusFailed, 0, 3, false) ∧
      bareDone.2.1.queues.high = [] ∧ bareDone.2.1.queues.normal = [] ∧
      bareDone.2.1.queues.workerQueue "w1" = [] := by
  refine ⟨by decide, by decide, rfl, by decide, by decide, by decide, by decide, by decide⟩

end Bamboo
